import Mathlib

/-!
# Skybolt planet tile image loading

A shallow embedding of `PlanetTileImagesLoader.cpp` (namespace `skybolt::vis`) and
properties of `PlanetTileImagesLoader::load`.

Conventions of the embedding:

* an `osg::Image` is a value: its dimensions, its GL format codes and its buffer, held as
  the list of its elements (one entry per `uint16_t` texel for a height image, one entry
  per byte for a byte image);
* an `osg::ref_ptr<osg::Image>` is an `Option ImageRef`; the function-local static images
  of `load` are distinct constructors of `ImageRef`, so that the pointer comparison
  `heightImage == defaultHeightImage` is a comparison of constructors;
* tile sources and the cancel supplier perform I/O: they are state transformers over an
  arbitrary world type `W`;
* every run of `load` yields the list of the calls it made to its collaborators.
-/

namespace Skybolt

/-! ## Images -/

/-- OpenGL enumerant `GL_BYTE`. -/
def GL_BYTE : Nat := 0x1400
/-- OpenGL enumerant `GL_UNSIGNED_BYTE`. -/
def GL_UNSIGNED_BYTE : Nat := 0x1401
/-- OpenGL enumerant `GL_UNSIGNED_SHORT`. -/
def GL_UNSIGNED_SHORT : Nat := 0x1403
/-- OpenGL enumerant `GL_ALPHA`. -/
def GL_ALPHA : Nat := 0x1906
/-- OpenGL enumerant `GL_RGB`. -/
def GL_RGB : Nat := 0x1907
/-- OpenGL enumerant `GL_LUMINANCE`. -/
def GL_LUMINANCE : Nat := 0x1909
/-- OpenGL enumerant `GL_ALPHA8`. -/
def GL_ALPHA8 : Nat := 0x803C
/-- OpenGL enumerant `GL_RGB8`. -/
def GL_RGB8 : Nat := 0x8051
/-- OpenGL enumerant `GL_R16`. -/
def GL_R16 : Nat := 0x822A

/-- The part of an `osg::Image` that the loader reads or writes: `s()` and `t()`, the
pixel format and data type given to `allocateImage`, the internal texture format, and the
buffer as the list of its elements in memory order. -/
structure Image where
  s : Nat
  t : Nat
  pixelFormat : Nat
  dataType : Nat
  internalTextureFormat : Nat
  data : List Nat
deriving DecidableEq, Repr

/-- The call `image->setInternalTextureFormat(f)`. -/
def Image.setInternalTextureFormat (image : Image) (f : Nat) : Image :=
  { image with internalTextureFormat := f }

/-- Height value of ocean in mapbox tiles (`const int oceanFlagHeight = 32767`). -/
def oceanFlagHeight : Int := 32767

/-- Embedding of `createDefaultHeightImage`: 256 x 256 texels of `GL_LUMINANCE`,
`GL_UNSIGNED_SHORT`, internal format `GL_R16`, every texel set to `oceanFlagHeight`. -/
def createDefaultHeightImage : Image :=
  { s := 256, t := 256, pixelFormat := GL_LUMINANCE, dataType := GL_UNSIGNED_SHORT,
    internalTextureFormat := GL_R16,
    data := (List.range (256 * 256)).map (fun _ => oceanFlagHeight.toNat % 2 ^ 16) }

/-- Embedding of `createDefaultAlbedoImage`: 256 x 256 pixels of `GL_RGB`, `GL_BYTE`,
internal format `GL_RGB8`, the `3 * 256 * 256` bytes of the buffer set to zero. -/
def createDefaultAlbedoImage : Image :=
  { s := 256, t := 256, pixelFormat := GL_RGB, dataType := GL_BYTE,
    internalTextureFormat := GL_RGB8,
    data := List.replicate (3 * 256 * 256) 0 }

/-- Embedding of `convertHeightmapToLandMask`: a new `GL_ALPHA`, `GL_UNSIGNED_BYTE` image
of the size of `src` whose element `i`, for `i < src.s() * src.t()`, is `0` when the
`uint16_t` texel `pSrc[i]` is `<= oceanFlagHeight` and `255` otherwise. The product
`src.s() * src.t()` is taken in `Nat`: the embedding covers images whose texel count fits
the `int` of the source. A read past the end of the buffer yields `0`. -/
def convertHeightmapToLandMask (src : Image) : Image :=
  { s := src.s, t := src.t, pixelFormat := GL_ALPHA, dataType := GL_UNSIGNED_BYTE,
    internalTextureFormat := GL_ALPHA8,
    data := (List.range (src.s * src.t)).map
      (fun i => if ((src.data.getD i 0 : Nat) : Int) ≤ oceanFlagHeight then 0 else 255) }

/-- A height image whose buffer holds exactly `s * t` texels of 16 bits, and whose texel
count fits the `int` in which the source computes it. -/
def Image.isHeightImage (src : Image) : Prop :=
  src.data.length = src.s * src.t ∧ src.s * src.t < 2 ^ 31 ∧ ∀ v ∈ src.data, v < 2 ^ 16

instance (src : Image) : Decidable src.isHeightImage := by
  unfold Image.isHeightImage
  infer_instance

/-! ## Tile keys, image references and bundles -/

/-- Modelled from the spec: `QuadTreeTileKey` is declared in a header that is not among
the files at hand; the data model gives a tile key as `{level, x, y}`. -/
structure QuadTreeTileKey where
  level : Nat
  x : Nat
  y : Nat
deriving DecidableEq, Repr

/-- Modelled from the spec: the key of a `TileImage` to which `load` has assigned no key,
the value-initialised key of `std::make_shared<PlanetTileImages>()`. -/
def QuadTreeTileKey.unassigned : QuadTreeTileKey := ⟨0, 0, 0⟩

/-- A non-null `osg::ref_ptr<osg::Image>`. The four function-local statics of `load`
(`defaultHeightImage`, `defaultNormalMap`, `defaultLandMask`, `defaultAlbedoImage`) are
objects that no tile source can return, hence constructors of their own; any other image
object is given by its content. -/
inductive ImageRef
  | defaultHeightImage
  | defaultNormalMap
  | defaultLandMask
  | defaultAlbedoImage
  | object (image : Image)
deriving DecidableEq, Repr

/-- The `TileImage` of `TileImagesLoader.h`, by the two members that `load` uses:
`image` (null when `none`) and `key`. -/
structure TileImage where
  image : Option ImageRef
  key : QuadTreeTileKey
deriving DecidableEq, Repr

/-- A default constructed `TileImage`. -/
def TileImage.empty : TileImage := { image := none, key := QuadTreeTileKey.unassigned }

/-- Embedding of `struct PlanetTileImages`. -/
structure PlanetTileImages where
  heightMapImage : TileImage
  normalMapImage : Option ImageRef
  landMaskImage : Option ImageRef
  albedoMapImage : TileImage
  attributeMapImage : Option TileImage
deriving DecidableEq, Repr

/-- The bundle made by `std::make_shared<PlanetTileImages>()`. -/
def PlanetTileImages.empty : PlanetTileImages :=
  { heightMapImage := TileImage.empty, normalMapImage := none, landMaskImage := none,
    albedoMapImage := TileImage.empty, attributeMapImage := none }

/-! ## Image caches -/

/-- Embedding of `enum class CacheIndex`. -/
inductive CacheIndex
  | Elevation
  | LandMask
  | Albedo
  | Attribute
deriving DecidableEq, Repr

/-- Modelled from the spec: the per-layer image cache of `TileImagesLoader`, which is not
among the files at hand. It is bounded and evicts the least recently used entry; the
entries are listed most recently used first, and an entry holds what the factory
returned for its key. -/
structure LruCache where
  capacity : Nat
  entries : List (QuadTreeTileKey × Option ImageRef)
deriving DecidableEq, Repr

/-- Modelled from the spec: cache lookup. A hit yields the cached image and the cache
with that entry moved to the most recently used place. -/
def LruCache.get (c : LruCache) (key : QuadTreeTileKey) : Option (Option ImageRef × LruCache) :=
  match c.entries.find? (fun e => e.1 = key) with
  | some e => some (e.2, { c with entries := e :: c.entries.filter (fun e => e.1 ≠ key) })
  | none => none

/-- Modelled from the spec: storing a result under a key, as the most recently used
entry, dropping the least recently used entries beyond the capacity. -/
def LruCache.put (c : LruCache) (key : QuadTreeTileKey) (image : Option ImageRef) : LruCache :=
  { c with entries := ((key, image) :: c.entries.filter (fun e => e.1 ≠ key)).take c.capacity }

/-- The caches of a loader, one per `CacheIndex` (`TileImagesLoader(4)`). -/
structure Caches where
  elevationCache : LruCache
  landMaskCache : LruCache
  albedoCache : LruCache
  attributeCache : LruCache
deriving DecidableEq, Repr

/-- The cache at an index. -/
def Caches.at (cs : Caches) : CacheIndex → LruCache
  | .Elevation => cs.elevationCache
  | .LandMask => cs.landMaskCache
  | .Albedo => cs.albedoCache
  | .Attribute => cs.attributeCache

/-- Replacing the cache at an index. -/
def Caches.set (cs : Caches) (i : CacheIndex) (c : LruCache) : Caches :=
  match i with
  | .Elevation => { cs with elevationCache := c }
  | .LandMask => { cs with landMaskCache := c }
  | .Albedo => { cs with albedoCache := c }
  | .Attribute => { cs with attributeCache := c }

/-- Four empty caches of one capacity. -/
def Caches.empty (capacity : Nat) : Caches :=
  { elevationCache := ⟨capacity, []⟩, landMaskCache := ⟨capacity, []⟩,
    albedoCache := ⟨capacity, []⟩, attributeCache := ⟨capacity, []⟩ }

/-! ## Tile sources, the run state and the trace of calls -/

/-- The layer a tile source serves. -/
inductive Layer
  | elevationLayer
  | landMaskLayer
  | albedoLayer
  | attributeLayer
deriving DecidableEq, Repr

/-- A `TileSource` (declared in `TileSource/TileSource.h`) by its two methods. Both may
perform I/O, so both act on the world; `createImage` is handed the cancel supplier. -/
structure TileSource (W : Type) where
  getHighestAvailableLevel : QuadTreeTileKey → W → Option QuadTreeTileKey × W
  createImage : QuadTreeTileKey → (W → Bool × W) → W → Option Image × W

/-- A call made by `load` to one of its collaborators, with what the call returned. The
calls of the cancel supplier that a tile source makes inside `createImage` are part of
what `createImage` does to the world, and are not listed. -/
inductive Event
  | cancelSupplier (result : Bool)
  | getHighestAvailableLevel (layer : Layer) (key : QuadTreeTileKey)
      (result : Option QuadTreeTileKey)
  | createImage (layer : Layer) (key : QuadTreeTileKey) (result : Option Image)
deriving DecidableEq, Repr

/-- What a run of `load` threads through: the world of the collaborators, the image
caches of the loader, and the calls made so far. -/
structure Run (W : Type) where
  world : W
  caches : Caches
  trace : List Event

/-- The state in which a call of `load` starts. -/
def Run.start {W : Type} (world : W) (caches : Caches) : Run W :=
  { world := world, caches := caches, trace := [] }

/-- The call `cancelSupplier()` made by `load` itself. -/
def callCancelSupplier {W : Type} (cancelSupplier : W → Bool × W) (r : Run W) : Bool × Run W :=
  ((cancelSupplier r.world).1,
   { r with world := (cancelSupplier r.world).2,
            trace := r.trace ++ [Event.cancelSupplier (cancelSupplier r.world).1] })

/-- The call `layer->getHighestAvailableLevel(key)`. -/
def callGetHighestAvailableLevel {W : Type} (layer : Layer) (source : TileSource W)
    (key : QuadTreeTileKey) (r : Run W) : Option QuadTreeTileKey × Run W :=
  ((source.getHighestAvailableLevel key r.world).1,
   { r with world := (source.getHighestAvailableLevel key r.world).2,
            trace := r.trace ++ [Event.getHighestAvailableLevel layer key
              (source.getHighestAvailableLevel key r.world).1] })

/-- The call `layer->createImage(key, cancelSupplier)`. -/
def callCreateImage {W : Type} (layer : Layer) (source : TileSource W)
    (key : QuadTreeTileKey) (cancelSupplier : W → Bool × W) (r : Run W) :
    Option Image × Run W :=
  ((source.createImage key cancelSupplier r.world).1,
   { r with world := (source.createImage key cancelSupplier r.world).2,
            trace := r.trace ++ [Event.createImage layer key
              (source.createImage key cancelSupplier r.world).1] })

/-- Modelled from the spec: `TileImagesLoader::getOrCreateImage`, which is not among the
files at hand. If the key is present in the cache of the given index the cached image is
returned and the factory is not invoked; otherwise the factory is invoked, its result is
stored under the key and returned. The returned `TileImage` carries the key. -/
def getOrCreateImage {W : Type} (key : QuadTreeTileKey) (cacheIndex : CacheIndex)
    (imageCreator : QuadTreeTileKey → Run W → Option ImageRef × Run W) (r : Run W) :
    TileImage × Run W :=
  match (r.caches.at cacheIndex).get key with
  | some hit =>
    ({ image := hit.1, key := key }, { r with caches := r.caches.set cacheIndex hit.2 })
  | none =>
    ({ image := (imageCreator key r).1, key := key },
     { (imageCreator key r).2 with
       caches := (imageCreator key r).2.caches.set cacheIndex
         (((imageCreator key r).2.caches.at cacheIndex).put key (imageCreator key r).1) })

/-! ## The loader -/

/-- An `osg::Vec2`. -/
structure Vec2 (F : Type) where
  x : F
  y : F

/-- The longitude/latitude box returned by `getKeyLonLatBounds`, by the two accessors
that `load` calls on it. -/
structure LonLatBounds (F : Type) where
  size : Vec2 F
  center : Vec2 F

/-- Embedding of `class PlanetTileImagesLoader`, over a world type `W` and a type `F` of
floating point numbers. Besides the members of the class it holds the functions that
`load` calls and that are declared in headers outside the files at hand: the floating
point operations, `getKeyLonLatBounds`, `createNormalmapFromHeightmap` and
`convertAttributeMap` (applied to `getNlcdAttributeColors()`). -/
structure PlanetTileImagesLoader (W F : Type) where
  /-- never null -/
  elevationLayer : TileSource W
  /-- can be null -/
  attributeLayer : Option (TileSource W)
  /-- never null -/
  albedoLayer : TileSource W
  /-- tested for null by `load` -/
  landMaskLayer : Option (TileSource W)
  mPlanetRadius : F
  mul : F → F → F
  div : F → F → F
  cos : F → F
  ofInt : Nat → F
  getKeyLonLatBounds : QuadTreeTileKey → LonLatBounds F
  /-- Modelled from the spec: the normal map derived from a height image and the world
  size of a texel; the derivation always yields an image. -/
  createNormalmapFromHeightmap : Image → Vec2 F → Image
  /-- Modelled from the spec: the colour remapping of a raw attribute image. -/
  convertAttributeMap : Image → Image

variable {W F : Type}

/-- The image object behind a reference. The statics are built as in `load`:
`createDefaultHeightImage()`, `createNormalmapFromHeightmap(*defaultHeightImage,
osg::Vec2(1,1))`, `convertHeightmapToLandMask(*defaultHeightImage)` and
`createDefaultAlbedoImage()`. -/
def PlanetTileImagesLoader.deref (L : PlanetTileImagesLoader W F) : ImageRef → Image
  | .defaultHeightImage => createDefaultHeightImage
  | .defaultNormalMap =>
    L.createNormalmapFromHeightmap createDefaultHeightImage ⟨L.ofInt 1, L.ofInt 1⟩
  | .defaultLandMask => convertHeightmapToLandMask createDefaultHeightImage
  | .defaultAlbedoImage => createDefaultAlbedoImage
  | .object image => image

/-- The `texelWorldSize` of `load` for a height image sourced from `key`. -/
def PlanetTileImagesLoader.texelWorldSize (L : PlanetTileImagesLoader W F)
    (key : QuadTreeTileKey) (heightImage : Image) : Vec2 F :=
  { x := L.div (L.mul (L.mul (L.getKeyLonLatBounds key).size.x L.mPlanetRadius)
            (L.cos (L.getKeyLonLatBounds key).center.y)) (L.ofInt heightImage.s),
    y := L.div (L.mul (L.getKeyLonLatBounds key).size.y L.mPlanetRadius)
            (L.ofInt heightImage.t) }

/-- The state of `load` after a block: the bundle under construction and the run. -/
structure Loading (W : Type) where
  images : PlanetTileImages
  run : Run W

/-- The image factory of the elevation layer (the lambda of the `// Height map` block). -/
def PlanetTileImagesLoader.elevationImageCreator (L : PlanetTileImagesLoader W F)
    (cancelSupplier : W → Bool × W) (key : QuadTreeTileKey) (r : Run W) :
    Option ImageRef × Run W :=
  ((callCreateImage .elevationLayer L.elevationLayer key cancelSupplier r).1.map
     (fun image => ImageRef.object (image.setInternalTextureFormat GL_R16)),
   (callCreateImage .elevationLayer L.elevationLayer key cancelSupplier r).2)

/-- The first half of the `// Height map` block: the query of the elevation source and,
if it resolves a key, the cache lookup under that key. -/
def PlanetTileImagesLoader.fetchHeightMap (L : PlanetTileImagesLoader W F)
    (key : QuadTreeTileKey) (cancelSupplier : W → Bool × W) (st : Loading W) : Loading W :=
  match (callGetHighestAvailableLevel .elevationLayer L.elevationLayer key st.run).1 with
  | some elevationKey =>
    { images := { st.images with
        heightMapImage := (getOrCreateImage elevationKey .Elevation
          (L.elevationImageCreator cancelSupplier)
          (callGetHighestAvailableLevel .elevationLayer L.elevationLayer key st.run).2).1 },
      run := (getOrCreateImage elevationKey .Elevation
          (L.elevationImageCreator cancelSupplier)
          (callGetHighestAvailableLevel .elevationLayer L.elevationLayer key st.run).2).2 }
  | none =>
    { images := st.images,
      run := (callGetHighestAvailableLevel .elevationLayer L.elevationLayer key st.run).2 }

/-- The second half of the `// Height map` block: the normal map of a height image that
was found, or else the default height image and the default normal map. -/
def PlanetTileImagesLoader.finishHeightMap (L : PlanetTileImagesLoader W F)
    (st : Loading W) : Loading W :=
  match st.images.heightMapImage.image with
  | some heightImage =>
    { st with images := { st.images with
        normalMapImage := some (ImageRef.object (L.createNormalmapFromHeightmap
          (L.deref heightImage)
          (L.texelWorldSize st.images.heightMapImage.key (L.deref heightImage)))) } }
  | none =>
    { st with images := { st.images with
        heightMapImage := { st.images.heightMapImage with
          image := some ImageRef.defaultHeightImage },
        normalMapImage := some ImageRef.defaultNormalMap } }

/-- The `// Height map` block of `load`. -/
def PlanetTileImagesLoader.loadHeightMap (L : PlanetTileImagesLoader W F)
    (key : QuadTreeTileKey) (cancelSupplier : W → Bool × W) (st : Loading W) : Loading W :=
  L.finishHeightMap (L.fetchHeightMap key cancelSupplier st)

/-- The image factory of the land mask (the lambda of the `// Land mask` block), which
captures `heightImage`. A null `heightImage` is not dereferenced on any path of `load`:
the factory is given the reference itself. -/
def PlanetTileImagesLoader.landMaskImageCreator (L : PlanetTileImagesLoader W F)
    (heightImage : ImageRef) (cancelSupplier : W → Bool × W) (key : QuadTreeTileKey)
    (r : Run W) : Option ImageRef × Run W :=
  match L.landMaskLayer with
  | some landMaskLayer =>
    ((callCreateImage .landMaskLayer landMaskLayer key cancelSupplier r).1.map
       ImageRef.object,
     (callCreateImage .landMaskLayer landMaskLayer key cancelSupplier r).2)
  | none =>
    if heightImage = ImageRef.defaultHeightImage then
      (some ImageRef.defaultLandMask, r)
    else
      (some (ImageRef.object (convertHeightmapToLandMask (L.deref heightImage))), r)

/-- The `// Land mask` block of `load`. The lambda dereferences the captured
`heightImage`; no null `heightImage` reaches this block in `load`, and the block is left
undefined (`none`) for one. -/
def PlanetTileImagesLoader.loadLandMask (L : PlanetTileImagesLoader W F)
    (cancelSupplier : W → Bool × W) (st : Loading W) : Option (Loading W) :=
  match st.images.heightMapImage.image with
  | none => none
  | some heightImage =>
    some
      { images := { st.images with
          landMaskImage :=
            match (getOrCreateImage st.images.heightMapImage.key .LandMask
              (L.landMaskImageCreator heightImage cancelSupplier) st.run).1.image with
            | some image => some image
            | none => some ImageRef.defaultLandMask },
        run := (getOrCreateImage st.images.heightMapImage.key .LandMask
              (L.landMaskImageCreator heightImage cancelSupplier) st.run).2 }

/-- The image factory of the albedo layer. -/
def PlanetTileImagesLoader.albedoImageCreator (L : PlanetTileImagesLoader W F)
    (cancelSupplier : W → Bool × W) (key : QuadTreeTileKey) (r : Run W) :
    Option ImageRef × Run W :=
  ((callCreateImage .albedoLayer L.albedoLayer key cancelSupplier r).1.map ImageRef.object,
   (callCreateImage .albedoLayer L.albedoLayer key cancelSupplier r).2)

/-- The first half of the `// Albedo map` block: query and cache lookup. -/
def PlanetTileImagesLoader.fetchAlbedoMap (L : PlanetTileImagesLoader W F)
    (key : QuadTreeTileKey) (cancelSupplier : W → Bool × W) (st : Loading W) : Loading W :=
  match (callGetHighestAvailableLevel .albedoLayer L.albedoLayer key st.run).1 with
  | some albedoKey =>
    { images := { st.images with
        albedoMapImage := (getOrCreateImage albedoKey .Albedo
          (L.albedoImageCreator cancelSupplier)
          (callGetHighestAvailableLevel .albedoLayer L.albedoLayer key st.run).2).1 },
      run := (getOrCreateImage albedoKey .Albedo
          (L.albedoImageCreator cancelSupplier)
          (callGetHighestAvailableLevel .albedoLayer L.albedoLayer key st.run).2).2 }
  | none =>
    { images := st.images,
      run := (callGetHighestAvailableLevel .albedoLayer L.albedoLayer key st.run).2 }

/-- The second half of the `// Albedo map` block: the default image for a null one. -/
def PlanetTileImagesLoader.finishAlbedoMap (st : Loading W) : Loading W :=
  match st.images.albedoMapImage.image with
  | some _ => st
  | none =>
    { st with images := { st.images with
        albedoMapImage := { st.images.albedoMapImage with
          image := some ImageRef.defaultAlbedoImage } } }

/-- The `// Albedo map` block of `load`. -/
def PlanetTileImagesLoader.loadAlbedoMap (L : PlanetTileImagesLoader W F)
    (key : QuadTreeTileKey) (cancelSupplier : W → Bool × W) (st : Loading W) : Loading W :=
  PlanetTileImagesLoader.finishAlbedoMap (L.fetchAlbedoMap key cancelSupplier st)

/-- The image factory of the attribute layer. -/
def PlanetTileImagesLoader.attributeImageCreator (L : PlanetTileImagesLoader W F)
    (attributeLayer : TileSource W) (cancelSupplier : W → Bool × W) (key : QuadTreeTileKey)
    (r : Run W) : Option ImageRef × Run W :=
  ((callCreateImage .attributeLayer attributeLayer key cancelSupplier r).1.map
     (fun image => ImageRef.object (L.convertAttributeMap image)),
   (callCreateImage .attributeLayer attributeLayer key cancelSupplier r).2)

/-- The outcome of the `// Attribute map` block: the block ran to its end, or it applied
`operator*` to an empty `std::optional`, which is undefined behaviour. -/
inductive AttributeStep (W : Type)
  | completed (st : Loading W)
  | emptyOptionalDereferenced (run : Run W)

/-- The `// Attribute map` block of `load`. With an attribute layer, `*attributeKey` is
evaluated whatever `getHighestAvailableLevel` returned. Without one, the branch
`else if (!images->attributeMapImage && false)` is never taken. -/
def PlanetTileImagesLoader.loadAttributeMap (L : PlanetTileImagesLoader W F)
    (key : QuadTreeTileKey) (cancelSupplier : W → Bool × W) (st : Loading W) :
    AttributeStep W :=
  match L.attributeLayer with
  | some attributeLayer =>
    match (callGetHighestAvailableLevel .attributeLayer attributeLayer key st.run).1 with
    | none =>
      .emptyOptionalDereferenced
        (callGetHighestAvailableLevel .attributeLayer attributeLayer key st.run).2
    | some attributeKey =>
      .completed
        { images := { st.images with
            attributeMapImage :=
              match (getOrCreateImage attributeKey .Attribute
                (L.attributeImageCreator attributeLayer cancelSupplier)
                (callGetHighestAvailableLevel .attributeLayer attributeLayer key
                  st.run).2).1.image with
              | some _ => some (getOrCreateImage attributeKey .Attribute
                  (L.attributeImageCreator attributeLayer cancelSupplier)
                  (callGetHighestAvailableLevel .attributeLayer attributeLayer key
                    st.run).2).1
              | none => none },
          run := (getOrCreateImage attributeKey .Attribute
                (L.attributeImageCreator attributeLayer cancelSupplier)
                (callGetHighestAvailableLevel .attributeLayer attributeLayer key
                  st.run).2).2 }
  | none => .completed st

/-- What a call of `load` does: it returns a pointer to a bundle (null when `none`), or
its behaviour is undefined. -/
inductive Outcome
  | returned (images : Option PlanetTileImages)
  | undefinedBehaviour
deriving DecidableEq, Repr

/-- The last statements of `load`: the final call of the cancel supplier. -/
def finishLoad (cancelSupplier : W → Bool × W) (st : Loading W) : Outcome × Run W :=
  if (callCancelSupplier cancelSupplier st.run).1 then
    (Outcome.returned none, (callCancelSupplier cancelSupplier st.run).2)
  else
    (Outcome.returned (some st.images), (callCancelSupplier cancelSupplier st.run).2)

/-- The four blocks of `load` and its last statements, entered when the first call of
the cancel supplier returned false. -/
def PlanetTileImagesLoader.loadLayers (L : PlanetTileImagesLoader W F)
    (key : QuadTreeTileKey) (cancelSupplier : W → Bool × W) (r : Run W) : Outcome × Run W :=
  match L.loadLandMask cancelSupplier
      (L.loadHeightMap key cancelSupplier { images := PlanetTileImages.empty, run := r }) with
  | none =>
    (Outcome.undefinedBehaviour,
     (L.loadHeightMap key cancelSupplier { images := PlanetTileImages.empty, run := r }).run)
  | some masked =>
    match L.loadAttributeMap key cancelSupplier (L.loadAlbedoMap key cancelSupplier masked) with
    | .emptyOptionalDereferenced run => (Outcome.undefinedBehaviour, run)
    | .completed st => finishLoad cancelSupplier st

/-- Embedding of `PlanetTileImagesLoader::load`. -/
def PlanetTileImagesLoader.load (L : PlanetTileImagesLoader W F) (key : QuadTreeTileKey)
    (cancelSupplier : W → Bool × W) (r : Run W) : Outcome × Run W :=
  if (callCancelSupplier cancelSupplier r).1 then
    (Outcome.returned none, (callCancelSupplier cancelSupplier r).2)
  else
    L.loadLayers key cancelSupplier (callCancelSupplier cancelSupplier r).2

/-! ## Facts about one run, and sample inputs -/

/-- A 2 x 2 height image with texels below, at and above the threshold. -/
def sampleHeightImage : Image :=
  { s := 2, t := 2, pixelFormat := GL_LUMINANCE, dataType := GL_UNSIGNED_SHORT,
    internalTextureFormat := GL_R16, data := [0, 32767, 32768, 65535] }

/-- The elevation block made the default substitution. -/
def DefaultHeight (img nm : ImageRef) : Prop :=
  img = ImageRef.defaultHeightImage ∧ nm = ImageRef.defaultNormalMap

/-- The calls that follow `getHighestAvailableLevel` in a block that looks the resolved
key up in a cache, and what they settle: the block makes no further call, or one call of
`createImage` for the resolved key; the key it records is the resolved one; and an
unresolved key or a null created image leads to the default. -/
def Fetched (layer : Layer) (q : Option QuadTreeTileKey) (rest : List Event)
    (k : QuadTreeTileKey) (isDefault : Prop) : Prop :=
  (rest = [] ∨ ∃ k' res, q = some k' ∧ rest = [Event.createImage layer k' res] ∧
    (res = none → isDefault)) ∧
  (∀ k', q = some k' → k = k') ∧
  (q = none → isDefault)

/-- The calls `evs` and the land mask `lm` of the land mask block, for the land mask cache
`cache` it starts from, the height image `h` and the key `k` of the height image. -/
def LandMaskFacts (L : PlanetTileImagesLoader W F) (cache : LruCache) (h : ImageRef)
    (k : QuadTreeTileKey) (evs : List Event) (lm : ImageRef) : Prop :=
  (∀ hit, cache.get k = some hit → evs = [] ∧ lm = hit.1.getD ImageRef.defaultLandMask) ∧
  (cache.get k = none →
    (∀ src, L.landMaskLayer = some src →
      ∃ res, evs = [Event.createImage .landMaskLayer k res] ∧
        lm = (res.map ImageRef.object).getD ImageRef.defaultLandMask) ∧
    (L.landMaskLayer = none → evs = [] ∧
      lm = if h = ImageRef.defaultHeightImage then ImageRef.defaultLandMask
           else ImageRef.object (convertHeightmapToLandMask (L.deref h))))

/-- The calls `evs` of the attribute block that ran to its end, and the attribute image
`att` it leaves in the bundle. -/
def AttributeFacts (L : PlanetTileImagesLoader W F) (key : QuadTreeTileKey)
    (evs : List Event) (att : Option TileImage) : Prop :=
  (L.attributeLayer = none ∧ evs = [] ∧ att = none) ∨
  (∃ src k rest, L.attributeLayer = some src ∧
    evs = Event.getHighestAvailableLevel .attributeLayer key (some k) :: rest ∧
    (rest = [] ∨ ∃ res, rest = [Event.createImage .attributeLayer k res] ∧
      (res = none → att = none)) ∧
    (∀ t, att = some t → t.key = k ∧ t.image ≠ none))

/-- The calls of the elevation, land mask and albedo blocks of one run of `load`, in the
order in which they are made. -/
def layerCalls (key : QuadTreeTileKey) (qe : Option QuadTreeTileKey) (reste evm : List Event)
    (qa : Option QuadTreeTileKey) (resta : List Event) : List Event :=
  (Event.getHighestAvailableLevel .elevationLayer key qe :: reste) ++ evm ++
    (Event.getHighestAvailableLevel .albedoLayer key qa :: resta)

/-- The layer whose source an event is a call to; `none` for a call of the cancel
supplier. -/
def Event.layer? : Event → Option Layer
  | .cancelSupplier _ => none
  | .getHighestAvailableLevel layer _ _ => some layer
  | .createImage layer _ _ => some layer

/-- A tile source over a clock: every call advances the clock by one, a key resolves as
`levels` says and an image is created as `images` says. -/
def clockSource (levels : QuadTreeTileKey → Option QuadTreeTileKey)
    (images : QuadTreeTileKey → Option Image) : TileSource Nat :=
  { getHighestAvailableLevel := fun key w => (levels key, w + 1),
    createImage := fun key _ w => (images key, w + 1) }

/-- A loader over the clock, with integer arithmetic in place of floating point. -/
def sampleLoader (elevation albedo : TileSource Nat)
    (attributeLayer landMaskLayer : Option (TileSource Nat)) :
    PlanetTileImagesLoader Nat Int :=
  { elevationLayer := elevation, attributeLayer := attributeLayer, albedoLayer := albedo,
    landMaskLayer := landMaskLayer, mPlanetRadius := 6371000,
    mul := fun a b => a * b, div := fun a b => a / b, cos := fun _ => 1,
    ofInt := fun n => (n : Int),
    getKeyLonLatBounds := fun _ => ⟨⟨1, 1⟩, ⟨0, 0⟩⟩,
    createNormalmapFromHeightmap := fun h _ =>
      { h with pixelFormat := GL_RGB, dataType := GL_UNSIGNED_BYTE,
               internalTextureFormat := GL_RGB8, data := [] },
    convertAttributeMap := fun image => image }

/-- A source with data for the tiles of the western root tile only, all resolved to
that root tile. -/
def westernSource : TileSource Nat :=
  clockSource (fun k => if k.x = 0 then some ⟨0, 0, 0⟩ else none)
    (fun _ => some sampleHeightImage)

/-- The cancel supplier that never cancels. -/
def neverCancel : Nat → Bool × Nat := fun w => (false, w)

/-- The bundle of a tile for which no source has data. -/
def oceanBundle : PlanetTileImages :=
  { heightMapImage := ⟨some ImageRef.defaultHeightImage, ⟨0, 0, 0⟩⟩,
    normalMapImage := some ImageRef.defaultNormalMap,
    landMaskImage := some ImageRef.defaultLandMask,
    albedoMapImage := ⟨some ImageRef.defaultAlbedoImage, ⟨0, 0, 0⟩⟩,
    attributeMapImage := none }

/-- The cancel supplier that always cancels. -/
def alwaysCancel : Nat → Bool × Nat := fun w => (true, w)

/-- A source with data at level 2 only: a key at a finer level resolves to its ancestor
at level 2, a coarser key does not resolve. -/
def levelTwoSource : TileSource Nat :=
  clockSource
    (fun k => if 2 ≤ k.level then
        some ⟨2, k.x / 2 ^ (k.level - 2), k.y / 2 ^ (k.level - 2)⟩
      else none)
    (fun k => if k.level = 2 then some sampleHeightImage else none)

/-- The bundle of a tile whose elevation and albedo come from the tile (2, 1, 2) of
`levelTwoSource`. -/
def levelTwoBundle : PlanetTileImages :=
  { heightMapImage := ⟨some (ImageRef.object sampleHeightImage), ⟨2, 1, 2⟩⟩,
    normalMapImage := some (ImageRef.object
      { sampleHeightImage with pixelFormat := GL_RGB, dataType := GL_UNSIGNED_BYTE,
                               internalTextureFormat := GL_RGB8, data := [] }),
    landMaskImage := some (ImageRef.object (convertHeightmapToLandMask sampleHeightImage)),
    albedoMapImage := ⟨some (ImageRef.object sampleHeightImage), ⟨2, 1, 2⟩⟩,
    attributeMapImage := none }

/-- A source with no data at all. -/
def emptySource : TileSource Nat :=
  clockSource (fun _ => none) (fun _ => none)

/-- A land mask source that marks every texel of every tile as land. -/
def landSource : TileSource Nat :=
  clockSource (fun k => some k)
    (fun _ => some { s := 2, t := 2, pixelFormat := GL_ALPHA, dataType := GL_UNSIGNED_BYTE,
                     internalTextureFormat := GL_ALPHA8, data := [255, 255, 255, 255] })

/-- The bundle of the root tile (0, 0, 0) loaded from `westernSource` with the land mask
of `landSource`. -/
def landBundle : PlanetTileImages :=
  { heightMapImage := ⟨some (ImageRef.object sampleHeightImage), ⟨0, 0, 0⟩⟩,
    normalMapImage := some (ImageRef.object
      { sampleHeightImage with pixelFormat := GL_RGB, dataType := GL_UNSIGNED_BYTE,
                               internalTextureFormat := GL_RGB8, data := [] }),
    landMaskImage := some (ImageRef.object
      { s := 2, t := 2, pixelFormat := GL_ALPHA, dataType := GL_UNSIGNED_BYTE,
        internalTextureFormat := GL_ALPHA8, data := [255, 255, 255, 255] }),
    albedoMapImage := ⟨some (ImageRef.object sampleHeightImage), ⟨0, 0, 0⟩⟩,
    attributeMapImage := none }

/-- The caches and the clock left by loading the eastern root tile (0, 1, 0), for which
`westernSource` has no data, into empty caches. -/
def afterEasternLoad : Run Nat :=
  ((sampleLoader westernSource westernSource none none).load ⟨0, 1, 0⟩ neverCancel
    (Run.start 0 (Caches.empty 4))).2

/-- The bundle that `load` returns for the western root tile (0, 0, 0) after the eastern
root tile has been loaded. -/
def staleBundle : PlanetTileImages :=
  { heightMapImage := ⟨some (ImageRef.object sampleHeightImage), ⟨0, 0, 0⟩⟩,
    normalMapImage := some (ImageRef.object
      { sampleHeightImage with pixelFormat := GL_RGB, dataType := GL_UNSIGNED_BYTE,
                               internalTextureFormat := GL_RGB8, data := [] }),
    landMaskImage := some ImageRef.defaultLandMask,
    albedoMapImage := ⟨some (ImageRef.object sampleHeightImage), ⟨0, 0, 0⟩⟩,
    attributeMapImage := none }

/-- The caches and the clock left by loading the western root tile (0, 0, 0), for which
`westernSource` has a height image with land, into empty caches. -/
def afterWesternLoad : Run Nat :=
  ((sampleLoader westernSource westernSource none none).load ⟨0, 0, 0⟩ neverCancel
    (Run.start 0 (Caches.empty 4))).2

/-- The bundle that `load` returns for the eastern root tile (0, 1, 0), for which the
elevation source has no data, after the western root tile has been loaded. -/
def easternBundleAfterWestern : PlanetTileImages :=
  { heightMapImage := ⟨some ImageRef.defaultHeightImage, ⟨0, 0, 0⟩⟩,
    normalMapImage := some ImageRef.defaultNormalMap,
    landMaskImage := some (ImageRef.object (convertHeightmapToLandMask sampleHeightImage)),
    albedoMapImage := ⟨some ImageRef.defaultAlbedoImage, ⟨0, 0, 0⟩⟩,
    attributeMapImage := none }

/-- What the height map block does to the elevation cache, from `cache` to `cache'`, for
the resolved key `q`, the calls `rest` after the query and the height image `img`: no
lookup without a resolved key; on a hit no call, and a cached non-null image is the height
image; on a miss one `createImage` for the resolved key, whose result is stored, and a
created image is the height image. -/
def ElevationCacheFacts (cache cache' : LruCache) (q : Option QuadTreeTileKey)
    (rest : List Event) (img : ImageRef) : Prop :=
  (q = none → cache' = cache) ∧
  (∀ k hit, q = some k → cache.get k = some hit →
    cache' = hit.2 ∧ rest = [] ∧ ∀ i, hit.1 = some i → img = i) ∧
  (∀ k, q = some k → cache.get k = none →
    ∃ res, rest = [Event.createImage .elevationLayer k res] ∧
      cache' = cache.put k
        (res.map fun image => ImageRef.object (image.setInternalTextureFormat GL_R16)) ∧
      ∀ i, res = some i → img = ImageRef.object (i.setInternalTextureFormat GL_R16))

/-- The normal map `nm` that the height map block derives for the height image `img`
recorded under the key `k`: the default pair, or the normal map of the height image for
the texel size of the key `k`. -/
def NormalMapFacts (L : PlanetTileImagesLoader W F) (img nm : ImageRef)
    (k : QuadTreeTileKey) : Prop :=
  DefaultHeight img nm ∨
  nm = ImageRef.object (L.createNormalmapFromHeightmap (L.deref img)
    (L.texelWorldSize k (L.deref img)))

/-- The texel world size as the specification words it, for the bounds `B` of a tile and
an image of width `w` and height `h`: `(B.size().x * planetRadius * cos(B.center().y) / w,
B.size().y * planetRadius / h)`, in the floating point operations of the loader. -/
def specTexelWorldSize (L : PlanetTileImagesLoader W F) (B : LonLatBounds F) (w h : Nat) :
    Vec2 F :=
  { x := L.div (L.mul (L.mul B.size.x L.mPlanetRadius) (L.cos B.center.y)) (L.ofInt w),
    y := L.div (L.mul B.size.y L.mPlanetRadius) (L.ofInt h) }

/-- Whether an event is a call of `createImage` on the elevation source for the key. -/
def Event.isElevationCreate (k : QuadTreeTileKey) : Event → Bool
  | .createImage .elevationLayer k' _ => decide (k' = k)
  | _ => false

/-- Embedding of `fillBathymetryInHeightmap`, the one function of the file that writes to
the texels of an existing image: a texel below the sea level value becomes that value
minus 10, a texel equal to it becomes that value plus 1, stored as `uint16_t`. The sea
level value `getHeightmapSeaLevelValueInt()` is declared in a header outside the files at
hand and is a parameter here. The embedding of `load` does not use this function: its
one call, in the land mask factory, is commented out in the source. -/
def fillBathymetryInHeightmap (seaLevel : Int) (src : Image) : Image :=
  { src with
    data := (List.range (src.s * src.t)).map (fun i =>
        if ((src.data.getD i 0 : Nat) : Int) < seaLevel then ((seaLevel - 10) % 2 ^ 16).toNat
        else if ((src.data.getD i 0 : Nat) : Int) ≤ seaLevel then
          ((seaLevel + 1) % 2 ^ 16).toNat
        else src.data.getD i 0) ++ src.data.drop (src.s * src.t) }

/-- The caches left by loading the tile (5, 0, 0) from `westernSource` into empty
caches. -/
def afterFirstLoad : Run Nat :=
  ((sampleLoader westernSource westernSource none none).load ⟨5, 0, 0⟩ neverCancel
    (Run.start 0 (Caches.empty 4))).2

/-! ## PlanetStatsUpdater -/

/-- The notifications of a `PlanetSurfaceListener` that `PlanetStatsUpdater` handles. -/
inductive Notification
  | tileLoadRequested
  | tileLoaded
  | tileLoadCanceled
deriving DecidableEq, Repr

/-- The two counters that a `PlanetStatsUpdater` writes: `mStats->tileLoadQueueSize`,
shared through the `EngineStats` pointer, and its own `mOwnTilesLoading`. -/
structure PlanetStatsUpdater where
  tileLoadQueueSize : Nat
  mOwnTilesLoading : Nat
deriving DecidableEq, Repr

/-- The number of values of `size_t`, the type of `mOwnTilesLoading`. -/
def sizeModulus : Nat := 2 ^ 64

/-- Embedding of the three handlers `tileLoadRequested`, `tileLoaded` and
`tileLoadCanceled`: an increment or a decrement of both counters. `EngineStats` is
declared in a header outside the files at hand: its counter is taken as an unsigned
counter with `queueModulus` values. -/
def PlanetStatsUpdater.notify (queueModulus : Nat) (u : PlanetStatsUpdater) :
    Notification → PlanetStatsUpdater
  | .tileLoadRequested =>
    { tileLoadQueueSize := (u.tileLoadQueueSize + 1) % queueModulus,
      mOwnTilesLoading := (u.mOwnTilesLoading + 1) % sizeModulus }
  | .tileLoaded =>
    { tileLoadQueueSize := (u.tileLoadQueueSize + (queueModulus - 1)) % queueModulus,
      mOwnTilesLoading := (u.mOwnTilesLoading + (sizeModulus - 1)) % sizeModulus }
  | .tileLoadCanceled =>
    { tileLoadQueueSize := (u.tileLoadQueueSize + (queueModulus - 1)) % queueModulus,
      mOwnTilesLoading := (u.mOwnTilesLoading + (sizeModulus - 1)) % sizeModulus }

/-- The updater after a sequence of notifications. -/
def PlanetStatsUpdater.run (queueModulus : Nat) (u : PlanetStatsUpdater) :
    List Notification → PlanetStatsUpdater
  | [] => u
  | n :: rest => PlanetStatsUpdater.run queueModulus (u.notify queueModulus n) rest

/-- Embedding of `~PlanetStatsUpdater`: the value of `mStats->tileLoadQueueSize` after
`mStats->tileLoadQueueSize -= mOwnTilesLoading`. -/
def PlanetStatsUpdater.destroy (queueModulus : Nat) (u : PlanetStatsUpdater) : Nat :=
  (u.tileLoadQueueSize + (queueModulus - u.mOwnTilesLoading % queueModulus)) % queueModulus

/-- Whether each `tileLoaded` and `tileLoadCanceled` of the sequence is preceded by a
`tileLoadRequested` that no earlier one has matched, `pending` requests being unmatched
at the start. -/
def wellMatched : Nat → List Notification → Bool
  | _, [] => true
  | pending, .tileLoadRequested :: rest => wellMatched (pending + 1) rest
  | 0, _ :: _ => false
  | pending + 1, _ :: rest => wellMatched pending rest

/-- The number of `tileLoadRequested` in a sequence. -/
def requestedCount (ns : List Notification) : Nat := ns.count Notification.tileLoadRequested

/-- The number of `tileLoaded` in a sequence. -/
def loadedCount (ns : List Notification) : Nat := ns.count Notification.tileLoaded

/-- The number of `tileLoadCanceled` in a sequence. -/
def canceledCount (ns : List Notification) : Nat := ns.count Notification.tileLoadCanceled

/-! ## EntityFactory: search directories and object names -/

/-- Embedding of `registerAssetSearchDirectory`; the state is the data file path list of
the `osgDB` registry, to which `push_back` appends. `std::find` returns an iterator
different from `list.end()` exactly when `filename` is an element of the list. -/
def registerAssetSearchDirectory (filename : String) (list : List String) : List String :=
  if filename ∈ list then list ++ [filename] else list

/-- The constant `INT_MAX` of a 32 bit `int`. -/
def INT_MAX : Nat := 2147483647

/-- The dynamic type of a thrown exception object, as far as `EntityFactory` tells the
types apart. -/
inductive ExceptionType
  /-- A `std::runtime_error` itself. -/
  | runtimeError
  /-- A `skybolt::Exception`. -/
  | skyboltException
  /-- An exception of the JSON library. -/
  | jsonException
  /-- Another class derived from `std::exception`. -/
  | otherStdException
  /-- An object of a type that is not derived from `std::exception`. -/
  | nonStandard
deriving DecidableEq, Repr

/-- A thrown exception: its dynamic type and what `what()` returns. -/
structure Failure where
  type : ExceptionType
  what : String
deriving DecidableEq, Repr

/-- The loop of `createUniqueObjectName`, entered with the counter at `i` and `fuel`
iterations left before the counter reaches `INT_MAX`. `getObjectByName` is the lookup of
the named object registry, `none` being the null pointer. -/
def createUniqueObjectNameLoop {O : Type} (getObjectByName : String → Option O)
    (baseName : String) : Nat → Nat → Except Failure String
  | 0, _ =>
    .error ⟨.skyboltException, "Could not create unique object name from base name: " ++ baseName⟩
  | fuel + 1, i =>
    if (getObjectByName (baseName ++ toString i)).isNone then
      .ok (baseName ++ toString i)
    else
      createUniqueObjectNameLoop getObjectByName baseName fuel (i + 1)

/-- Embedding of `EntityFactory::createUniqueObjectName`: the counter runs from 1 while
it is less than `INT_MAX`. -/
def createUniqueObjectName {O : Type} (getObjectByName : String → Option O)
    (baseName : String) : Except Failure String :=
  createUniqueObjectNameLoop getObjectByName baseName (INT_MAX - 1) 1

/-- A registry that holds objects named `ship1` and `ship2`. -/
def twoShips : String → Option Unit :=
  fun name => if name = "ship1" ∨ name = "ship2" then some () else none

/-! ## PitchLadderModel -/

/-- A `glm::vec2`. The `float` coordinates are taken as exact rational numbers, and the
`float` operations as the exact operations. -/
structure Vector2 where
  x : ℚ
  y : ℚ
deriving DecidableEq, Repr

/-- The square of the distance of two points. -/
def Vector2.distanceSquared (a b : Vector2) : ℚ :=
  (a.x - b.x) ^ 2 + (a.y - b.y) ^ 2

/-- The members of `HudDrawer::DashedLineParams` that `PitchLadderModel` assigns. -/
structure DashedLineParams where
  dashLength : ℚ
  gapLength : ℚ
deriving DecidableEq, Repr

/-- Embedding of `PitchLadderModel::Parameters`. -/
structure PitchLadderModel.Parameters where
  pitchAngleIncrement : ℚ
  pitchGapHeight : ℚ
  lineWidth : ℚ
  wingletHeight : ℚ
  textOffset : ℚ
  maxPitchAngle : ℚ
deriving DecidableEq, Repr

/-- The data members of `PitchLadderModel` apart from the drawer. -/
structure PitchLadderModel where
  mParam : PitchLadderModel.Parameters
  mDashedLineParams : DashedLineParams
deriving DecidableEq, Repr

/-- A call of a member function of `HudDrawer`. The text of `drawText` is given by the
number that `std::to_string` is applied to. -/
inductive DrawCall
  | drawLine (p0 p1 : Vector2)
  | drawLineDashed (p0 p1 : Vector2) (params : DashedLineParams)
  | drawText (p : Vector2) (value : ℚ) (rotation : ℚ)
deriving DecidableEq, Repr

/-- The functions that `PitchLadderModel.cpp` calls and that are declared in headers
outside the files at hand: `math::vec2Rotate`, `glm::sign`, `round` and the constant
`math::radToDegF()`. -/
structure HudMath where
  vec2Rotate : Vector2 → ℚ → Vector2
  sign : ℚ → ℚ
  round : ℚ → ℚ
  radToDegF : ℚ

/-- Embedding of the constructor of `PitchLadderModel`. -/
def PitchLadderModel.create (param : PitchLadderModel.Parameters) : PitchLadderModel :=
  let dashCount : Int := 4
  let gapFraction : ℚ := 2 / 10
  let actualLineWidth : ℚ := param.lineWidth * (25 / 100)
  let dashLength : ℚ := actualLineWidth / (((dashCount - 1 : Int) : ℚ) * (gapFraction + 1) + 1)
  { mParam := param
    mDashedLineParams := { dashLength := dashLength, gapLength := dashLength * gapFraction } }

/-- Embedding of `PitchLadderModel::drawHalfRung`; `params` is `none` for the null
pointer. The result lists the calls of the drawer in order. -/
def PitchLadderModel.drawHalfRung (h : HudMath) (m : PitchLadderModel)
    (relY rungPitch roll signedWidth : ℚ) (params : Option DashedLineParams) :
    List DrawCall :=
  let halfSignedWidth : ℚ := signedWidth * (5 / 10)
  let p0 := h.vec2Rotate ⟨halfSignedWidth, relY + h.sign rungPitch * -m.mParam.wingletHeight⟩ roll
  let p1 := h.vec2Rotate ⟨halfSignedWidth, relY⟩ roll
  let p2 := h.vec2Rotate ⟨halfSignedWidth * (5 / 10), relY⟩ roll
  let textPos : Vector2 := ⟨halfSignedWidth + h.sign halfSignedWidth * m.mParam.textOffset, relY⟩
  let angleTextValue : ℚ := h.radToDegF * rungPitch
  let angleTextValue : ℚ := if angleTextValue > 90 then 180 - angleTextValue else angleTextValue
  [ DrawCall.drawLine p0 p1,
    (match params with
     | some ps => DrawCall.drawLineDashed p1 p2 ps
     | none => DrawCall.drawLine p1 p2),
    DrawCall.drawText (h.vec2Rotate textPos roll) (h.round angleTextValue) roll ]

/-- Embedding of `PitchLadderModel::drawRung`. -/
def PitchLadderModel.drawRung (h : HudMath) (m : PitchLadderModel)
    (rungPitch pitch roll width : ℚ) (params : Option DashedLineParams) : List DrawCall :=
  let relY : ℚ := (rungPitch - pitch) * m.mParam.pitchGapHeight / m.mParam.pitchAngleIncrement
  m.drawHalfRung h relY rungPitch roll (-width) params ++
    m.drawHalfRung h relY rungPitch roll width params

/-- The first loop of `PitchLadderModel::draw`, entered with the loop variable at `p`;
`none` when the loop has not ended after `fuel` iterations. -/
def PitchLadderModel.drawRungsAbove (h : HudMath) (m : PitchLadderModel) (pitch roll : ℚ) :
    Nat → ℚ → Option (List DrawCall)
  | 0, p => if p ≤ m.mParam.maxPitchAngle then none else some []
  | fuel + 1, p =>
    if p ≤ m.mParam.maxPitchAngle then
      (PitchLadderModel.drawRungsAbove h m pitch roll fuel (p + m.mParam.pitchAngleIncrement)).map
        (fun rest => m.drawRung h p pitch roll m.mParam.lineWidth none ++ rest)
    else some []

/-- The second loop of `PitchLadderModel::draw`, entered with the loop variable at `p`;
`none` when the loop has not ended after `fuel` iterations. -/
def PitchLadderModel.drawRungsBelow (h : HudMath) (m : PitchLadderModel) (pitch roll : ℚ) :
    Nat → ℚ → Option (List DrawCall)
  | 0, p => if p ≥ -m.mParam.maxPitchAngle then none else some []
  | fuel + 1, p =>
    if p ≥ -m.mParam.maxPitchAngle then
      (PitchLadderModel.drawRungsBelow h m pitch roll fuel (p - m.mParam.pitchAngleIncrement)).map
        (fun rest =>
          m.drawRung h p pitch roll m.mParam.lineWidth (some m.mDashedLineParams) ++ rest)
    else some []

/-- Embedding of `PitchLadderModel::draw`, each loop with `fuel` iterations at most. -/
def PitchLadderModel.draw (h : HudMath) (m : PitchLadderModel) (fuel : Nat)
    (pitch roll : ℚ) : Option (List DrawCall) :=
  match m.drawRungsAbove h pitch roll fuel m.mParam.pitchAngleIncrement,
      m.drawRungsBelow h pitch roll fuel (-m.mParam.pitchAngleIncrement) with
  | some above, some below =>
    some (m.drawRung h 0 pitch roll (m.mParam.lineWidth * (15 / 10)) none ++ above ++ below)
  | _, _ => none

/-- A rotation by the angle whose cosine is 3/5 and whose sine is 4/5, whatever the
second argument; the sign function; rounding to the floor of the value plus one half. -/
def sampleHudMath : HudMath :=
  { vec2Rotate := fun v _ => ⟨3 / 5 * v.x - 4 / 5 * v.y, 4 / 5 * v.x + 3 / 5 * v.y⟩
    sign := fun x => if x > 0 then 1 else if x < 0 then -1 else 0
    round := fun x => ⌊x + 1 / 2⌋
    radToDegF := 57 }

/-- Parameters with rungs at the pitch angles 1 and -1 only. -/
def sampleLadderParameters : PitchLadderModel.Parameters :=
  { pitchAngleIncrement := 1, pitchGapHeight := 1 / 20, lineWidth := 3 / 10,
    wingletHeight := 1 / 100, textOffset := 3 / 100, maxPitchAngle := 3 / 2 }

/-- What `draw` calls for the sample parameters at pitch 0: the dashed lines of the
rung at the pitch angle -1. -/
def sampleDashedLines : List DrawCall :=
  (((PitchLadderModel.create sampleLadderParameters).draw sampleHudMath 5 0 0).getD []).filter
    (fun c => match c with
      | .drawLineDashed _ _ _ => true
      | _ => false)

/-! ## SimUpdater -/

/-- The constant `maxWallDt` of `SimUpdater.cpp`. The `double` values of `SimUpdater` are
taken as exact rational numbers, and the `double` operations as the exact operations. -/
def maxWallDt : ℚ := 2 / 10

/-- Embedding of `std::min`, which returns its first argument unless the second is
less. -/
def stdMin (a b : ℚ) : ℚ := if b < a then b else a

/-- Embedding of `std::max`, which returns its first argument unless it is less than
the second. -/
def stdMax (a b : ℚ) : ℚ := if a < b then b else a

/-- The data members of `SimUpdater` that `update` reads or assigns; `B` is the state of
the `UniformAveragedBuffer`. -/
structure SimUpdater (B : Type) where
  mAverageWallDt : B
  mActualTimeRate : ℚ
  mRequestedTimeRate : ℚ
  mMaxSimDt : ℚ
  mWallTime : ℚ

/-- A call that `update` or `simulate` makes on the sim stepper, the time source or a
system. -/
inductive SimCall
  | setDynamicsEnabled (enabled : Bool)
  | setTime (time : ℚ)
  | advanceTime (dt : ℚ)
  | stepperUpdate (dtSim : ℚ)
  | advanceWallTime (system : Nat) (wallTime wallDt : ℚ)
deriving DecidableEq, Repr

/-- What `SimUpdater` uses of the classes declared outside the files at hand: the
averaged buffer (`addValue`, `getResult`), the time source of state type `T` (`getTime`,
whether `getState` is `StatePlaying`, `advanceTime`), whether the timeline mode is
`Live`, and the number of systems in the registry. -/
structure SimEnvironment (B T : Type) where
  addValue : B → ℚ → B
  getResult : B → ℚ
  getTime : T → ℚ
  isPlaying : T → Bool
  advanceTime : T → ℚ → T
  isLive : Bool
  systemCount : Nat

/-- The state that a call of `update` works on: the updater, the time source and the
calls made so far. -/
structure SimRun (B T : Type) where
  updater : SimUpdater B
  timeSource : T
  calls : List SimCall

/-- Embedding of `SimUpdater::simulate`. -/
def SimUpdater.simulate {B T : Type} (env : SimEnvironment B T) (dt : ℚ) (r : SimRun B T) :
    SimRun B T :=
  let prevSimTime := env.getTime r.timeSource
  let timeSource := env.advanceTime r.timeSource dt
  let dtSim := stdMax 0 (env.getTime timeSource - prevSimTime)
  { r with timeSource := timeSource
           calls := r.calls ++ [SimCall.advanceTime dt, SimCall.stepperUpdate dtSim] }

/-- The block of `update` that calculates `simDt`: the step, and the updater with the
members that the block assigns. -/
def SimUpdater.calculateSimDt {B T : Type} (env : SimEnvironment B T) (wallDt : ℚ)
    (updater : SimUpdater B) (timeSource : T) : ℚ × SimUpdater B :=
  if env.isPlaying timeSource then
    let buffer := env.addValue updater.mAverageWallDt wallDt
    let averageWallDt := env.getResult buffer
    let maxTimeRate := updater.mActualTimeRate * maxWallDt / averageWallDt
    let actualTimeRate := stdMin updater.mRequestedTimeRate maxTimeRate
    let simDt := stdMin (averageWallDt * actualTimeRate) updater.mMaxSimDt
    (simDt, { updater with mAverageWallDt := buffer
                           mActualTimeRate := simDt / averageWallDt })
  else
    (0, updater)

/-- Embedding of `SimUpdater::update`. -/
def SimUpdater.update {B T : Type} (env : SimEnvironment B T) (wallDt : ℚ) (r : SimRun B T) :
    SimRun B T :=
  if wallDt ≤ 0 then r
  else
    let r1 : SimRun B T :=
      { r with calls := r.calls ++
          [SimCall.setDynamicsEnabled env.isLive, SimCall.setTime (env.getTime r.timeSource)] }
    let step := SimUpdater.calculateSimDt env wallDt r1.updater r1.timeSource
    let r2 := SimUpdater.simulate env step.1 { r1 with updater := step.2 }
    { r2 with
        calls := r2.calls ++
          (List.range env.systemCount).map
            (fun i => SimCall.advanceWallTime i step.2.mWallTime wallDt)
        updater := { r2.updater with mWallTime := r2.updater.mWallTime + wallDt } }

/-- What happens to a `SimUpdater` between two calls of `update`: the requested time
rate or the maximum sim step is set, or the time source changes its state; or `update`
is called. -/
inductive SimAction (T : Type)
  | setRequestedTimeRate (rate : ℚ)
  | setMaxSimDt (dt : ℚ)
  | setTimeSource (timeSource : T)
  | update (wallDt : ℚ)

/-- One action on a `SimUpdater`. -/
def SimUpdater.perform {B T : Type} (env : SimEnvironment B T) (r : SimRun B T) :
    SimAction T → SimRun B T
  | .setRequestedTimeRate rate => { r with updater := { r.updater with mRequestedTimeRate := rate } }
  | .setMaxSimDt dt => { r with updater := { r.updater with mMaxSimDt := dt } }
  | .setTimeSource timeSource => { r with timeSource := timeSource }
  | .update wallDt => SimUpdater.update env wallDt r

/-- A sequence of actions on a `SimUpdater`, in order. -/
def SimUpdater.performAll {B T : Type} (env : SimEnvironment B T) (r : SimRun B T)
    (actions : List (SimAction T)) : SimRun B T :=
  actions.foldl (SimUpdater.perform env) r

/-- The values that an action sets are not negative. -/
def SimAction.nonNegative {T : Type} : SimAction T → Prop
  | .setRequestedTimeRate rate => 0 ≤ rate
  | .setMaxSimDt dt => 0 ≤ dt
  | .setTimeSource _ => True
  | .update _ => True

/-- The steps handed to `simulate`, as `advanceTime` calls record them. -/
def simulatedSteps (calls : List SimCall) : List ℚ :=
  calls.filterMap (fun c => match c with
    | .advanceTime dt => some dt
    | _ => none)

/-- An environment in which the buffer holds the last value only, the time source is its
time and whether it is playing, and there are two systems. -/
def sampleSimEnvironment : SimEnvironment ℚ (ℚ × Bool) :=
  { addValue := fun _ v => v
    getResult := fun b => b
    getTime := fun t => t.1
    isPlaying := fun t => t.2
    advanceTime := fun t dt => (t.1 + dt, t.2)
    isLive := true
    systemCount := 2 }

/-- A playing updater with the actual time rate 1, the requested time rate 4 and the
maximum sim step 1/2. -/
def sampleSimRun : SimRun ℚ (ℚ × Bool) :=
  { updater := { mAverageWallDt := 0, mActualTimeRate := 1, mRequestedTimeRate := 4,
                 mMaxSimDt := 1 / 2, mWallTime := 10 }
    timeSource := (100, true)
    calls := [] }

/-- A playing updater of which the actual time rate is 0. -/
def stalledSimRun : SimRun ℚ (ℚ × Bool) :=
  { updater := { mAverageWallDt := 0, mActualTimeRate := 0, mRequestedTimeRate := 1,
                 mMaxSimDt := 1 / 2, mWallTime := 10 }
    timeSource := (100, true)
    calls := [] }

/-! ## ParticleSystem -/

/-- A `sim::Vector3`, with rational coordinates. -/
structure Vector3 where
  x : ℚ
  y : ℚ
  z : ℚ
deriving DecidableEq, Repr

/-- The value of `Vector3()`. -/
def Vector3.zero : Vector3 := ⟨0, 0, 0⟩

/-- Embedding of `operator+` of two vectors. -/
def Vector3.add (a b : Vector3) : Vector3 := ⟨a.x + b.x, a.y + b.y, a.z + b.z⟩

/-- Embedding of `operator-` of two vectors. -/
def Vector3.sub (a b : Vector3) : Vector3 := ⟨a.x - b.x, a.y - b.y, a.z - b.z⟩

/-- Embedding of `operator*` of a vector and a number. -/
def Vector3.scale (a : Vector3) (s : ℚ) : Vector3 := ⟨a.x * s, a.y * s, a.z * s⟩

/-- Embedding of `operator/` of a vector and a number. -/
def Vector3.divide (a : Vector3) (s : ℚ) : Vector3 := ⟨a.x / s, a.y / s, a.z / s⟩

/-- The operations of C++ on a type `F` of `float` values that `ParticleKiller` and
`ParticleEmitter` use: the four arithmetic operations, which round; the comparison `>`;
the conversion of an `int` to `float`; the conversion of a `float` to `int`, which is
`none` where the behaviour is undefined (the value is not a number, or its truncation is
outside the range of `int`); and the literals `0` and `1.0f`. Nothing is fixed about the
values of the type or about how the operations round. -/
structure FloatArithmetic (F : Type) where
  add : F → F → F
  sub : F → F → F
  mul : F → F → F
  div : F → F → F
  gt : F → F → Bool
  ofInt : Int → F
  toInt : F → Option Int
  zero : F
  one : F

/-- The members of `Particle` that `ParticleSystem.cpp` reads or assigns; `F` is the type
of the `float` members. -/
structure Particle (F : Type) where
  guid : Int
  position : Vector3
  velocity : Vector3
  radius : F
  initialAlpha : F
  alpha : F
  age : F
deriving DecidableEq, Repr

/-- Embedding of `std::swap(particles[i], particles[j])` for two indices of a vector. -/
def swapParticles {F : Type} (particles : List (Particle F)) (i j : Nat) : List (Particle F) :=
  match particles[i]?, particles[j]? with
  | some a, some b => (particles.set i b).set j a
  | _, _ => particles

/-- The loop of `ParticleKiller::update`, entered with the index at `i`; `none` when the
loop has not ended after `fuel` iterations. The addition of `age += dt` and the
comparison of `age > mLifetime` are those of `ops`. -/
def ParticleKiller.updateLoop {F : Type} (ops : FloatArithmetic F) (mLifetime dt : F) :
    Nat → Nat → List (Particle F) → Option (List (Particle F))
  | 0, i, particles => if i < particles.length then none else some particles
  | fuel + 1, i, particles =>
    match particles[i]? with
    | none => some particles
    | some p =>
      let aged : Particle F := { p with age := ops.add p.age dt }
      let particles := particles.set i aged
      if ops.gt aged.age mLifetime = true then
        ParticleKiller.updateLoop ops mLifetime dt fuel i
          (swapParticles particles i (particles.length - 1)).dropLast
      else
        ParticleKiller.updateLoop ops mLifetime dt fuel (i + 1) particles

/-- Embedding of `ParticleKiller::update`, with as many iterations of the loop at most
as the vector has particles. -/
def ParticleKiller.update {F : Type} (ops : FloatArithmetic F) (mLifetime dt : F)
    (particles : List (Particle F)) : Option (List (Particle F)) :=
  ParticleKiller.updateLoop ops mLifetime dt particles.length 0 particles

/-- A particle after `age += dt`. -/
def Particle.aged {F : Type} (ops : FloatArithmetic F) (dt : F) (p : Particle F) : Particle F :=
  { p with age := ops.add p.age dt }

/-- Embedding of the conversion of a floating point number to `int` for a value that is a
rational number: it truncates towards zero, and it is `none` when the truncated value is
outside the range of `int`, where the behaviour is undefined. -/
def floatToInt (x : ℚ) : Option Int :=
  let truncated : Int := if 0 ≤ x then ⌊x⌋ else ⌈x⌉
  if -(INT_MAX : Int) - 1 ≤ truncated ∧ truncated ≤ (INT_MAX : Int) then some truncated
  else none

/-- An arithmetic for the samples: the values are rational numbers and no operation
rounds. On values for which the operations of `float` are exact, these are the
operations of `float`. -/
def exactArithmetic : FloatArithmetic ℚ :=
  { add := fun a b => a + b
    sub := fun a b => a - b
    mul := fun a b => a * b
    div := fun a b => a / b
    gt := fun a b => decide (a > b)
    ofInt := fun n => (n : ℚ)
    toInt := floatToInt
    zero := 0
    one := 1 }

/-- An arithmetic for the samples in which every sum is rounded down to a multiple of
1/4: with it `age += dt` changes nothing when `dt` is less than 1/4. -/
def coarseArithmetic : FloatArithmetic ℚ :=
  { exactArithmetic with add := fun a b => (⌊(a + b) * 4⌋ : ℚ) / 4 }

/-- A particle with a guid and an age, at rest in the origin. -/
def sampleParticle (guid : Int) (age : ℚ) : Particle ℚ :=
  { guid := guid, position := Vector3.zero, velocity := Vector3.zero, radius := 1,
    initialAlpha := 1, alpha := 1, age := age }

/-- The members of `ParticleEmitter::Params` that are values; the positionable and the
random number generator, which are pointers, are in the environment. -/
structure ParticleEmitter.Params (F : Type) where
  emissionRate : F
  radius : F
  elevationAngle : F × F
  speed : F × F
  upDirection : Vector3
deriving DecidableEq, Repr

/-- The data members of `ParticleEmitter`; `F` is the type of the `float` values and `Q`
the type of a quaternion. -/
structure ParticleEmitter (F Q : Type) where
  mParams : ParticleEmitter.Params F
  mOrientation : Q
  mPrevPosition : Option Vector3
  mParticlesToEmit : F
  mEmissionRateMultiplier : F
  mEmissionAlphaMultiplier : F

/-- What `ParticleEmitter` uses of the classes and functions declared outside the file
at hand: the position and the orientation of the positionable, the product of a
quaternion and a vector, the two functions of the random number generator of state type
`R`, sine and cosine, the constant `math::twoPiF()`, the constructor of a vector from
three numbers, the sum and the difference of two vectors, the product and the quotient of
a vector and a number converted to `double`, and a default constructed particle. -/
structure EmitterEnvironment (F R Q : Type) where
  getPosition : Vector3
  getOrientation : Q
  rotate : Q → Vector3 → Vector3
  unitRand : R → F × R
  rangedRand : R → F → F → F × R
  sin : F → F
  cos : F → F
  twoPiF : F
  makeVector : F → F → F → Vector3
  vectorAdd : Vector3 → Vector3 → Vector3
  vectorSub : Vector3 → Vector3 → Vector3
  vectorScale : Vector3 → F → Vector3
  vectorDivide : Vector3 → F → Vector3
  newParticle : Particle F

/-- The state that `ParticleEmitter::update` works on besides the emitter: the vector of
particles, the static member `mNextParticleId`, and the random number generator. -/
structure EmitterRun (F R : Type) where
  particles : List (Particle F)
  mNextParticleId : Int
  random : R

/-- Embedding of `ParticleEmitter::calculateParticleVelocityRelEmitter`: the velocity and
the state of the random number generator after the three calls. -/
def ParticleEmitter.calculateParticleVelocityRelEmitter {F R Q : Type}
    (ops : FloatArithmetic F) (env : EmitterEnvironment F R Q) (e : ParticleEmitter F Q)
    (random : R) : Vector3 × R :=
  let a := env.unitRand random
  let azimuth := ops.mul a.1 env.twoPiF
  let b := env.rangedRand a.2 e.mParams.elevationAngle.1 e.mParams.elevationAngle.2
  let elevation := b.1
  let c := env.rangedRand b.2 e.mParams.speed.1 e.mParams.speed.2
  let speed := c.1
  let cosElevation := env.cos elevation
  let velocity : Vector3 :=
    env.makeVector (ops.mul speed (env.sin elevation))
      (ops.mul (ops.mul speed (env.sin azimuth)) cosElevation)
      (ops.mul (ops.mul speed (env.cos azimuth)) cosElevation)
  (env.rotate env.getOrientation (env.rotate e.mOrientation velocity), c.2)

/-- Embedding of `ParticleEmitter::createParticle`; `none` when the increment of
`mNextParticleId` overflows, where the behaviour is undefined. -/
def ParticleEmitter.createParticle {F R Q : Type} (ops : FloatArithmetic F)
    (env : EmitterEnvironment F R Q) (e : ParticleEmitter F Q) (emitterVelocity : Vector3)
    (timeOffset : F) (r : EmitterRun F R) : Option (Particle F × EmitterRun F R) :=
  let v := e.calculateParticleVelocityRelEmitter ops env r.random
  let velocityRelEmitter := v.1
  if r.mNextParticleId < (INT_MAX : Int) then
    some
      ({ env.newParticle with
          guid := r.mNextParticleId
          position := env.vectorAdd env.getPosition (env.vectorScale velocityRelEmitter timeOffset)
          velocity := env.vectorAdd emitterVelocity velocityRelEmitter
          radius := e.mParams.radius
          initialAlpha := ops.mul ops.one e.mEmissionAlphaMultiplier
          alpha := ops.mul ops.one e.mEmissionAlphaMultiplier },
       { r with mNextParticleId := r.mNextParticleId + 1, random := v.2 })
  else none

/-- The loop of `ParticleEmitter::update`, with `count` iterations left. -/
def ParticleEmitter.emitLoop {F R Q : Type} (ops : FloatArithmetic F)
    (env : EmitterEnvironment F R Q) (e : ParticleEmitter F Q) (emitterVelocity : Vector3)
    (dtSubstep : F) : Nat → F → EmitterRun F R → Option (EmitterRun F R)
  | 0, _, r => some r
  | count + 1, timeOffset, r =>
    match e.createParticle ops env emitterVelocity timeOffset r with
    | none => none
    | some (particle, r1) =>
      ParticleEmitter.emitLoop ops env e emitterVelocity dtSubstep count
        (ops.add timeOffset dtSubstep) { r1 with particles := r1.particles ++ [particle] }

/-- The value of `mParticlesToEmit` after the statement
`mParticlesToEmit += mParams.emissionRate * mEmissionRateMultiplier * dt`. -/
def ParticleEmitter.toEmit {F Q : Type} (ops : FloatArithmetic F) (e : ParticleEmitter F Q)
    (dt : F) : F :=
  ops.add e.mParticlesToEmit (ops.mul (ops.mul e.mParams.emissionRate e.mEmissionRateMultiplier) dt)

/-- Embedding of `ParticleEmitter::update`; `none` when the behaviour is undefined. -/
def ParticleEmitter.update {F R Q : Type} (ops : FloatArithmetic F)
    (env : EmitterEnvironment F R Q) (dt : F) (e : ParticleEmitter F Q) (r : EmitterRun F R) :
    Option (ParticleEmitter F Q × EmitterRun F R) :=
  let position := env.getPosition
  let emitterVelocity : Vector3 :=
    match e.mPrevPosition with
    | some prev => env.vectorDivide (env.vectorSub position prev) dt
    | none => Vector3.zero
  match ops.toInt (e.toEmit ops dt) with
  | none => none
  | some particleCount =>
    if particleCount > 0 then
      (ParticleEmitter.emitLoop ops env e emitterVelocity (ops.div dt (ops.ofInt particleCount))
          particleCount.toNat ops.zero r).map
        (fun r1 => ({ e with mPrevPosition := some position
                             mParticlesToEmit :=
                               ops.sub (e.toEmit ops dt) (ops.ofInt particleCount) }, r1))
    else
      some ({ e with mPrevPosition := some position, mParticlesToEmit := e.toEmit ops dt }, r)

/-- A value of the type of `float` values is not a negative number: `value` gives the
number that a value stands for, and `none` for a value that is not a finite number. -/
def NotNegative {F : Type} (value : F → Option ℚ) (x : F) : Prop :=
  ∀ v, value x = some v → 0 ≤ v

/-- An environment in which the random number generator counts its calls and returns
the count, and quaternions are scale factors. -/
def sampleEmitterEnvironment : EmitterEnvironment ℚ Nat ℚ :=
  { getPosition := ⟨1, 2, 3⟩
    getOrientation := 1
    rotate := fun q v => v.scale q
    unitRand := fun n => (n, n + 1)
    rangedRand := fun n first last => (first + (last - first) / (n + 1), n + 1)
    sin := fun x => x
    cos := fun x => 1 - x
    twoPiF := 6
    makeVector := fun x y z => ⟨x, y, z⟩
    vectorAdd := Vector3.add
    vectorSub := Vector3.sub
    vectorScale := Vector3.scale
    vectorDivide := Vector3.divide
    newParticle := sampleParticle 0 0 }

/-- An emitter with the accumulator at 1/2 that emits 25 particles a second. -/
def sampleEmitter : ParticleEmitter ℚ ℚ :=
  { mParams := { emissionRate := 25, radius := 2, elevationAngle := (0, 1), speed := (1, 2),
                 upDirection := ⟨0, 0, 1⟩ }
    mOrientation := 1
    mPrevPosition := none
    mParticlesToEmit := 1 / 2
    mEmissionRateMultiplier := 1
    mEmissionAlphaMultiplier := 1 }

/-- An emitter with the accumulator at 0 that emits 4294967296 particles a second. -/
def floodEmitter : ParticleEmitter ℚ ℚ :=
  { sampleEmitter with
    mParams := { sampleEmitter.mParams with emissionRate := 4294967296 }
    mParticlesToEmit := 0 }

/-- A vector with one particle, and 7 as the next guid. -/
def sampleEmitterRun : EmitterRun ℚ Nat :=
  { particles := [sampleParticle 6 0], mNextParticleId := 7, random := 0 }

/-- A vector with one particle, and `INT_MAX` as the next guid. -/
def lastGuidRun : EmitterRun ℚ Nat :=
  { particles := [sampleParticle 6 0], mNextParticleId := 2147483647, random := 0 }

/-- Embedding of `ParticleIntegrator::Params` without the planet provider, which is in
the environment. The `float` and `double` values of the integrator are taken as exact
rational numbers, and their operations as the exact operations. -/
structure ParticleIntegrator.Params where
  atmosphericSlowdownFactor : ℚ
  radiusLinearGrowthPerSecond : ℚ
  lifetime : ℚ
deriving DecidableEq, Repr

/-- What `ParticleIntegrator` uses of the classes and functions declared outside the
file at hand, for a planet entity of type `P` and a `glm::dmat4` of type `M`: the
nearest planet provider (`none` is the null pointer), `getTransform`, the identity
matrix, `glm::inverse`, the product of a matrix and the point `dvec4(v, 1.0)`, the
density of the atmosphere, `glm::length`, `earthRadius()`, `std::exp` and `glm::mix`. -/
structure IntegratorEnvironment (P M : Type) where
  nearestPlanetProvider : Vector3 → Option P
  getTransform : P → Option M
  dmat4Identity : M
  inverse : M → M
  transformPoint : M → Vector3 → Vector3
  getDensity : ℚ → ℚ
  length : Vector3 → ℚ
  earthRadius : ℚ
  exp : ℚ → ℚ
  mix : ℚ → ℚ → ℚ → ℚ

/-- The state that `ParticleIntegrator::update` works on: the member
`mPrevPlanetTransform`, the vector of particles, and the arguments of the calls of the
planet provider so far. -/
structure IntegratorRun (M : Type) where
  mPrevPlanetTransform : Option M
  particles : List (Particle ℚ)
  providerCalls : List Vector3

/-- The locals of `ParticleIntegrator::update` after the block that calculates the wind
velocity and the damping factor; `velocityDamping` is `none` while it has not been
assigned. -/
structure WindAndDamping (M : Type) where
  windVelocity : Option Vector3
  velocityDamping : Option ℚ
  mPrevPlanetTransform : Option M

/-- The block of `ParticleIntegrator::update` that calculates the wind velocity and the
damping factor, from the first particle of the vector. -/
def ParticleIntegrator.calculateWindAndDamping {P M : Type} (env : IntegratorEnvironment P M)
    (params : ParticleIntegrator.Params) (dt : ℚ) (front : Particle ℚ)
    (mPrevPlanetTransform : Option M) : WindAndDamping M :=
  match env.nearestPlanetProvider front.position with
  | some planet =>
    let planetTransform := (env.getTransform planet).getD env.dmat4Identity
    let invPlanetTransform := env.inverse planetTransform
    let firstParticlePosition := front.position
    let particlePositionPlanetSpace := env.transformPoint invPlanetTransform firstParticlePosition
    let density := env.getDensity (env.length particlePositionPlanetSpace - env.earthRadius)
    { windVelocity :=
        match mPrevPlanetTransform with
        | some prev =>
          some ((firstParticlePosition.sub
            (env.transformPoint prev particlePositionPlanetSpace)).divide dt)
        | none => none
      velocityDamping := some (env.exp (-params.atmosphericSlowdownFactor * density * dt))
      mPrevPlanetTransform := some planetTransform }
  | none =>
    { windVelocity := none, velocityDamping := none,
      mPrevPlanetTransform := mPrevPlanetTransform }

/-- The body of the loop of `ParticleIntegrator::update` for one particle; `none` when
`velocityDamping` is read without having been assigned. -/
def ParticleIntegrator.integrate {P M : Type} (env : IntegratorEnvironment P M)
    (params : ParticleIntegrator.Params) (dt : ℚ) (locals : WindAndDamping M)
    (particle : Particle ℚ) : Option (Particle ℚ) :=
  let moved : Option (Particle ℚ) :=
    match locals.windVelocity with
    | some windVelocity =>
      match locals.velocityDamping with
      | some velocityDamping =>
        some { particle with
          velocity := windVelocity.add ((particle.velocity.sub windVelocity).scale velocityDamping) }
      | none => none
    | none => some particle
  moved.map (fun p =>
    { p with
      position := p.position.add (p.velocity.scale dt)
      radius := p.radius + params.radiusLinearGrowthPerSecond * dt
      alpha := env.mix p.initialAlpha 0 (p.age / params.lifetime) })

/-- Embedding of `ParticleIntegrator::update`; `none` when `velocityDamping` is read
without having been assigned. -/
def ParticleIntegrator.update {P M : Type} (env : IntegratorEnvironment P M)
    (params : ParticleIntegrator.Params) (dt : ℚ) (r : IntegratorRun M) :
    Option (IntegratorRun M) :=
  match r.particles with
  | [] => some r
  | front :: _ =>
    let locals := ParticleIntegrator.calculateWindAndDamping env params dt front
      r.mPrevPlanetTransform
    (r.particles.mapM (ParticleIntegrator.integrate env params dt locals)).map
      (fun particles =>
        { mPrevPlanetTransform := locals.mPrevPlanetTransform
          particles := particles
          providerCalls := r.providerCalls ++ [front.position] })

/-- An environment with a planet near every point with a positive first coordinate; a
matrix is a translation along the first axis. -/
def sampleIntegratorEnvironment : IntegratorEnvironment Unit ℚ :=
  { nearestPlanetProvider := fun p => if 0 < p.x then some () else none
    getTransform := fun _ => some 5
    dmat4Identity := 0
    inverse := fun m => -m
    transformPoint := fun m v => ⟨v.x + m, v.y, v.z⟩
    getDensity := fun h => 1 / (1 + h * h)
    length := fun v => v.x
    earthRadius := 1
    exp := fun x => 1 / (1 - x)
    mix := fun x y a => x * (1 - a) + y * a }

/-- The parameters of the sample integrator. -/
def sampleIntegratorParams : ParticleIntegrator.Params :=
  { atmosphericSlowdownFactor := 1, radiusLinearGrowthPerSecond := 1, lifetime := 10 }

/-- The first update of an integrator with two moving particles near the planet. -/
def sampleIntegratorRun : IntegratorRun ℚ :=
  { mPrevPlanetTransform := none
    particles := [{ sampleParticle 1 0 with position := ⟨2, 0, 0⟩, velocity := ⟨1, 2, 3⟩ },
                  { sampleParticle 2 5 with position := ⟨3, 0, 0⟩, velocity := ⟨0, 1, 0⟩ }]
    providerCalls := [] }

/-! ## EntityFactory: entities from JSON templates -/

/-- A JSON value as a document gives it: the members of an object are in the order of
the document. -/
inductive Json
  | null
  | boolean (value : Bool)
  | number (value : ℚ)
  | string (value : String)
  | array (elements : List Json)
  | object (members : List (String × Json))

/-- Insertion into the `std::map` from keys to values in which `nlohmann::json` holds the
members of an object, given as the list of its entries in ascending order of the keys: an
entry with the same key gets the new value. -/
def mapInsert (key : String) (value : Json) : List (String × Json) → List (String × Json)
  | [] => [(key, value)]
  | (k, v) :: rest =>
    if key < k then (key, value) :: (k, v) :: rest
    else if key = k then (key, value) :: rest
    else (k, v) :: mapInsert key value rest

/-- The entries of a `nlohmann::json` object in the order in which an iterator visits
them, which is the order of the `std::map`: ascending keys, the last value of a repeated
key. A value that is not an object has no entries. -/
def Json.items : Json → List (String × Json)
  | .object members => members.foldl (fun m kv => mapInsert kv.1 kv.2 m) []
  | _ => []

/-- An exception of the JSON library, by its class. -/
inductive JsonError
  /-- The class `out_of_range`, thrown by `at` for a key that the object does not have. -/
  | outOfRange (key : String)
  /-- The class `type_error`, thrown by a member function that the type of the value does
  not support. -/
  | typeError (operation : String)
  /-- The class `invalid_iterator`, thrown by `key()` of an iterator of a value that is not
  an object. -/
  | invalidIterator
deriving DecidableEq, Repr

/-- Embedding of `nlohmann::json::find` with a key: `none` is `end()`. -/
def Json.find (j : Json) (key : String) : Option Json :=
  j.items.lookup key

/-- Embedding of `nlohmann::json::at` with a key. -/
def Json.at (j : Json) (key : String) : Except JsonError Json :=
  match j with
  | .object _ =>
    match j.find key with
    | some value => .ok value
    | none => .error (.outOfRange key)
  | _ => .error (.typeError "at")

/-- Embedding of `nlohmann::json::size`. -/
def Json.size : Json → Nat
  | .null => 0
  | .array elements => elements.length
  | .object members => (Json.object members).items.length
  | _ => 1

/-- The values that a range-based `for` loop over a `nlohmann::json` visits: the elements
of an array, the values of an object, nothing for null, and the value itself
otherwise. -/
def Json.elements : Json → List Json
  | .null => []
  | .array elements => elements
  | .object members => (Json.object members).items.map Prod.snd
  | j => [j]

/-- The keys and values that a loop from `begin()` to `end()` visits that calls `key()`
on the iterator first in each iteration: the entries of an object; nothing for null and
for an empty array; and otherwise `key()` throws in the first iteration. -/
def Json.keyedItems : Json → Except JsonError (List (String × Json))
  | .null => .ok []
  | .array [] => .ok []
  | .object members => .ok (Json.object members).items
  | _ => .error .invalidIterator

/-- An `osg::Vec3f`, with exact rational coordinates. -/
structure Vec3f where
  x : ℚ
  y : ℚ
  z : ℚ
deriving DecidableEq, Repr

/-- An `osg::Quat` made from an angle and an axis. -/
structure Quat where
  angle : ℚ
  axis : Vec3f
deriving DecidableEq, Repr

/-- Embedding of `vis::BruentonAtmosphereConfig`, by the members that `loadPlanet`
assigns; the calculator is given by a handle. -/
structure BruentonAtmosphereConfig where
  bottomRadius : ℚ
  topRadius : ℚ
  reyleighScatteringCoefficientCalculator : Nat
  rayleighScaleHeight : ℚ
  mieScaleHeight : ℚ
  mieAngstromAlpha : ℚ
  mieAngstromBeta : ℚ
  mieSingleScatteringAlbedo : ℚ
  miePhaseFunctionG : ℚ
  useEarthOzone : Bool
deriving DecidableEq, Repr

/-- The member `planetTileSources` of `vis::PlanetConfig`: handles of tile sources, `none`
being the null pointer; `attributeSource` is the member `attribute`. -/
structure PlanetTileSources where
  elevation : Option Nat
  albedo : Option Nat
  attributeSource : Option Nat
deriving DecidableEq, Repr

/-- Embedding of `vis::PlanetConfig`, by the members that `loadPlanet` assigns from the
JSON content. -/
structure PlanetConfig where
  innerRadius : ℚ
  waterEnabled : Bool
  cloudsTexture : Option Nat
  atmosphereConfig : Option BruentonAtmosphereConfig
  elevationMaxLodLevel : Int
  albedoMaxLodLevel : Int
  planetTileSources : PlanetTileSources
  featuresDirectory : Option String
deriving DecidableEq, Repr

/-- A component of an entity, as far as `EntityFactory.cpp` tells components apart. A
component made by a sim component factory, a model and a planet are given by handles. -/
inductive Component
  | nameComponent (name : String)
  | templateNameComponent (templateName : String)
  | simVisBindingsComponent
  | visObjectsComponent
  | simComponent (handle : Nat)
  | node
  | planetComponent (planetRadius : ℚ) (hasOcean : Bool) (elevation : Option Nat)
      (elevationMaxLodLevel : Int)
  | planetStatsUpdater (planet : Nat)
deriving DecidableEq, Repr

/-- An element of the member `bindings` of the `SimVisBindingsComponent` of an entity. -/
inductive SimVisBinding
  | cameraSimVisBinding
  | simpleSimVisBinding (model : Nat) (positionRelBody : Vec3f) (orientationRelBody : Quat)
  | mainRotorVisComponent (rotor : Nat) (model : Nat)
  | propellerVisComponent (propeller : Nat) (model : Nat)
  | planetVisBinding (planet : Nat)
  | wakeBinding (planet : Nat)
deriving DecidableEq, Repr

/-- An object added to the `VisObjectsComponent` of an entity. -/
inductive VisObject
  | model (node : Nat)
  | planet (handle : Nat)
deriving DecidableEq, Repr

/-- The entity that `createEntityFromJson` builds, with what the vis component loaders
change besides: the components in the order of `addComponent`, the bindings, the vis
objects, the position and orientation given to the node, the configurations of the
`vis::Planet` objects constructed so far, and the data file path list of the `osgDB`
registry. -/
structure Construction where
  components : List Component
  bindings : List SimVisBinding
  visObjects : List VisObject
  nodePlacement : Option (Vector3 × Quat)
  planets : List PlanetConfig
  dataFilePathList : List String
deriving DecidableEq, Repr

/-- What `EntityFactory.cpp` uses of the classes and functions declared outside the files
at hand. Of the JSON library: the text of `what()` of its exceptions, the conversions of
a value to `double`, `int` and `std::string`, and `operator[]` with an index. Of
`JsonHelpers.h`: `readOptional` for `double` and for JSON, and `readOptionalOrDefault` for
`bool`. The lookup of the named object registry. The registry of the sim component
factories; a factory returns the handle of the component, or the null pointer. The
dynamic type of a sim component (`Node`, `MainRotorComponent`, `PropellerComponent`) and
the exception of `getFirstComponentRequired`. The model factory, `getParentDirectory`
(which calls the file system library), the image reader behind `createCloudTexture`, the
two factories of scattering coefficient calculators, the tile source factory, the file
locator, the constructor of `vis::Planet` and its `getWaterStateSet`. And the four member
functions `createSun`, `createMoon`, `createStars` and `createPolyline`, by the entity
they return or the exception they throw. -/
structure EntityFactory.Context where
  jsonWhat : JsonError → String
  getDouble : Json → Except Failure ℚ
  getInt : Json → Except Failure Int
  getString : Json → Except Failure String
  index : Json → Nat → Except Failure Json
  readOptionalDouble : Json → String → Except Failure (Option ℚ)
  readOptionalJson : Json → String → Except Failure (Option Json)
  readOptionalOrDefaultBool : Json → String → Bool → Except Failure Bool
  degToRadD : ℚ
  getObjectByName : String → Option Nat
  componentFactoryRegistry : List (String × (Json → Except Failure (Option Nat)))
  isNode : Nat → Bool
  isMainRotorComponent : Nat → Bool
  isPropellerComponent : Nat → Bool
  componentRequired : String → Failure
  createModel : String → Except Failure Nat
  getParentDirectory : String → String
  createCloudTexture : Json → Except Failure Nat
  createEarthReyleighScatteringCoefficientCalculator : ℚ → Except Failure Nat
  createTableReyleighScatteringCoefficientCalculator : Json → Json → Except Failure Nat
  createTileSourceFromJson : Json → Except Failure Nat
  fileLocator : Json → Except Failure String
  newPlanet : PlanetConfig → Except Failure Nat
  hasWaterStateSet : Nat → Bool
  createSun : Except Failure Construction
  createMoon : Except Failure Construction
  createStars : Except Failure Construction
  createPolyline : Except Failure Construction

/-- The exception object of an exception of the JSON library. -/
def EntityFactory.Context.jsonFailure (ctx : EntityFactory.Context) (e : JsonError) : Failure :=
  ⟨.jsonException, ctx.jsonWhat e⟩

/-- A call of `at` with a key that throws the exception object of the library. -/
def EntityFactory.Context.at (ctx : EntityFactory.Context) (j : Json) (key : String) :
    Except Failure Json :=
  match j.at key with
  | .ok value => .ok value
  | .error e => .error (ctx.jsonFailure e)

/-- Embedding of `readVec3f`. -/
def readVec3f (ctx : EntityFactory.Context) (j : Json) : Except Failure Vec3f := do
  let x ← ctx.getDouble (← ctx.index j 0)
  let y ← ctx.getDouble (← ctx.index j 1)
  let z ← ctx.getDouble (← ctx.index j 2)
  pure ⟨x, y, z⟩

/-- Embedding of `readOptionalVec3f`. -/
def readOptionalVec3f (ctx : EntityFactory.Context) (j : Json) (name : String)
    (defaultValue : Vec3f) : Except Failure Vec3f :=
  match j.find name with
  | some value => readVec3f ctx value
  | none => pure defaultValue

/-- Embedding of `readQuat`. -/
def readQuat (ctx : EntityFactory.Context) (j : Json) : Except Failure Quat := do
  let angleDeg ← ctx.getDouble (← ctx.at j "angleDeg")
  let axis ← readVec3f ctx (← ctx.at j "axis")
  pure ⟨angleDeg * ctx.degToRadD, axis⟩

/-- Embedding of `readOptionalQuat`. -/
def readOptionalQuat (ctx : EntityFactory.Context) (j : Json) (name : String)
    (defaultValue : Quat) : Except Failure Quat :=
  match j.find name with
  | some value => readQuat ctx value
  | none => pure defaultValue

/-- The first component of an entity that is a `Node`, as `getFirstComponent<Node>`
finds it. -/
def firstNode (ctx : EntityFactory.Context) (components : List Component) : Option Component :=
  components.find? (fun c => match c with
    | .node => true
    | .simComponent handle => ctx.isNode handle
    | _ => false)

/-- The handle of the first sim component of an entity of a dynamic type, as
`getFirstComponentRequired` finds it, which throws when there is none. -/
def firstComponentRequired (ctx : EntityFactory.Context) (isType : Nat → Bool)
    (typeName : String) (components : List Component) : Except Failure Nat :=
  match components.filterMap (fun c => match c with
    | .simComponent handle => if isType handle then some handle else none
    | _ => none) with
  | handle :: _ => .ok handle
  | [] => .error (ctx.componentRequired typeName)

/-- The call `getFirstComponentRequired<Node>()`: it finds the first component that is a
`Node`, be it the one that `loadPlanet` adds or a sim component, and throws when there is
none. -/
def firstNodeRequired (ctx : EntityFactory.Context) (components : List Component) :
    Except Failure Component :=
  match firstNode ctx components with
  | some component => .ok component
  | none => .error (ctx.componentRequired "Node")

/-- The type `VisComponentLoader`: a loader changes the entity under construction, or
throws, in which case the second component is the state at the throw. -/
abbrev VisComponentLoader : Type :=
  EntityFactory.Context → Json → Construction → Except Failure Unit × Construction

/-- Embedding of `loadVisualModel`. -/
def loadVisualModel : VisComponentLoader := fun ctx json c =>
  match (do let filename ← ctx.getString (← ctx.at json "model")
            let node ← ctx.createModel filename
            pure (filename, node) : Except Failure (String × Nat)) with
  | .error e => (.error e, c)
  | .ok (filename, node) =>
    let c1 : Construction :=
      { c with
        dataFilePathList :=
          registerAssetSearchDirectory (ctx.getParentDirectory filename) c.dataFilePathList
        visObjects := c.visObjects ++ [VisObject.model node] }
    match (do let position ← readOptionalVec3f ctx json "positionRelBody" ⟨0, 0, 0⟩
              let orientation ← readOptionalQuat ctx json "orientationRelBody" ⟨0, ⟨0, 0, 0⟩⟩
              pure (position, orientation) : Except Failure (Vec3f × Quat)) with
    | .error e => (.error e, c1)
    | .ok (position, orientation) =>
      (.ok (), { c1 with
        bindings := c1.bindings ++ [SimVisBinding.simpleSimVisBinding node position orientation] })

/-- Embedding of `loadVisualMainRotor`. -/
def loadVisualMainRotor : VisComponentLoader := fun ctx json c =>
  match (do let filename ← ctx.getString (← ctx.at json "model")
            let node ← ctx.createModel filename
            pure (filename, node) : Except Failure (String × Nat)) with
  | .error e => (.error e, c)
  | .ok (filename, node) =>
    let c1 : Construction :=
      { c with
        dataFilePathList :=
          registerAssetSearchDirectory (ctx.getParentDirectory filename) c.dataFilePathList
        visObjects := c.visObjects ++ [VisObject.model node] }
    match (do let rotor ← firstComponentRequired ctx ctx.isMainRotorComponent
                "MainRotorComponent" c1.components
              let _ ← firstNodeRequired ctx c1.components
              pure rotor : Except Failure Nat) with
    | .error e => (.error e, c1)
    | .ok rotor =>
      (.ok (), { c1 with
        bindings := c1.bindings ++ [SimVisBinding.mainRotorVisComponent rotor node] })

/-- Embedding of `loadVisualTailRotor`. -/
def loadVisualTailRotor : VisComponentLoader := fun ctx json c =>
  match (do let filename ← ctx.getString (← ctx.at json "model")
            let node ← ctx.createModel filename
            pure (filename, node) : Except Failure (String × Nat)) with
  | .error e => (.error e, c)
  | .ok (filename, node) =>
    let c1 : Construction :=
      { c with
        dataFilePathList :=
          registerAssetSearchDirectory (ctx.getParentDirectory filename) c.dataFilePathList
        visObjects := c.visObjects ++ [VisObject.model node] }
    match (do let rotor ← firstComponentRequired ctx ctx.isPropellerComponent
                "PropellerComponent" c1.components
              let _ ← firstNodeRequired ctx c1.components
              pure rotor : Except Failure Nat) with
    | .error e => (.error e, c1)
    | .ok rotor =>
      (.ok (), { c1 with
        bindings := c1.bindings ++ [SimVisBinding.propellerVisComponent rotor node] })

/-- Embedding of `loadVisualCamera`. -/
def loadVisualCamera : VisComponentLoader := fun _ _ c =>
  (.ok (), { c with bindings := c.bindings ++ [SimVisBinding.cameraSimVisBinding] })

/-- The block of `loadPlanet` that reads the atmosphere. -/
def readAtmosphereConfig (ctx : EntityFactory.Context) (planetRadius : ℚ) (atmosphere : Json) :
    Except Failure BruentonAtmosphereConfig := do
  let calculator ←
    match ← ctx.readOptionalDouble atmosphere "earthReyleighScatteringCoefficient" with
    | some coefficient => ctx.createEarthReyleighScatteringCoefficientCalculator coefficient
    | none =>
      match ← ctx.readOptionalJson atmosphere "reyleighScatteringCoefficientTable" with
      | some table => do
        let coefficients ← ctx.at table "coefficients"
        let wavelengthsNm ← ctx.at table "wavelengthsNm"
        if coefficients.size ≠ wavelengthsNm.size then
          throw ⟨.skyboltException, "Must have equal number of coefficients and wavelengths"⟩
        else
          ctx.createTableReyleighScatteringCoefficientCalculator coefficients wavelengthsNm
      | none => throw ⟨.skyboltException, "Reyleigh scattering coefficient not defined"⟩
  let rayleighScaleHeight ← ctx.getDouble (← ctx.at atmosphere "rayleighScaleHeight")
  let mieScaleHeight ← ctx.getDouble (← ctx.at atmosphere "mieScaleHeight")
  let mieAngstromAlpha ← ctx.getDouble (← ctx.at atmosphere "mieAngstromAlpha")
  let mieAngstromBeta ← ctx.getDouble (← ctx.at atmosphere "mieAngstromBeta")
  let mieSingleScatteringAlbedo ← ctx.getDouble (← ctx.at atmosphere "mieSingleScatteringAlbedo")
  let miePhaseFunctionG ← ctx.getDouble (← ctx.at atmosphere "miePhaseFunctionG")
  let useEarthOzone ← ctx.readOptionalOrDefaultBool atmosphere "useEarthOzone" false
  pure
    { bottomRadius := planetRadius
      topRadius := planetRadius * (10094 / 10000)
      reyleighScatteringCoefficientCalculator := calculator
      rayleighScaleHeight := rayleighScaleHeight
      mieScaleHeight := mieScaleHeight
      mieAngstromAlpha := mieAngstromAlpha
      mieAngstromBeta := mieAngstromBeta
      mieSingleScatteringAlbedo := mieSingleScatteringAlbedo
      miePhaseFunctionG := miePhaseFunctionG
      useEarthOzone := useEarthOzone }

/-- The values that `loadPlanet` reads before it reads the surface: the radius, the
ocean, the texture of the clouds and the configuration of the atmosphere. -/
def readPlanetValues (ctx : EntityFactory.Context) (json : Json) :
    Except Failure (ℚ × Bool × Option Nat × Option BruentonAtmosphereConfig) := do
  let planetRadius ← ctx.getDouble (← ctx.at json "radius")
  let hasOcean ← ctx.readOptionalOrDefaultBool json "ocean" true
  let cloudsTexture ←
    match json.find "clouds" with
    | some clouds => do
      let texture ← ctx.createCloudTexture (← ctx.at clouds "map")
      pure (some texture)
    | none => pure none
  let atmosphereConfig ←
    match json.find "atmosphere" with
    | some atmosphere => do
      let config ← readAtmosphereConfig ctx planetRadius atmosphere
      pure (some config)
    | none => pure none
  pure (planetRadius, hasOcean, cloudsTexture, atmosphereConfig)

/-- The statements of `loadPlanet` before it reads the surface: the configuration with
the radius, the ocean, the clouds and the atmosphere, and with null tile sources. -/
def readPlanetBeforeSurface (ctx : EntityFactory.Context) (json : Json) :
    Except Failure PlanetConfig :=
  match readPlanetValues ctx json with
  | .error e => .error e
  | .ok (planetRadius, hasOcean, cloudsTexture, atmosphereConfig) =>
    .ok
      { innerRadius := planetRadius
        waterEnabled := hasOcean
        cloudsTexture := cloudsTexture
        atmosphereConfig := atmosphereConfig
        elevationMaxLodLevel := 0
        albedoMaxLodLevel := 0
        planetTileSources := { elevation := none, albedo := none, attributeSource := none }
        featuresDirectory := none }

/-- The block of `loadPlanet` that reads the elevation layer of the surface. -/
def readElevationLayer (ctx : EntityFactory.Context) (layers : Json) (config : PlanetConfig) :
    Except Failure PlanetConfig := do
  let elevation ← ctx.at layers "elevation"
  let maxLevel ← ctx.getInt (← ctx.at elevation "maxLevel")
  let source ← ctx.createTileSourceFromJson elevation
  pure { config with
    elevationMaxLodLevel := maxLevel
    planetTileSources := { config.planetTileSources with elevation := some source } }

/-- The block of `loadPlanet` that reads the albedo layer of the surface. -/
def readAlbedoLayer (ctx : EntityFactory.Context) (layers : Json) (config : PlanetConfig) :
    Except Failure PlanetConfig := do
  let albedo ← ctx.at layers "albedo"
  let maxLevel ← ctx.getInt (← ctx.at albedo "maxLevel")
  let source ← ctx.createTileSourceFromJson albedo
  pure { config with
    albedoMaxLodLevel := maxLevel
    planetTileSources := { config.planetTileSources with albedo := some source } }

/-- The statements of `loadPlanet` that read the attribute layer of the surface. -/
def readAttributeLayer (ctx : EntityFactory.Context) (layers : Json) (config : PlanetConfig) :
    Except Failure PlanetConfig :=
  match layers.find "attribute" with
  | some layer => do
    let source ← ctx.createTileSourceFromJson layer
    pure { config with
      planetTileSources := { config.planetTileSources with attributeSource := some source } }
  | none => pure config

/-- The block of `loadPlanet` that reads the features. -/
def readFeatures (ctx : EntityFactory.Context) (json : Json) (config : PlanetConfig) :
    Except Failure PlanetConfig :=
  match json.find "features" with
  | some features => do
    let directory ← ctx.fileLocator (← ctx.at features "directory")
    pure { config with featuresDirectory := some directory }
  | none => pure config

/-- The statements of `loadPlanet` that read the surface and the features, after the
statements before them gave `config`. -/
def readPlanetSurface (ctx : EntityFactory.Context) (json : Json) (config : PlanetConfig) :
    Except Failure PlanetConfig := do
  let layers ← ctx.at json "surface"
  let config ← readElevationLayer ctx layers config
  let config ← readAlbedoLayer ctx layers config
  let config ← readAttributeLayer ctx layers config
  readFeatures ctx json config

/-- The statements of `loadPlanet` up to the construction of the `vis::Planet`: the
configuration that the constructor gets. -/
def readPlanetConfig (ctx : EntityFactory.Context) (json : Json) : Except Failure PlanetConfig := do
  let config ← readPlanetBeforeSurface ctx json
  readPlanetSurface ctx json config

/-- Embedding of `loadPlanet`. -/
def loadPlanet : VisComponentLoader := fun ctx json c =>
  match readPlanetConfig ctx json with
  | .error e => (.error e, c)
  | .ok config =>
    match ctx.newPlanet config with
    | .error e => (.error e, c)
    | .ok visObject =>
      (.ok (),
        { c with
          planets := c.planets ++ [config]
          components := c.components ++
            [Component.node, Component.simVisBindingsComponent, Component.visObjectsComponent,
             Component.planetComponent config.innerRadius config.waterEnabled
               config.planetTileSources.elevation config.elevationMaxLodLevel,
             Component.nameComponent "Earth", Component.planetStatsUpdater visObject]
          bindings := c.bindings ++ [SimVisBinding.planetVisBinding visObject] ++
            (if ctx.hasWaterStateSet visObject then [SimVisBinding.wakeBinding visObject]
             else [])
          visObjects := c.visObjects ++ [VisObject.planet visObject] })

/-- The static map `visComponentLoaders` of `createEntityFromJson`. -/
def visComponentLoaders : List (String × VisComponentLoader) :=
  [("camera", loadVisualCamera), ("visualModel", loadVisualModel),
   ("visualMainRotor", loadVisualMainRotor), ("visualTailRotor", loadVisualTailRotor),
   ("planet", loadPlanet)]

/-- The state of a call of `createEntityFromJson`: the entity under construction, and the
keys and contents with which it has invoked a vis component loader so far. -/
structure FactoryRun where
  construction : Construction
  visLoaderCalls : List (String × Json)

/-- The block `Sim components` of the inner loop of `createEntityFromJson` for one key
and its content: the sim component factory registered under the key, if there is one. -/
def dispatchSimComponent (ctx : EntityFactory.Context) (key : String) (content : Json)
    (r : FactoryRun) : Except Failure Unit × FactoryRun :=
  match ctx.componentFactoryRegistry.lookup key with
  | some factory =>
    match factory content with
    | .error e => (.error e, r)
    | .ok (some component) =>
      (.ok (), { r with construction := { r.construction with
        components := r.construction.components ++ [Component.simComponent component] } })
    | .ok none => (.ok (), r)
  | none => (.ok (), r)

/-- The block `Vis components` of the inner loop of `createEntityFromJson` for one key
and its content: the vis component loader registered under the key, if there is one. -/
def dispatchVisComponent (ctx : EntityFactory.Context) (key : String) (content : Json)
    (r : FactoryRun) : Except Failure Unit × FactoryRun :=
  match visComponentLoaders.lookup key with
  | some loader =>
    ((loader ctx content r.construction).1,
     { construction := (loader ctx content r.construction).2
       visLoaderCalls := r.visLoaderCalls ++ [(key, content)] })
  | none => (.ok (), r)

/-- The body of the inner loop of `createEntityFromJson` for one key and its content:
the two blocks in order. -/
def dispatchComponent (ctx : EntityFactory.Context) (key : String) (content : Json)
    (r : FactoryRun) : Except Failure Unit × FactoryRun :=
  match dispatchSimComponent ctx key content r with
  | (.error e, r1) => (.error e, r1)
  | (.ok _, r1) => dispatchVisComponent ctx key content r1

/-- The inner loop of `createEntityFromJson` over the entries of one element of the
components. -/
def dispatchItems (ctx : EntityFactory.Context) :
    List (String × Json) → FactoryRun → Except Failure Unit × FactoryRun
  | [], r => (.ok (), r)
  | (key, content) :: rest, r =>
    match dispatchComponent ctx key content r with
    | (.error e, r1) => (.error e, r1)
    | (.ok _, r1) => dispatchItems ctx rest r1

/-- The outer loop of `createEntityFromJson` over the elements of the components. -/
def dispatchComponents (ctx : EntityFactory.Context) :
    List Json → FactoryRun → Except Failure Unit × FactoryRun
  | [], r => (.ok (), r)
  | component :: rest, r =>
    match component.keyedItems with
    | .error e => (.error (ctx.jsonFailure e), r)
    | .ok items =>
      match dispatchItems ctx items r with
      | (.error e, r1) => (.error e, r1)
      | (.ok _, r1) => dispatchComponents ctx rest r1

/-- The data members of `EntityFactory`; the built-in templates are in the context. -/
structure EntityFactory where
  mContext : EntityFactory.Context
  mTemplateJsonMap : List (String × Json)

/-- Embedding of `EntityFactory::createEntityFromJson`. The entity starts with its four
first components; `r` gives the state that outlives the entity. -/
def EntityFactory.createEntityFromJson (f : EntityFactory) (json : Json)
    (templateName instanceName : String) (position : Vector3) (orientation : Quat)
    (r : FactoryRun) : Except Failure Unit × FactoryRun :=
  let start : FactoryRun :=
    { r with construction :=
        { r.construction with
          components :=
            [Component.nameComponent instanceName, Component.templateNameComponent templateName,
             Component.simVisBindingsComponent, Component.visObjectsComponent]
          bindings := []
          visObjects := []
          nodePlacement := none } }
  match f.mContext.at json "components" with
  | .error e => (.error e, start)
  | .ok components =>
    match dispatchComponents f.mContext components.elements start with
    | (.error e, r1) => (.error e, r1)
    | (.ok _, r1) =>
      match firstNode f.mContext r1.construction.components with
      | some _ =>
        (.ok (), { r1 with construction :=
          { r1.construction with nodePlacement := some (position, orientation) } })
      | none => (.ok (), r1)

/-- The map `mBuiltinTemplates` that the constructor of `EntityFactory` fills. -/
def EntityFactory.mBuiltinTemplates (f : EntityFactory) :
    List (String × Except Failure Construction) :=
  [("SunBillboard", f.mContext.createSun), ("MoonBillboard", f.mContext.createMoon),
   ("Stars", f.mContext.createStars), ("Polyline", f.mContext.createPolyline)]

/-- Embedding of `EntityFactory::createEntity`. The result is the exception thrown or
the entity returned, which on the first path is the entity under construction of the
state. -/
def EntityFactory.createEntity (f : EntityFactory) (templateName nameIn : String)
    (position : Vector3) (orientation : Quat) (r : FactoryRun) :
    Except Failure Construction × FactoryRun :=
  match f.mTemplateJsonMap.lookup templateName with
  | some json =>
    match (if nameIn.isEmpty then
        createUniqueObjectName f.mContext.getObjectByName templateName
      else .ok nameIn) with
    | .error e => (.error e, r)
    | .ok name =>
      match f.createEntityFromJson json templateName name position orientation r with
      | (.ok _, r1) => (.ok r1.construction, r1)
      | (.error e, r1) =>
        if e.type = ExceptionType.nonStandard then (.error e, r1)
        else
          (.error ⟨.skyboltException, "Error loading '" ++ templateName ++ "': " ++ e.what⟩, r1)
  | none =>
    match f.mBuiltinTemplates.lookup templateName with
    | some creator => (creator, r)
    | none => (.error ⟨.runtimeError, "Invalid templateName: " ++ templateName⟩, r)

/-- A context in which the conversions accept the matching kind of JSON value only, no
sim component factory is registered, and every collaborator succeeds; the handle of a
model is the length of its file name. -/
def sampleContext : EntityFactory.Context :=
  { jsonWhat := fun e => match e with
      | .outOfRange key => "key '" ++ key ++ "' not found"
      | .typeError operation => "cannot use " ++ operation
      | .invalidIterator => "cannot use key() for non-object iterators"
    getDouble := fun j => match j with
      | .number x => .ok x
      | _ => .error ⟨.jsonException, "type must be number"⟩
    getInt := fun j => match j with
      | .number x => .ok ⌊x⌋
      | _ => .error ⟨.jsonException, "type must be number"⟩
    getString := fun j => match j with
      | .string s => .ok s
      | _ => .error ⟨.jsonException, "type must be string"⟩
    index := fun j i => match j with
      | .array elements => match elements[i]? with
        | some e => .ok e
        | none => .error ⟨.otherStdException, "index"⟩
      | _ => .error ⟨.jsonException, "cannot use operator[] with a numeric argument"⟩
    readOptionalDouble := fun j name => match j.find name with
      | some (.number x) => .ok (some x)
      | some _ => .error ⟨.jsonException, "type must be number"⟩
      | none => .ok none
    readOptionalJson := fun j name => .ok (j.find name)
    readOptionalOrDefaultBool := fun j name defaultValue => match j.find name with
      | some (.boolean b) => .ok b
      | some _ => .error ⟨.jsonException, "type must be boolean"⟩
      | none => .ok defaultValue
    degToRadD := 1 / 57
    getObjectByName := fun name => if name = "ship1" ∨ name = "ship2" then some 0 else none
    componentFactoryRegistry := []
    isNode := fun _ => false
    isMainRotorComponent := fun _ => false
    isPropellerComponent := fun _ => false
    componentRequired := fun typeName => ⟨.skyboltException, "missing " ++ typeName⟩
    createModel := fun filename => .ok filename.length
    getParentDirectory := fun _ => "Assets"
    createCloudTexture := fun _ => .ok 1
    createEarthReyleighScatteringCoefficientCalculator := fun _ => .ok 2
    createTableReyleighScatteringCoefficientCalculator := fun _ _ => .ok 3
    createTileSourceFromJson := fun _ => .ok 4
    fileLocator := fun _ => .ok "features"
    newPlanet := fun _ => .ok 5
    hasWaterStateSet := fun _ => true
    createSun := .error ⟨.otherStdException, "no sun"⟩
    createMoon := .error ⟨.otherStdException, "no moon"⟩
    createStars := .error ⟨.otherStdException, "no stars"⟩
    createPolyline := .error ⟨.otherStdException, "no polyline"⟩ }

/-- A surface with an albedo layer only. -/
def surfaceWithoutElevation : Json :=
  .object [("albedo", .object [("maxLevel", .number 9)])]

/-- The content of a planet component of which the surface has an albedo layer only. -/
def planetWithoutElevation : Json :=
  .object [("radius", .number 6371000), ("surface", surfaceWithoutElevation)]

/-- The content of a planet component of which the surface has an elevation layer and an
albedo layer and no attribute layer. -/
def planetWithoutAttribute : Json :=
  .object [("radius", .number 6371000),
    ("surface", .object [("elevation", .object [("maxLevel", .number 12)]),
      ("albedo", .object [("maxLevel", .number 9)])])]

/-- The members of the one element of the components of the template `Ship`, in the
order of the document: the key `visualModel` comes before the key `camera`, and no
factory or loader is registered under the key `engine`. -/
def shipComponentMembers : List (String × Json) :=
  [("visualModel", .object [("model", .string "Models/ship.osgb")]),
   ("camera", .object []), ("engine", .object [])]

/-- The template `Ship`. -/
def shipTemplate : Json :=
  .object [("components", .array [.object shipComponentMembers])]

/-- The keys of the static map `visComponentLoaders`. -/
def visComponentKeys : List String :=
  ["camera", "visualModel", "visualMainRotor", "visualTailRotor", "planet"]

/-- A factory with the templates `Ship`, `Stars`, `Globe` with the planet without
elevation layer, and `Earth` with the planet without attribute layer. -/
def sampleFactory : EntityFactory :=
  { mContext := sampleContext
    mTemplateJsonMap :=
      [("Ship", shipTemplate),
       ("Stars", .object [("components", .array [.object [("camera", .null)]])]),
       ("Globe", .object [("components", .array [.object [("planet", planetWithoutElevation)]])]),
       ("Earth", .object [("components", .array [.object [("planet", planetWithoutAttribute)]])])] }

/-- The state before the first entity is created. -/
def emptyFactoryRun : FactoryRun :=
  { construction :=
      { components := [], bindings := [], visObjects := [], nodePlacement := none,
        planets := [], dataFilePathList := [] }
    visLoaderCalls := [] }

/-- The land mask has one element per texel of the source. -/
theorem convertHeightmapToLandMask_length (src : Image) :
    (convertHeightmapToLandMask src).data.length = src.s * src.t := by
  simp [convertHeightmapToLandMask]

/-- Element `i` of the land mask is the threshold test of texel `i` of the source. -/
theorem convertHeightmapToLandMask_getElem? (src : Image) (i : Nat) (hi : i < src.s * src.t) :
    (convertHeightmapToLandMask src).data[i]? =
      some (if src.data.getD i 0 ≤ 32767 then 0 else 255) := by
  simp only [convertHeightmapToLandMask, List.getElem?_map, oceanFlagHeight]
  rw [List.getElem?_range hi]
  simp only [Option.map_some']
  congr 1
  by_cases h : src.data.getD i 0 ≤ 32767
  · have h' : ((src.data.getD i 0 : Nat) : Int) ≤ 32767 := by exact_mod_cast h
    simp [h, h']
  · have h' : ¬ ((src.data.getD i 0 : Nat) : Int) ≤ 32767 := by
      intro hc
      exact h (by exact_mod_cast hc)
    simp [h, h']

/-- C5: for every 16-bit height image, `convertHeightmapToLandMask` yields an image of the
same width and height, with one element per texel, in which element `i` is `0` (water) if
source texel `i` is at or below 32767 and `255` (land) otherwise; so a source whose texels
are all at or below the threshold gives an all-`0` mask, and one whose texels are all
above it gives an all-`255` mask. -/
theorem convertHeightmapToLandMask_spec (src : Image) (h : src.isHeightImage) :
    (convertHeightmapToLandMask src).s = src.s ∧
    (convertHeightmapToLandMask src).t = src.t ∧
    (convertHeightmapToLandMask src).data.length = src.data.length ∧
    (∀ (i : Nat) (hi : i < src.data.length),
      (convertHeightmapToLandMask src).data[i]? =
        some (if src.data[i] ≤ 32767 then 0 else 255)) ∧
    ((∀ v ∈ src.data, v ≤ 32767) →
      (convertHeightmapToLandMask src).data = List.replicate (src.s * src.t) 0) ∧
    ((∀ v ∈ src.data, 32767 < v) →
      (convertHeightmapToLandMask src).data = List.replicate (src.s * src.t) 255) := by
  obtain ⟨hlen, -, -⟩ := h
  have hget : ∀ (i : Nat) (hi : i < src.data.length), src.data.getD i 0 = src.data[i] := by
    intro i hi
    simp [List.getD, List.getElem?_eq_getElem hi]
  refine ⟨rfl, rfl, ?_, ?_, ?_, ?_⟩
  · rw [convertHeightmapToLandMask_length, hlen]
  · intro i hi
    rw [convertHeightmapToLandMask_getElem? src i (hlen ▸ hi), hget i hi]
  · intro hall
    apply List.ext_getElem?
    intro i
    by_cases hi : i < src.s * src.t
    · have hi' : i < src.data.length := hlen ▸ hi
      rw [convertHeightmapToLandMask_getElem? src i hi, hget i hi',
        List.getElem?_replicate_of_lt hi]
      simp [hall _ (List.getElem_mem hi')]
    · have h1 : (convertHeightmapToLandMask src).data.length ≤ i := by
        rw [convertHeightmapToLandMask_length]; omega
      rw [List.getElem?_eq_none h1, List.getElem?_eq_none (by simpa using Nat.le_of_not_lt hi)]
  · intro hall
    apply List.ext_getElem?
    intro i
    by_cases hi : i < src.s * src.t
    · have hi' : i < src.data.length := hlen ▸ hi
      rw [convertHeightmapToLandMask_getElem? src i hi, hget i hi',
        List.getElem?_replicate_of_lt hi]
      have := hall _ (List.getElem_mem hi')
      simp [Nat.not_le.mpr this]
    · have h1 : (convertHeightmapToLandMask src).data.length ≤ i := by
        rw [convertHeightmapToLandMask_length]; omega
      rw [List.getElem?_eq_none h1, List.getElem?_eq_none (by simpa using Nat.le_of_not_lt hi)]

theorem convertHeightmapToLandMask_spec_witness :
    sampleHeightImage.isHeightImage ∧
    (convertHeightmapToLandMask sampleHeightImage).data = [0, 0, 255, 255] ∧
    (convertHeightmapToLandMask sampleHeightImage).data.length =
      sampleHeightImage.data.length :=
  ⟨by decide, by decide,
   (convertHeightmapToLandMask_spec sampleHeightImage (by decide)).2.2.1⟩

/-- On a cache hit `getOrCreateImage` returns the cached image and leaves the world and the
trace as they are. -/
theorem getOrCreateImage_hit (key : QuadTreeTileKey) (i : CacheIndex)
    (f : QuadTreeTileKey → Run W → Option ImageRef × Run W) (r : Run W)
    (hit : Option ImageRef × LruCache) (h : (r.caches.at i).get key = some hit) :
    getOrCreateImage key i f r =
      ({ image := hit.1, key := key }, { r with caches := r.caches.set i hit.2 }) := by
  simp [getOrCreateImage, h]

/-- On a cache miss `getOrCreateImage` runs the factory once and stores its result. -/
theorem getOrCreateImage_miss (key : QuadTreeTileKey) (i : CacheIndex)
    (f : QuadTreeTileKey → Run W → Option ImageRef × Run W) (r : Run W)
    (h : (r.caches.at i).get key = none) :
    getOrCreateImage key i f r =
      ({ image := (f key r).1, key := key },
       { (f key r).2 with
         caches := (f key r).2.caches.set i (((f key r).2.caches.at i).put key (f key r).1) }) := by
  simp [getOrCreateImage, h]

/-- The height map block: it sets the height image and the normal map to non-null images,
queries the elevation source once, creates at most one image, and leaves the land mask
cache as it is. -/
theorem loadHeightMap_spec (L : PlanetTileImagesLoader W F) (key : QuadTreeTileKey)
    (c : W → Bool × W) (r : Run W) :
    ∃ (q : Option QuadTreeTileKey) (rest : List Event) (img nm : ImageRef)
      (k : QuadTreeTileKey),
      (L.loadHeightMap key c ⟨PlanetTileImages.empty, r⟩).images =
        { PlanetTileImages.empty with
          heightMapImage := ⟨some img, k⟩, normalMapImage := some nm } ∧
      (L.loadHeightMap key c ⟨PlanetTileImages.empty, r⟩).run.trace =
        r.trace ++ Event.getHighestAvailableLevel .elevationLayer key q :: rest ∧
      Fetched .elevationLayer q rest k (DefaultHeight img nm) ∧
      (L.loadHeightMap key c ⟨PlanetTileImages.empty, r⟩).run.caches.landMaskCache =
        r.caches.landMaskCache := by
  unfold PlanetTileImagesLoader.loadHeightMap PlanetTileImagesLoader.fetchHeightMap
  cases hq : (callGetHighestAvailableLevel .elevationLayer L.elevationLayer key r).1 with
  | none =>
    refine ⟨none, [], .defaultHeightImage, .defaultNormalMap, QuadTreeTileKey.unassigned, ?_⟩
    simp [hq, PlanetTileImagesLoader.finishHeightMap, PlanetTileImages.empty, TileImage.empty,
      callGetHighestAvailableLevel, DefaultHeight, Fetched] at *
    exact hq
  | some k =>
    simp only []
    cases hget : ((callGetHighestAvailableLevel .elevationLayer L.elevationLayer key r).2.caches.at
        .Elevation).get k with
    | some hit =>
      rw [getOrCreateImage_hit _ _ _ _ hit hget]
      cases hi : hit.1 with
      | none =>
        refine ⟨some k, [], .defaultHeightImage, .defaultNormalMap, k, ?_⟩
        simp [hi, PlanetTileImagesLoader.finishHeightMap, PlanetTileImages.empty,
          TileImage.empty, callGetHighestAvailableLevel, Caches.set, Fetched]
        exact hq
      | some img =>
        refine ⟨some k, [], img, ImageRef.object (L.createNormalmapFromHeightmap (L.deref img)
          (L.texelWorldSize k (L.deref img))), k, ?_⟩
        simp [hi, PlanetTileImagesLoader.finishHeightMap, PlanetTileImages.empty,
          TileImage.empty, callGetHighestAvailableLevel, Caches.set, Fetched]
        exact hq
    | none =>
      rw [getOrCreateImage_miss _ _ _ _ hget]
      cases hc : (L.elevationLayer.createImage k c
          (callGetHighestAvailableLevel .elevationLayer L.elevationLayer key r).2.world).1 with
      | none =>
        refine ⟨some k, [Event.createImage .elevationLayer k none], .defaultHeightImage,
          .defaultNormalMap, k, ?_⟩
        simp [hc, PlanetTileImagesLoader.finishHeightMap, PlanetTileImages.empty,
          TileImage.empty, callGetHighestAvailableLevel, callCreateImage, Caches.set,
          PlanetTileImagesLoader.elevationImageCreator, DefaultHeight, Fetched] at *
        exact hq
      | some image =>
        refine ⟨some k, [Event.createImage .elevationLayer k (some image)],
          .object (image.setInternalTextureFormat GL_R16),
          ImageRef.object (L.createNormalmapFromHeightmap
            (L.deref (.object (image.setInternalTextureFormat GL_R16)))
            (L.texelWorldSize k (L.deref (.object (image.setInternalTextureFormat GL_R16))))),
          k, ?_⟩
        simp [hc, PlanetTileImagesLoader.finishHeightMap, PlanetTileImages.empty,
          TileImage.empty, callGetHighestAvailableLevel, callCreateImage, Caches.set,
          PlanetTileImagesLoader.elevationImageCreator, DefaultHeight, Fetched] at *
        exact hq

/-- The land mask block: for a non-null height image it sets the land mask to a non-null
image and changes no other member of the bundle. -/
theorem loadLandMask_spec (L : PlanetTileImagesLoader W F) (c : W → Bool × W)
    (st : Loading W) (h : ImageRef) (hh : st.images.heightMapImage.image = some h) :
    ∃ (m : Loading W) (evs : List Event) (lm : ImageRef),
      L.loadLandMask c st = some m ∧
      m.images = { st.images with landMaskImage := some lm } ∧
      m.run.trace = st.run.trace ++ evs ∧
      LandMaskFacts L st.run.caches.landMaskCache h st.images.heightMapImage.key evs lm := by
  unfold PlanetTileImagesLoader.loadLandMask
  simp only [hh]
  cases hget : (st.run.caches.at .LandMask).get st.images.heightMapImage.key with
  | some hit =>
    rw [getOrCreateImage_hit _ _ _ _ hit hget]
    have hget' : st.run.caches.landMaskCache.get st.images.heightMapImage.key = some hit := hget
    refine ⟨_, [], hit.1.getD ImageRef.defaultLandMask, rfl, ?_, by simp, ?_⟩
    · cases hit.1 <;> simp
    · simp [LandMaskFacts, hget']
  | none =>
    rw [getOrCreateImage_miss _ _ _ _ hget]
    have hget' : st.run.caches.landMaskCache.get st.images.heightMapImage.key = none := hget
    cases hl : L.landMaskLayer with
    | some src =>
      refine ⟨_, [Event.createImage .landMaskLayer st.images.heightMapImage.key
        (src.createImage st.images.heightMapImage.key c st.run.world).1],
        (((src.createImage st.images.heightMapImage.key c st.run.world).1).map
          ImageRef.object).getD ImageRef.defaultLandMask, rfl, ?_, ?_, ?_⟩
      · cases hc : (src.createImage st.images.heightMapImage.key c st.run.world).1 <;>
          simp [PlanetTileImagesLoader.landMaskImageCreator, hl, callCreateImage, hc]
      · simp [PlanetTileImagesLoader.landMaskImageCreator, hl, callCreateImage]
      · simp [LandMaskFacts, hget', hl]
    | none =>
      refine ⟨_, [], (if h = ImageRef.defaultHeightImage then ImageRef.defaultLandMask
           else ImageRef.object (convertHeightmapToLandMask (L.deref h))), rfl, ?_, ?_, ?_⟩
      · by_cases hd : h = ImageRef.defaultHeightImage <;>
          simp [PlanetTileImagesLoader.landMaskImageCreator, hl, hd]
      · by_cases hd : h = ImageRef.defaultHeightImage <;>
          simp [PlanetTileImagesLoader.landMaskImageCreator, hl, hd]
      · simp [LandMaskFacts, hget', hl]

/-- The albedo block: it sets the albedo image to a non-null image and changes no other
member of the bundle. -/
theorem loadAlbedoMap_spec (L : PlanetTileImagesLoader W F) (key : QuadTreeTileKey)
    (c : W → Bool × W) (st : Loading W)
    (hst : st.images.albedoMapImage = TileImage.empty) :
    ∃ (q : Option QuadTreeTileKey) (rest : List Event) (img : ImageRef)
      (k : QuadTreeTileKey),
      (L.loadAlbedoMap key c st).images =
        { st.images with albedoMapImage := ⟨some img, k⟩ } ∧
      (L.loadAlbedoMap key c st).run.trace =
        st.run.trace ++ Event.getHighestAvailableLevel .albedoLayer key q :: rest ∧
      Fetched .albedoLayer q rest k (img = ImageRef.defaultAlbedoImage) := by
  unfold PlanetTileImagesLoader.loadAlbedoMap PlanetTileImagesLoader.fetchAlbedoMap
  cases hq : (callGetHighestAvailableLevel .albedoLayer L.albedoLayer key st.run).1 with
  | none =>
    refine ⟨none, [], .defaultAlbedoImage, QuadTreeTileKey.unassigned, ?_⟩
    simp [hq, hst, PlanetTileImagesLoader.finishAlbedoMap, TileImage.empty,
      callGetHighestAvailableLevel, Fetched] at *
    exact hq
  | some k =>
    simp only []
    cases hget : ((callGetHighestAvailableLevel .albedoLayer L.albedoLayer key st.run).2.caches.at
        .Albedo).get k with
    | some hit =>
      rw [getOrCreateImage_hit _ _ _ _ hit hget]
      cases hi : hit.1 with
      | none =>
        refine ⟨some k, [], .defaultAlbedoImage, k, ?_⟩
        simp [hi, PlanetTileImagesLoader.finishAlbedoMap, callGetHighestAvailableLevel, Fetched]
        exact hq
      | some img =>
        refine ⟨some k, [], img, k, ?_⟩
        simp [hi, PlanetTileImagesLoader.finishAlbedoMap, callGetHighestAvailableLevel, Fetched]
        exact hq
    | none =>
      rw [getOrCreateImage_miss _ _ _ _ hget]
      cases hc : (L.albedoLayer.createImage k c
          (callGetHighestAvailableLevel .albedoLayer L.albedoLayer key st.run).2.world).1 with
      | none =>
        refine ⟨some k, [Event.createImage .albedoLayer k none], .defaultAlbedoImage, k, ?_⟩
        simp [hc, PlanetTileImagesLoader.finishAlbedoMap, callGetHighestAvailableLevel,
          callCreateImage, PlanetTileImagesLoader.albedoImageCreator, Fetched] at *
        exact hq
      | some image =>
        refine ⟨some k, [Event.createImage .albedoLayer k (some image)], .object image, k, ?_⟩
        simp [hc, PlanetTileImagesLoader.finishAlbedoMap, callGetHighestAvailableLevel,
          callCreateImage, PlanetTileImagesLoader.albedoImageCreator, Fetched] at *
        exact hq

/-- The attribute block: either it dereferences an empty optional, right after the
attribute source resolved no key, or it runs to its end and changes the attribute image
only. -/
theorem loadAttributeMap_spec (L : PlanetTileImagesLoader W F) (key : QuadTreeTileKey)
    (c : W → Bool × W) (st : Loading W) (hst : st.images.attributeMapImage = none) :
    (∃ src run, L.attributeLayer = some src ∧
      L.loadAttributeMap key c st = .emptyOptionalDereferenced run ∧
      run.trace = st.run.trace ++ [Event.getHighestAvailableLevel .attributeLayer key none]) ∨
    (∃ (st' : Loading W) (evs : List Event) (att : Option TileImage),
      L.loadAttributeMap key c st = .completed st' ∧
      st'.images = { st.images with attributeMapImage := att } ∧
      st'.run.trace = st.run.trace ++ evs ∧
      AttributeFacts L key evs att) := by
  unfold PlanetTileImagesLoader.loadAttributeMap
  cases hl : L.attributeLayer with
  | none =>
    right
    refine ⟨st, [], none, rfl, ?_, by simp, ?_⟩
    · rw [← hst]
    · simp [AttributeFacts, hl]
  | some src =>
    simp only []
    cases hq : (callGetHighestAvailableLevel .attributeLayer src key st.run).1 with
    | none =>
      left
      refine ⟨src, _, rfl, rfl, ?_⟩
      simp [callGetHighestAvailableLevel] at *
      exact hq
    | some k =>
      right
      simp only []
      cases hget : ((callGetHighestAvailableLevel .attributeLayer src key st.run).2.caches.at
          .Attribute).get k with
      | some hit =>
        rw [getOrCreateImage_hit _ _ _ _ hit hget]
        cases hi : hit.1 with
        | none =>
          refine ⟨_, [Event.getHighestAvailableLevel .attributeLayer key (some k)], none, rfl, ?_⟩
          simp [hi, callGetHighestAvailableLevel, AttributeFacts, hl]
          exact ⟨hq, k, [], ⟨rfl, rfl⟩, by simp⟩
        | some img =>
          refine ⟨_, [Event.getHighestAvailableLevel .attributeLayer key (some k)],
            some ⟨some img, k⟩, rfl, ?_⟩
          simp [hi, callGetHighestAvailableLevel, AttributeFacts, hl]
          exact ⟨hq, k, [], ⟨rfl, rfl⟩, by simp⟩
      | none =>
        rw [getOrCreateImage_miss _ _ _ _ hget]
        cases hc : (src.createImage k c
            (callGetHighestAvailableLevel .attributeLayer src key st.run).2.world).1 with
        | none =>
          refine ⟨_, [Event.getHighestAvailableLevel .attributeLayer key (some k),
            Event.createImage .attributeLayer k none], none, rfl, ?_⟩
          simp [hc, callGetHighestAvailableLevel, callCreateImage,
            PlanetTileImagesLoader.attributeImageCreator, AttributeFacts, hl] at *
          exact ⟨hq, k, _, ⟨rfl, rfl⟩, by simp⟩
        | some image =>
          refine ⟨_, [Event.getHighestAvailableLevel .attributeLayer key (some k),
            Event.createImage .attributeLayer k (some image)],
            some ⟨some (.object (L.convertAttributeMap image)), k⟩, rfl, ?_⟩
          simp [hc, callGetHighestAvailableLevel, callCreateImage,
            PlanetTileImagesLoader.attributeImageCreator, AttributeFacts, hl] at *
          exact ⟨hq, k, _, ⟨rfl, rfl⟩, by simp⟩

/-- The four blocks in sequence: the bundle and the trace of a run that passed the entry
check. -/
theorem loadLayers_spec (L : PlanetTileImagesLoader W F) (key : QuadTreeTileKey)
    (c : W → Bool × W) (r : Run W) :
    ∃ (qe : Option QuadTreeTileKey) (reste : List Event) (img nm : ImageRef)
      (ke : QuadTreeTileKey) (evm : List Event) (lm : ImageRef)
      (qa : Option QuadTreeTileKey) (resta : List Event) (aimg : ImageRef)
      (ka : QuadTreeTileKey),
      Fetched .elevationLayer qe reste ke (DefaultHeight img nm) ∧
      LandMaskFacts L r.caches.landMaskCache img ke evm lm ∧
      Fetched .albedoLayer qa resta ka (aimg = ImageRef.defaultAlbedoImage) ∧
      ((∃ src, L.attributeLayer = some src ∧
          (L.loadLayers key c r).1 = Outcome.undefinedBehaviour ∧
          (L.loadLayers key c r).2.trace = r.trace ++ layerCalls key qe reste evm qa resta ++
            [Event.getHighestAvailableLevel .attributeLayer key none]) ∨
       (∃ (evt : List Event) (att : Option TileImage) (c1 : Bool),
          AttributeFacts L key evt att ∧ (∃ w, c1 = (c w).1) ∧
          (L.loadLayers key c r).1 = Outcome.returned
            (if c1 = true then none else some
              { heightMapImage := ⟨some img, ke⟩, normalMapImage := some nm,
                landMaskImage := some lm, albedoMapImage := ⟨some aimg, ka⟩,
                attributeMapImage := att }) ∧
          (L.loadLayers key c r).2.trace = r.trace ++ layerCalls key qe reste evm qa resta ++
            evt ++ [Event.cancelSupplier c1])) := by
  obtain ⟨qe, reste, img, nm, ke, hHi, hHt, hHf, hHc⟩ := loadHeightMap_spec L key c r
  obtain ⟨m, evm, lm, hM, hMi, hMt, hMf⟩ := loadLandMask_spec L c
    (L.loadHeightMap key c ⟨PlanetTileImages.empty, r⟩) img (by rw [hHi])
  obtain ⟨qa, resta, aimg, ka, hAi, hAt, hAf⟩ := loadAlbedoMap_spec L key c m
    (by rw [hMi, hHi]; rfl)
  refine ⟨qe, reste, img, nm, ke, evm, lm, qa, resta, aimg, ka, hHf, ?_, hAf, ?_⟩
  · rw [hHc, hHi] at hMf
    exact hMf
  · unfold PlanetTileImagesLoader.loadLayers
    simp only [hM]
    rcases loadAttributeMap_spec L key c (L.loadAlbedoMap key c m)
        (by rw [hAi, hMi, hHi]; rfl) with ⟨src, run, hl, hT, hTt⟩ | ⟨st', evt, att, hT, hTi, hTt, hTf⟩
    · left
      refine ⟨src, hl, ?_, ?_⟩
      · simp only [hT]
      · simp only [hT, hTt, hAt, hMt, hHt, layerCalls, List.append_assoc]
    · right
      refine ⟨evt, att, (callCancelSupplier c st'.run).1, hTf, ⟨st'.run.world, rfl⟩, ?_, ?_⟩
      · simp only [hT, finishLoad]
        split
        · rfl
        · rw [hTi, hAi, hMi, hHi]
      · simp only [hT, finishLoad]
        split <;>
          simp [callCancelSupplier, hTt, hAt, hMt, hHt, layerCalls, List.append_assoc]

/-- The calls after the query of a block are calls to the source of that block. -/
theorem fetched_layer_of_mem {layer : Layer} {q : Option QuadTreeTileKey} {rest : List Event}
    {k : QuadTreeTileKey} {P : Prop} (h : Fetched layer q rest k P) :
    ∀ e ∈ rest, e.layer? = some layer := by
  intro e he
  rcases h.1 with h0 | ⟨k', res, -, h1, -⟩
  · simp [h0] at he
  · simp [h1] at he
    simp [he, Event.layer?]

/-- The calls of the land mask block are calls to the land mask source. -/
theorem landMaskFacts_layer_of_mem {L : PlanetTileImagesLoader W F} {cache : LruCache}
    {h : ImageRef} {k : QuadTreeTileKey} {evs : List Event} {lm : ImageRef}
    (hf : LandMaskFacts L cache h k evs lm) :
    ∀ e ∈ evs, e.layer? = some Layer.landMaskLayer := by
  intro e he
  cases hget : cache.get k with
  | some hit => simp [(hf.1 hit hget).1] at he
  | none =>
    cases hl : L.landMaskLayer with
    | none => simp [((hf.2 hget).2 hl).1] at he
    | some src =>
      obtain ⟨res, h1, -⟩ := (hf.2 hget).1 src hl
      simp [h1] at he
      simp [he, Event.layer?]

/-- The calls of the attribute block are calls to the attribute source. -/
theorem attributeFacts_layer_of_mem {L : PlanetTileImagesLoader W F} {key : QuadTreeTileKey}
    {evs : List Event} {att : Option TileImage} (hf : AttributeFacts L key evs att) :
    ∀ e ∈ evs, e.layer? = some Layer.attributeLayer := by
  intro e he
  rcases hf with ⟨-, h0, -⟩ | ⟨src, k, rest, -, h1, h2, -⟩
  · simp [h0] at he
  · rcases h2 with h3 | ⟨res, h3, -⟩
    · simp [h1, h3] at he
      simp [he, Event.layer?]
    · simp [h1, h3] at he
      rcases he with he | he <;> simp [he, Event.layer?]

/-- An event of a run that returned lies in the calls of the block of its layer. -/
theorem mem_run_layer {L : PlanetTileImagesLoader W F} {cache : LruCache}
    {key ke ka : QuadTreeTileKey} {qe qa : Option QuadTreeTileKey}
    {reste evm resta evt : List Event} {img lm : ImageRef} {att : Option TileImage}
    {P Q : Prop} {c0 c1 : Bool}
    (hE : Fetched .elevationLayer qe reste ke P) (hM : LandMaskFacts L cache img ke evm lm)
    (hA : Fetched .albedoLayer qa resta ka Q) (hT : AttributeFacts L key evt att)
    (e : Event)
    (he : e ∈ [Event.cancelSupplier c0] ++ layerCalls key qe reste evm qa resta ++ evt ++
      [Event.cancelSupplier c1]) :
    (e.layer? = some Layer.elevationLayer →
      e ∈ Event.getHighestAvailableLevel .elevationLayer key qe :: reste) ∧
    (e.layer? = some Layer.landMaskLayer → e ∈ evm) ∧
    (e.layer? = some Layer.albedoLayer →
      e ∈ Event.getHighestAvailableLevel .albedoLayer key qa :: resta) ∧
    (e.layer? = some Layer.attributeLayer → e ∈ evt) := by
  simp only [layerCalls, List.mem_append, List.mem_cons, List.mem_singleton,
    List.not_mem_nil, or_false] at he
  rcases he with ((he | ((he | he) | he) | he | he) | he) | he
  · simp [he, Event.layer?]
  · simp [he, Event.layer?]
  · have := fetched_layer_of_mem hE e he
    simp [this, he]
  · have := landMaskFacts_layer_of_mem hM e he
    simp [this, he]
  · simp [he, Event.layer?]
  · have := fetched_layer_of_mem hA e he
    simp [this, he]
  · have := attributeFacts_layer_of_mem hT e he
    simp [this, he]
  · simp [he, Event.layer?]

/-- The run of `load` when the entry check returns true. -/
theorem load_of_entry_cancelled (L : PlanetTileImagesLoader W F) (key : QuadTreeTileKey)
    (c : W → Bool × W) (world : W) (caches : Caches) (h : (c world).1 = true) :
    L.load key c (Run.start world caches) =
      (Outcome.returned none,
       { world := (c world).2, caches := caches, trace := [Event.cancelSupplier true] }) := by
  simp [PlanetTileImagesLoader.load, callCancelSupplier, Run.start, h]

/-- The run of `load` when the entry check returns false. -/
theorem load_of_entry_passed (L : PlanetTileImagesLoader W F) (key : QuadTreeTileKey)
    (c : W → Bool × W) (world : W) (caches : Caches) (h : (c world).1 = false) :
    L.load key c (Run.start world caches) =
      L.loadLayers key c
        { world := (c world).2, caches := caches, trace := [Event.cancelSupplier false] } := by
  simp [PlanetTileImagesLoader.load, callCancelSupplier, Run.start, h]

/-- An unresolved elevation key or a null elevation image leads to the default height
image and the default normal map. -/
theorem defaultHeight_of_no_elevation {key ke : QuadTreeTileKey}
    {qe : Option QuadTreeTileKey} {reste : List Event} {img nm : ImageRef}
    (hE : Fetched .elevationLayer qe reste ke (DefaultHeight img nm))
    (hno : Event.getHighestAvailableLevel .elevationLayer key none ∈
        Event.getHighestAvailableLevel .elevationLayer key qe :: reste ∨
      ∃ k, Event.createImage .elevationLayer k none ∈
        Event.getHighestAvailableLevel .elevationLayer key qe :: reste) :
    DefaultHeight img nm := by
  rcases hE with ⟨h1, -, h3⟩
  rcases hno with h | ⟨k, h⟩
  · rcases h1 with h0 | ⟨k', res, -, h0, -⟩
    · simp [h0] at h
      exact h3 h.symm
    · simp [h0] at h
      exact h3 h.symm
  · rcases h1 with h0 | ⟨k', res, -, h0, hd⟩
    · simp [h0] at h
    · simp [h0] at h
      exact hd h.2.symm

/-- Where the behaviour of `load` is defined, that is, where its attribute block does not
apply `operator*` to an empty optional: with a cancel predicate that is always false, if
the elevation source yields no image for the key (its `getHighestAvailableLevel` returns
none, or its `createImage` returns null), then `load` returns a bundle whose height image
is the default height image instance and whose normal map is the default normal map
instance. -/
theorem load_default_height_of_no_elevation (L : PlanetTileImagesLoader W F)
    (key : QuadTreeTileKey) (c : W → Bool × W) (world : W) (caches : Caches)
    (hcancel : ∀ w, (c w).1 = false)
    (hdefined : (L.load key c (Run.start world caches)).1 ≠ Outcome.undefinedBehaviour)
    (hno : Event.getHighestAvailableLevel .elevationLayer key none ∈
        (L.load key c (Run.start world caches)).2.trace ∨
      ∃ k, Event.createImage .elevationLayer k none ∈
        (L.load key c (Run.start world caches)).2.trace) :
    ∃ images, (L.load key c (Run.start world caches)).1 = Outcome.returned (some images) ∧
      images.heightMapImage.image = some ImageRef.defaultHeightImage ∧
      images.normalMapImage = some ImageRef.defaultNormalMap := by
  rw [load_of_entry_passed L key c world caches (hcancel world)] at hdefined hno ⊢
  obtain ⟨qe, reste, img, nm, ke, evm, lm, qa, resta, aimg, ka, hE, hM, hA, hcase⟩ :=
    loadLayers_spec L key c ⟨(c world).2, caches, [Event.cancelSupplier false]⟩
  rcases hcase with ⟨src, -, hub, -⟩ | ⟨evt, att, c1, hT, ⟨w, hc1⟩, hout, htr⟩
  · exact absurd hub hdefined
  · rw [hc1, hcancel w] at hout
    rw [htr] at hno
    have hd : DefaultHeight img nm := by
      apply defaultHeight_of_no_elevation hE
      rcases hno with h | ⟨k, h⟩
      · exact Or.inl ((mem_run_layer hE hM hA hT _ h).1 rfl)
      · exact Or.inr ⟨k, (mem_run_layer hE hM hA hT _ h).1 rfl⟩
    refine ⟨_, hout, ?_, ?_⟩
    · simp [hd.1]
    · simp [hd.2]

theorem load_default_height_of_no_elevation_witness :
    ∃ images, ((sampleLoader westernSource westernSource none none).load ⟨0, 1, 0⟩
        neverCancel (Run.start 0 (Caches.empty 4))).1 = Outcome.returned (some images) ∧
      images.heightMapImage.image = some ImageRef.defaultHeightImage ∧
      images.normalMapImage = some ImageRef.defaultNormalMap :=
  load_default_height_of_no_elevation (sampleLoader westernSource westernSource none none)
    ⟨0, 1, 0⟩ neverCancel 0 (Caches.empty 4) (fun _ => rfl) (by decide) (Or.inl (by decide))

/-- C1, the code at the failing input: the elevation source has no data for the key, so
that its `getHighestAvailableLevel` returns none, and the cancel supplier never returns
true; an attribute source is configured that has no data for the key either. `load` does
not return a bundle with the default height image: after the albedo block it applies
`operator*` to the empty optional of the attribute key, and its behaviour is
undefined. -/
theorem load_no_elevation_undefined_by_attribute_key :
    Event.getHighestAvailableLevel .elevationLayer ⟨5, 0, 0⟩ none ∈
      ((sampleLoader emptySource westernSource (some emptySource) none).load ⟨5, 0, 0⟩
        neverCancel (Run.start 0 (Caches.empty 4))).2.trace ∧
    Event.cancelSupplier true ∉
      ((sampleLoader emptySource westernSource (some emptySource) none).load ⟨5, 0, 0⟩
        neverCancel (Run.start 0 (Caches.empty 4))).2.trace ∧
    ((sampleLoader emptySource westernSource (some emptySource) none).load ⟨5, 0, 0⟩
      neverCancel (Run.start 0 (Caches.empty 4))).1 = Outcome.undefinedBehaviour := by
  decide

/-- An unresolved albedo key or a null albedo image leads to the default albedo image. -/
theorem defaultAlbedo_of_no_albedo {key ka : QuadTreeTileKey}
    {qa : Option QuadTreeTileKey} {resta : List Event} {aimg : ImageRef}
    (hA : Fetched .albedoLayer qa resta ka (aimg = ImageRef.defaultAlbedoImage))
    (hno : Event.getHighestAvailableLevel .albedoLayer key none ∈
        Event.getHighestAvailableLevel .albedoLayer key qa :: resta ∨
      ∃ k, Event.createImage .albedoLayer k none ∈
        Event.getHighestAvailableLevel .albedoLayer key qa :: resta) :
    aimg = ImageRef.defaultAlbedoImage := by
  rcases hA with ⟨h1, -, h3⟩
  rcases hno with h | ⟨k, h⟩
  · rcases h1 with h0 | ⟨k', res, -, h0, -⟩
    · simp [h0] at h
      exact h3 h.symm
    · simp [h0] at h
      exact h3 h.symm
  · rcases h1 with h0 | ⟨k', res, -, h0, hd⟩
    · simp [h0] at h
    · simp [h0] at h
      exact hd h.2.symm

/-- The key recorded by a block is the key its source resolved. -/
theorem resolved_key_of_fetched {layer : Layer} {key k ke : QuadTreeTileKey}
    {q : Option QuadTreeTileKey} {rest : List Event} {P : Prop}
    (hE : Fetched layer q rest ke P)
    (h : Event.getHighestAvailableLevel layer key (some k) ∈
      Event.getHighestAvailableLevel layer key q :: rest) : ke = k := by
  rcases hE with ⟨h1, h2, -⟩
  rcases h1 with h0 | ⟨k', res, -, h0, -⟩
  · simp [h0] at h
    exact h2 k h.symm
  · simp [h0] at h
    exact h2 k h.symm

/-- C2: every non-null bundle returned by `load` is complete: its height image, its
normal map, its land mask and its albedo image are non-null, for every key, every cancel
supplier, every behaviour of the tile sources and every content of the caches. -/
theorem load_bundle_complete (L : PlanetTileImagesLoader W F)
    (key : QuadTreeTileKey) (c : W → Bool × W) (world : W) (caches : Caches)
    (images : PlanetTileImages)
    (h : (L.load key c (Run.start world caches)).1 = Outcome.returned (some images)) :
    images.heightMapImage.image ≠ none ∧ images.normalMapImage ≠ none ∧
    images.landMaskImage ≠ none ∧ images.albedoMapImage.image ≠ none := by
  cases h0 : (c world).1 with
  | true =>
    rw [load_of_entry_cancelled L key c world caches h0] at h
    simp at h
  | false =>
    rw [load_of_entry_passed L key c world caches h0] at h
    obtain ⟨qe, reste, img, nm, ke, evm, lm, qa, resta, aimg, ka, hE, hM, hA, hcase⟩ :=
      loadLayers_spec L key c ⟨(c world).2, caches, [Event.cancelSupplier false]⟩
    rcases hcase with ⟨src, -, hub, -⟩ | ⟨evt, att, c1, hT, -, hout, htr⟩
    · rw [hub] at h
      simp at h
    · rw [hout] at h
      cases c1 with
      | true => simp at h
      | false =>
        simp at h
        subst h
        simp

theorem load_bundle_complete_witness :
    ((sampleLoader westernSource westernSource none none).load ⟨0, 1, 0⟩
      neverCancel (Run.start 0 (Caches.empty 4))).1 = Outcome.returned (some oceanBundle) ∧
    (oceanBundle.heightMapImage.image ≠ none ∧ oceanBundle.normalMapImage ≠ none ∧
     oceanBundle.landMaskImage ≠ none ∧ oceanBundle.albedoMapImage.image ≠ none) :=
  ⟨by decide,
   load_bundle_complete (sampleLoader westernSource westernSource none none) ⟨0, 1, 0⟩
      neverCancel 0 (Caches.empty 4) oceanBundle (by decide)⟩

/-- C4: `load` returns null when the cancel supplier returns true at the entry check, and
then it has called nothing else (no method of any tile source) and has left the caches
as they were; a non-null bundle is returned only in a run whose last call is a call of
the cancel supplier that returned false; and a run whose last call is a call of the
cancel supplier that returned true returns null. -/
theorem load_cancel_checks (L : PlanetTileImagesLoader W F)
    (key : QuadTreeTileKey) (c : W → Bool × W) (world : W) (caches : Caches) :
    ((c world).1 = true →
      (L.load key c (Run.start world caches)).1 = Outcome.returned none ∧
      (L.load key c (Run.start world caches)).2.trace = [Event.cancelSupplier true] ∧
      (L.load key c (Run.start world caches)).2.caches = caches) ∧
    (∀ images,
      (L.load key c (Run.start world caches)).1 = Outcome.returned (some images) →
      ∃ pre, (L.load key c (Run.start world caches)).2.trace =
        pre ++ [Event.cancelSupplier false]) ∧
    (∀ pre, (L.load key c (Run.start world caches)).2.trace =
        pre ++ [Event.cancelSupplier true] →
      (L.load key c (Run.start world caches)).1 = Outcome.returned none) := by
  cases h0 : (c world).1 with
  | true =>
    rw [load_of_entry_cancelled L key c world caches h0]
    simp
  | false =>
    rw [load_of_entry_passed L key c world caches h0]
    obtain ⟨qe, reste, img, nm, ke, evm, lm, qa, resta, aimg, ka, hE, hM, hA, hcase⟩ :=
      loadLayers_spec L key c ⟨(c world).2, caches, [Event.cancelSupplier false]⟩
    refine ⟨by simp, ?_, ?_⟩
    · intro images h
      rcases hcase with ⟨src, -, hub, -⟩ | ⟨evt, att, c1, hT, -, hout, htr⟩
      · rw [hub] at h
        simp at h
      · rw [hout] at h
        cases c1 with
        | true => simp at h
        | false => exact ⟨_, htr⟩
    · intro pre h
      rcases hcase with ⟨src, -, hub, htr⟩ | ⟨evt, att, c1, hT, -, hout, htr⟩
      · rw [htr] at h
        have := (List.append_inj' h rfl).2
        simp at this
      · rw [htr] at h
        have := (List.append_inj' h rfl).2
        simp at this
        rw [hout, this]
        rfl

theorem load_cancel_checks_witness :
    ((sampleLoader westernSource westernSource none none).load ⟨0, 1, 0⟩
      alwaysCancel (Run.start 0 (Caches.empty 4))).1 = Outcome.returned none ∧
    (∃ pre, ((sampleLoader westernSource westernSource none none).load ⟨0, 1, 0⟩
      neverCancel (Run.start 0 (Caches.empty 4))).2.trace =
        pre ++ [Event.cancelSupplier false]) :=
  ⟨((load_cancel_checks (sampleLoader westernSource westernSource none none) ⟨0, 1, 0⟩
      alwaysCancel 0 (Caches.empty 4)).1 rfl).1,
   (load_cancel_checks (sampleLoader westernSource westernSource none none) ⟨0, 1, 0⟩
      neverCancel 0 (Caches.empty 4)).2.1 oceanBundle (by decide)⟩

/-- C7: in a bundle returned by `load`, the key recorded for the elevation layer is the
key that the elevation source's `getHighestAvailableLevel` returned for the requested
key, and the key recorded for the albedo layer is the key that the albedo source's
`getHighestAvailableLevel` returned: the resolved key, not the requested one. -/
theorem load_records_resolved_key (L : PlanetTileImagesLoader W F)
    (key : QuadTreeTileKey) (c : W → Bool × W) (world : W) (caches : Caches)
    (images : PlanetTileImages)
    (h : (L.load key c (Run.start world caches)).1 = Outcome.returned (some images)) :
    (∀ k, Event.getHighestAvailableLevel .elevationLayer key (some k) ∈
        (L.load key c (Run.start world caches)).2.trace →
      images.heightMapImage.key = k) ∧
    (∀ k, Event.getHighestAvailableLevel .albedoLayer key (some k) ∈
        (L.load key c (Run.start world caches)).2.trace →
      images.albedoMapImage.key = k) := by
  cases h0 : (c world).1 with
  | true =>
    rw [load_of_entry_cancelled L key c world caches h0] at h
    simp at h
  | false =>
    rw [load_of_entry_passed L key c world caches h0] at h ⊢
    obtain ⟨qe, reste, img, nm, ke, evm, lm, qa, resta, aimg, ka, hE, hM, hA, hcase⟩ :=
      loadLayers_spec L key c ⟨(c world).2, caches, [Event.cancelSupplier false]⟩
    rcases hcase with ⟨src, -, hub, -⟩ | ⟨evt, att, c1, hT, -, hout, htr⟩
    · rw [hub] at h
      simp at h
    · rw [hout] at h
      rw [htr]
      cases c1 with
      | true => simp at h
      | false =>
        simp at h
        subst h
        constructor
        · intro k hk
          exact resolved_key_of_fetched hE ((mem_run_layer hE hM hA hT _ hk).1 rfl)
        · intro k hk
          exact resolved_key_of_fetched hA ((mem_run_layer hE hM hA hT _ hk).2.2.1 rfl)

theorem load_records_resolved_key_witness :
    levelTwoBundle.heightMapImage.key = ⟨2, 1, 2⟩ ∧
    levelTwoBundle.albedoMapImage.key = ⟨2, 1, 2⟩ :=
  ⟨(load_records_resolved_key (sampleLoader levelTwoSource levelTwoSource none none)
      ⟨5, 9, 17⟩ neverCancel 0 (Caches.empty 4) levelTwoBundle (by decide)).1 ⟨2, 1, 2⟩
      (by decide),
   (load_records_resolved_key (sampleLoader levelTwoSource levelTwoSource none none)
      ⟨5, 9, 17⟩ neverCancel 0 (Caches.empty 4) levelTwoBundle (by decide)).2 ⟨2, 1, 2⟩
      (by decide)⟩

/-- Where the behaviour of `load` is defined, that is, where its attribute block does not
apply `operator*` to an empty optional: with a cancel predicate that is always false, if
the albedo source yields no image for the key (its `getHighestAvailableLevel` returns
none, or its `createImage` returns null), then `load` returns a bundle whose albedo image
is the default albedo image, a 256 x 256 `GL_RGB` image of `3 * 256 * 256` bytes that are
all zero. -/
theorem load_default_albedo_of_no_albedo (L : PlanetTileImagesLoader W F)
    (key : QuadTreeTileKey) (c : W → Bool × W) (world : W) (caches : Caches)
    (hcancel : ∀ w, (c w).1 = false)
    (hdefined : (L.load key c (Run.start world caches)).1 ≠ Outcome.undefinedBehaviour)
    (hno : Event.getHighestAvailableLevel .albedoLayer key none ∈
        (L.load key c (Run.start world caches)).2.trace ∨
      ∃ k, Event.createImage .albedoLayer k none ∈
        (L.load key c (Run.start world caches)).2.trace) :
    ∃ images, (L.load key c (Run.start world caches)).1 = Outcome.returned (some images) ∧
      images.albedoMapImage.image = some ImageRef.defaultAlbedoImage ∧
      (L.deref ImageRef.defaultAlbedoImage).s = 256 ∧
      (L.deref ImageRef.defaultAlbedoImage).t = 256 ∧
      (L.deref ImageRef.defaultAlbedoImage).pixelFormat = GL_RGB ∧
      (L.deref ImageRef.defaultAlbedoImage).data.length = 3 * 256 * 256 ∧
      ∀ b ∈ (L.deref ImageRef.defaultAlbedoImage).data, b = 0 := by
  rw [load_of_entry_passed L key c world caches (hcancel world)] at hdefined hno ⊢
  obtain ⟨qe, reste, img, nm, ke, evm, lm, qa, resta, aimg, ka, hE, hM, hA, hcase⟩ :=
    loadLayers_spec L key c ⟨(c world).2, caches, [Event.cancelSupplier false]⟩
  rcases hcase with ⟨src, -, hub, -⟩ | ⟨evt, att, c1, hT, ⟨w, hc1⟩, hout, htr⟩
  · exact absurd hub hdefined
  · rw [hc1, hcancel w] at hout
    rw [htr] at hno
    have hd : aimg = ImageRef.defaultAlbedoImage := by
      apply defaultAlbedo_of_no_albedo hA
      rcases hno with h | ⟨k, h⟩
      · exact Or.inl ((mem_run_layer hE hM hA hT _ h).2.2.1 rfl)
      · exact Or.inr ⟨k, (mem_run_layer hE hM hA hT _ h).2.2.1 rfl⟩
    refine ⟨_, hout, ?_, rfl, rfl, rfl, ?_, ?_⟩
    · simp only [hd]
    · exact List.length_replicate _ _
    · intro b hb
      exact List.eq_of_mem_replicate hb

theorem load_default_albedo_of_no_albedo_witness :
    ∃ images, ((sampleLoader westernSource emptySource none none).load ⟨5, 0, 0⟩
        neverCancel (Run.start 0 (Caches.empty 4))).1 = Outcome.returned (some images) ∧
      images.albedoMapImage.image = some ImageRef.defaultAlbedoImage :=
  let ⟨images, h1, h2, _⟩ :=
    load_default_albedo_of_no_albedo (sampleLoader westernSource emptySource none none)
      ⟨5, 0, 0⟩ neverCancel 0 (Caches.empty 4) (fun _ => rfl) (by decide)
      (Or.inl (by decide))
  ⟨images, h1, h2⟩

/-- C8, the code at the failing input: the albedo source has no data for the key, so
that its `getHighestAvailableLevel` returns none, and the cancel supplier never returns
true; an attribute source is configured that has no data for the key either. `load` does
not return a bundle with the default albedo image: after the albedo block it applies
`operator*` to the empty optional of the attribute key, and its behaviour is
undefined. -/
theorem load_no_albedo_undefined_by_attribute_key :
    Event.getHighestAvailableLevel .albedoLayer ⟨5, 0, 0⟩ none ∈
      ((sampleLoader westernSource emptySource (some emptySource) none).load ⟨5, 0, 0⟩
        neverCancel (Run.start 0 (Caches.empty 4))).2.trace ∧
    Event.cancelSupplier true ∉
      ((sampleLoader westernSource emptySource (some emptySource) none).load ⟨5, 0, 0⟩
        neverCancel (Run.start 0 (Caches.empty 4))).2.trace ∧
    ((sampleLoader westernSource emptySource (some emptySource) none).load ⟨5, 0, 0⟩
      neverCancel (Run.start 0 (Caches.empty 4))).1 = Outcome.undefinedBehaviour := by
  decide

/-- The behaviour of `load` is undefined exactly when it passed the entry check and the
configured attribute source resolved no key for the requested tile. -/
theorem load_undefinedBehaviour_iff (L : PlanetTileImagesLoader W F)
    (key : QuadTreeTileKey) (c : W → Bool × W) (world : W) (caches : Caches) :
    (L.load key c (Run.start world caches)).1 = Outcome.undefinedBehaviour ↔
      (c world).1 = false ∧ (∃ src, L.attributeLayer = some src) ∧
        Event.getHighestAvailableLevel .attributeLayer key none ∈
          (L.load key c (Run.start world caches)).2.trace := by
  cases h0 : (c world).1 with
  | true =>
    rw [load_of_entry_cancelled L key c world caches h0]
    simp
  | false =>
    rw [load_of_entry_passed L key c world caches h0]
    obtain ⟨qe, reste, img, nm, ke, evm, lm, qa, resta, aimg, ka, hE, hM, hA, hcase⟩ :=
      loadLayers_spec L key c ⟨(c world).2, caches, [Event.cancelSupplier false]⟩
    rcases hcase with ⟨src, hl, hub, htr⟩ | ⟨evt, att, c1, hT, -, hout, htr⟩
    · rw [hub, htr]
      simp [hl]
    · rw [hout, htr]
      simp only [reduceCtorEq, true_and, false_iff, not_and]
      intro _ hmem
      have h1 := (mem_run_layer hE hM hA hT _ hmem).2.2.2 rfl
      rcases hT with ⟨-, hn, -⟩ | ⟨src', k, rest, -, h2, h3, -⟩
      · simp [hn] at h1
      · rcases h3 with h3 | ⟨res, h3, -⟩ <;> simp [h2, h3] at h1

/-- C9, the code at the failing input: an attribute source is configured and has no data
for the key, so that its `getHighestAvailableLevel` returns none; `load` applies
`operator*` to that empty optional, and its behaviour is undefined. -/
theorem load_dereferences_unresolved_attribute_key :
    ((sampleLoader westernSource westernSource (some emptySource) none).load ⟨5, 0, 0⟩
      neverCancel (Run.start 0 (Caches.empty 4))).1 = Outcome.undefinedBehaviour ∧
    ((sampleLoader westernSource westernSource (some emptySource) none).load ⟨5, 0, 0⟩
      neverCancel (Run.start 0 (Caches.empty 4))).2.trace.getLast? =
      some (Event.getHighestAvailableLevel .attributeLayer ⟨5, 0, 0⟩ none) := by
  decide

/-- C10: in a bundle returned by `load`, with a dedicated land mask source the land mask
is decided by the source and the cache alone: on a cache miss for the key of the height
image the only call to the land mask source is `createImage` for that key, and the land
mask is the image it created, or the default land mask if it created none; on a cache
hit the source is not called and the land mask is the cached image, or the default land
mask for a cached null. Without a dedicated source no land mask source is called, and on
a cache miss the land mask is the default land mask for the default height image and the
thresholding of the height image otherwise. -/
theorem load_landMask_prefers_source (L : PlanetTileImagesLoader W F)
    (key : QuadTreeTileKey) (c : W → Bool × W) (world : W) (caches : Caches)
    (images : PlanetTileImages)
    (h : (L.load key c (Run.start world caches)).1 = Outcome.returned (some images)) :
    (∀ src, L.landMaskLayer = some src →
      (caches.landMaskCache.get images.heightMapImage.key = none →
        ∃ res,
          Event.createImage .landMaskLayer images.heightMapImage.key res ∈
            (L.load key c (Run.start world caches)).2.trace ∧
          (∀ e ∈ (L.load key c (Run.start world caches)).2.trace,
            e.layer? = some Layer.landMaskLayer →
            e = Event.createImage .landMaskLayer images.heightMapImage.key res) ∧
          images.landMaskImage =
            some ((res.map ImageRef.object).getD ImageRef.defaultLandMask)) ∧
      (∀ hit, caches.landMaskCache.get images.heightMapImage.key = some hit →
        (∀ e ∈ (L.load key c (Run.start world caches)).2.trace,
          e.layer? ≠ some Layer.landMaskLayer) ∧
        images.landMaskImage = some (hit.1.getD ImageRef.defaultLandMask))) ∧
    (L.landMaskLayer = none →
      (∀ e ∈ (L.load key c (Run.start world caches)).2.trace,
        e.layer? ≠ some Layer.landMaskLayer) ∧
      (caches.landMaskCache.get images.heightMapImage.key = none →
        ∃ heightImage, images.heightMapImage.image = some heightImage ∧
          images.landMaskImage = some
            (if heightImage = ImageRef.defaultHeightImage then ImageRef.defaultLandMask
             else ImageRef.object (convertHeightmapToLandMask (L.deref heightImage))))) := by
  cases h0 : (c world).1 with
  | true =>
    rw [load_of_entry_cancelled L key c world caches h0] at h
    simp at h
  | false =>
    rw [load_of_entry_passed L key c world caches h0] at h ⊢
    obtain ⟨qe, reste, img, nm, ke, evm, lm, qa, resta, aimg, ka, hE, hM, hA, hcase⟩ :=
      loadLayers_spec L key c ⟨(c world).2, caches, [Event.cancelSupplier false]⟩
    rcases hcase with ⟨src, -, hub, -⟩ | ⟨evt, att, c1, hT, -, hout, htr⟩
    · rw [hub] at h
      simp at h
    · rw [hout] at h
      rw [htr]
      cases c1 with
      | true => simp at h
      | false =>
        simp at h
        subst h
        have hmem : ∀ e ∈ [Event.cancelSupplier false] ++
            layerCalls key qe reste evm qa resta ++ evt ++ [Event.cancelSupplier false],
            e.layer? = some Layer.landMaskLayer → e ∈ evm :=
          fun e he => (mem_run_layer hE hM hA hT e he).2.1
        refine ⟨fun src hl => ⟨fun hmiss => ?_, fun hit hhit => ?_⟩, fun hl => ⟨?_, fun hmiss => ?_⟩⟩
        · obtain ⟨res, h1, h2⟩ := (hM.2 hmiss).1 src hl
          refine ⟨res, ?_, ?_, ?_⟩
          · simp [layerCalls, h1]
          · intro e he hlay
            have := hmem e he hlay
            simpa [h1] using this
          · simp [h2]
        · obtain ⟨h1, h2⟩ := hM.1 hit hhit
          refine ⟨?_, ?_⟩
          · intro e he hlay
            have := hmem e he hlay
            simp [h1] at this
          · simp [h2]
        · intro e he hlay
          cases hget : caches.landMaskCache.get ke with
          | some hit =>
            have := hmem e he hlay
            simp [(hM.1 hit hget).1] at this
          | none =>
            have := hmem e he hlay
            simp [((hM.2 hget).2 hl).1] at this
        · obtain ⟨-, h2⟩ := (hM.2 hmiss).2 hl
          exact ⟨img, rfl, by simp [h2]⟩

theorem load_landMask_prefers_source_witness :
    ∃ res,
      Event.createImage .landMaskLayer landBundle.heightMapImage.key res ∈
        ((sampleLoader westernSource westernSource none (some landSource)).load ⟨0, 0, 0⟩
          neverCancel (Run.start 0 (Caches.empty 4))).2.trace ∧
      landBundle.landMaskImage =
        some ((res.map ImageRef.object).getD ImageRef.defaultLandMask) :=
  let ⟨res, h1, _, h3⟩ :=
    ((load_landMask_prefers_source (sampleLoader westernSource westernSource none
        (some landSource)) ⟨0, 0, 0⟩ neverCancel 0 (Caches.empty 4) landBundle
        (by decide)).1 landSource rfl).1 (by decide)
  ⟨res, h1, h3⟩

/-- Texels all at or below the threshold give an all-water mask. -/
theorem convertHeightmapToLandMask_water (src : Image)
    (hall : ∀ i, i < src.s * src.t → src.data.getD i 0 ≤ 32767) :
    (convertHeightmapToLandMask src).data = List.replicate (src.s * src.t) 0 := by
  apply List.ext_getElem?
  intro i
  by_cases hi : i < src.s * src.t
  · rw [convertHeightmapToLandMask_getElem? src i hi, List.getElem?_replicate_of_lt hi]
    rw [if_pos (hall i hi)]
  · have h1 : (convertHeightmapToLandMask src).data.length ≤ i := by
      rw [convertHeightmapToLandMask_length]; omega
    rw [List.getElem?_eq_none h1, List.getElem?_eq_none (by simpa using Nat.le_of_not_lt hi)]

/-- Texels all above the threshold give an all-land mask. -/
theorem convertHeightmapToLandMask_land (src : Image)
    (hall : ∀ i, i < src.s * src.t → 32767 < src.data.getD i 0) :
    (convertHeightmapToLandMask src).data = List.replicate (src.s * src.t) 255 := by
  apply List.ext_getElem?
  intro i
  by_cases hi : i < src.s * src.t
  · rw [convertHeightmapToLandMask_getElem? src i hi, List.getElem?_replicate_of_lt hi]
    rw [if_neg (Nat.not_le.mpr (hall i hi))]
  · have h1 : (convertHeightmapToLandMask src).data.length ≤ i := by
      rw [convertHeightmapToLandMask_length]; omega
    rw [List.getElem?_eq_none h1, List.getElem?_eq_none (by simpa using Nat.le_of_not_lt hi)]

/-- No texel of the default height image is above the threshold. -/
theorem createDefaultHeightImage_texel_le (i : Nat) :
    createDefaultHeightImage.data.getD i 0 ≤ 32767 := by
  unfold createDefaultHeightImage
  rw [List.getD_eq_getElem?_getD, List.getElem?_map]
  cases (List.range (256 * 256))[i]? with
  | none => exact Nat.zero_le _
  | some _ =>
    simp only [Option.map_some', Option.getD_some]
    decide

/-- The default land mask is all water. -/
theorem defaultLandMask_data :
    (convertHeightmapToLandMask createDefaultHeightImage).data =
      List.replicate (256 * 256) 0 :=
  convertHeightmapToLandMask_water createDefaultHeightImage
    (fun i _ => createDefaultHeightImage_texel_le i)

/-- C6, the code at the failing input: no land mask source is configured; the eastern
root tile, for which the elevation source resolves no key, is loaded first, which stores
the default land mask in the land mask cache under the unassigned key (0, 0, 0); the
western root tile (0, 0, 0) is loaded next. Its bundle holds the height image of the
source, with texels above the threshold, and as land mask the default land mask, which is
all water, and not the thresholding of that height image. -/
theorem load_landMask_stale_after_default :
    ((sampleLoader westernSource westernSource none none).load ⟨0, 0, 0⟩ neverCancel
      (Run.start afterEasternLoad.world afterEasternLoad.caches)).1 =
      Outcome.returned (some staleBundle) ∧
    staleBundle.heightMapImage.image = some (ImageRef.object sampleHeightImage) ∧
    staleBundle.landMaskImage = some ImageRef.defaultLandMask ∧
    ((sampleLoader westernSource westernSource none none).deref
      ImageRef.defaultLandMask).data = List.replicate (256 * 256) 0 ∧
    (convertHeightmapToLandMask
      ((sampleLoader westernSource westernSource none none).deref
        (ImageRef.object sampleHeightImage))).data = [0, 0, 255, 255] :=
  ⟨by decide, rfl, rfl, defaultLandMask_data, by decide⟩

/-! ## The default images -/

/-- Every element of a constant map over a range is the constant. -/
theorem mem_map_const_range (n c v : Nat)
    (h : v ∈ (List.range n).map (fun _ => c)) : v = c := by
  obtain ⟨_, -, h⟩ := List.mem_map.mp h
  exact h.symm

/-- C17: the default height image is 256 by 256 texels of `GL_LUMINANCE`,
`GL_UNSIGNED_SHORT` (internal format `GL_R16`), its buffer holds 65536 texels, and every
texel is the ocean value 32767. -/
theorem createDefaultHeightImage_spec :
    createDefaultHeightImage.s = 256 ∧ createDefaultHeightImage.t = 256 ∧
    createDefaultHeightImage.pixelFormat = GL_LUMINANCE ∧
    createDefaultHeightImage.dataType = GL_UNSIGNED_SHORT ∧
    createDefaultHeightImage.internalTextureFormat = GL_R16 ∧
    createDefaultHeightImage.data.length = 65536 ∧
    (∀ v ∈ createDefaultHeightImage.data, v = 32767) ∧
    (∀ i, i < 65536 → createDefaultHeightImage.data[i]? = some 32767) := by
  have hs : createDefaultHeightImage.s = 256 := rfl
  have ht : createDefaultHeightImage.t = 256 := rfl
  have hp : createDefaultHeightImage.pixelFormat = GL_LUMINANCE := rfl
  have hd : createDefaultHeightImage.dataType = GL_UNSIGNED_SHORT := rfl
  have hf : createDefaultHeightImage.internalTextureFormat = GL_R16 := rfl
  have hv : oceanFlagHeight.toNat % 2 ^ 16 = 32767 := by decide
  refine ⟨hs, ht, hp, hd, hf, ?_, ?_, ?_⟩
  · unfold createDefaultHeightImage
    rw [List.length_map, List.length_range]
  · intro v hmem
    unfold createDefaultHeightImage at hmem
    dsimp only at hmem
    rw [mem_map_const_range _ _ v hmem]
    exact hv
  · intro i hi
    unfold createDefaultHeightImage
    rw [List.getElem?_map, List.getElem?_range hi, Option.map_some', hv]

/-- C18, the code at the failing input: the default land mask is all water, all its
256 x 256 elements are 0; but after the western root tile (0, 0, 0) has been loaded, the
bundle of the eastern root tile (0, 1, 0), for which the elevation source resolves no key
and no land mask source is configured, holds the default height image with the land mask
cached for the tile (0, 0, 0), which has land texels. -/
theorem load_no_elevation_takes_cached_landMask :
    (convertHeightmapToLandMask createDefaultHeightImage).data =
      List.replicate (256 * 256) 0 ∧
    ((sampleLoader westernSource westernSource none none).load ⟨0, 1, 0⟩ neverCancel
      (Run.start afterWesternLoad.world afterWesternLoad.caches)).1 =
      Outcome.returned (some easternBundleAfterWestern) ∧
    easternBundleAfterWestern.heightMapImage.image = some ImageRef.defaultHeightImage ∧
    easternBundleAfterWestern.landMaskImage =
      some (ImageRef.object (convertHeightmapToLandMask sampleHeightImage)) ∧
    (convertHeightmapToLandMask sampleHeightImage).data = [0, 0, 255, 255] :=
  ⟨defaultLandMask_data, by decide, rfl, rfl, by decide⟩

/-- C11, the code at the failing input: the eastern root tile (0, 1, 0) is loaded into
empty caches; the elevation source resolves no key for it; the bundle records the key
(0, 0, 0) for the height image, and the default land mask is stored in the land mask
cache under that key, the key of the western root tile. -/
theorem load_unresolved_elevation_keys_landMask_by_unassigned_key :
    ((sampleLoader westernSource westernSource none none).load ⟨0, 1, 0⟩ neverCancel
      (Run.start 0 (Caches.empty 4))).1 = Outcome.returned (some oceanBundle) ∧
    ((sampleLoader westernSource westernSource none none).load ⟨0, 1, 0⟩ neverCancel
      (Run.start 0 (Caches.empty 4))).2.trace =
      [Event.cancelSupplier false,
       Event.getHighestAvailableLevel .elevationLayer ⟨0, 1, 0⟩ none,
       Event.getHighestAvailableLevel .albedoLayer ⟨0, 1, 0⟩ none,
       Event.cancelSupplier false] ∧
    oceanBundle.heightMapImage.key = ⟨0, 0, 0⟩ ∧
    ((sampleLoader westernSource westernSource none none).load ⟨0, 1, 0⟩ neverCancel
      (Run.start 0 (Caches.empty 4))).2.caches.landMaskCache.entries =
      [(⟨0, 0, 0⟩, some ImageRef.defaultLandMask)] ∧
    westernSource.getHighestAvailableLevel ⟨0, 0, 0⟩ 0 = (some ⟨0, 0, 0⟩, 1) := by
  decide

/-! ## The order of the calls to a tile source -/

/-- The height map block, with what it does to the elevation cache and how it derives
the normal map. -/
theorem loadHeightMap_spec_full (L : PlanetTileImagesLoader W F) (key : QuadTreeTileKey)
    (c : W → Bool × W) (r : Run W) :
    ∃ (q : Option QuadTreeTileKey) (rest : List Event) (img nm : ImageRef)
      (k : QuadTreeTileKey),
      (L.loadHeightMap key c ⟨PlanetTileImages.empty, r⟩).images =
        { PlanetTileImages.empty with
          heightMapImage := ⟨some img, k⟩, normalMapImage := some nm } ∧
      (L.loadHeightMap key c ⟨PlanetTileImages.empty, r⟩).run.trace =
        r.trace ++ Event.getHighestAvailableLevel .elevationLayer key q :: rest ∧
      Fetched .elevationLayer q rest k (DefaultHeight img nm) ∧
      (L.loadHeightMap key c ⟨PlanetTileImages.empty, r⟩).run.caches.landMaskCache =
        r.caches.landMaskCache ∧
      ElevationCacheFacts r.caches.elevationCache
        (L.loadHeightMap key c ⟨PlanetTileImages.empty, r⟩).run.caches.elevationCache
        q rest img ∧
      NormalMapFacts L img nm k := by
  unfold PlanetTileImagesLoader.loadHeightMap PlanetTileImagesLoader.fetchHeightMap
  cases hq : (callGetHighestAvailableLevel .elevationLayer L.elevationLayer key r).1 with
  | none =>
    refine ⟨none, [], .defaultHeightImage, .defaultNormalMap, QuadTreeTileKey.unassigned, ?_⟩
    simp [hq, PlanetTileImagesLoader.finishHeightMap, PlanetTileImages.empty, TileImage.empty,
      callGetHighestAvailableLevel, DefaultHeight, Fetched, ElevationCacheFacts,
      NormalMapFacts] at *
    exact hq
  | some k =>
    simp only []
    have hc0 : (callGetHighestAvailableLevel .elevationLayer L.elevationLayer key r).2.caches =
        r.caches := rfl
    cases hget : ((callGetHighestAvailableLevel .elevationLayer L.elevationLayer key r).2.caches.at
        .Elevation).get k with
    | some hit =>
      rw [getOrCreateImage_hit _ _ _ _ hit hget]
      have hget' : r.caches.elevationCache.get k = some hit := hget
      cases hi : hit.1 with
      | none =>
        refine ⟨some k, [], .defaultHeightImage, .defaultNormalMap, k, ?_⟩
        simp [hi, PlanetTileImagesLoader.finishHeightMap, PlanetTileImages.empty,
          TileImage.empty, callGetHighestAvailableLevel, Caches.set, Fetched,
          ElevationCacheFacts, NormalMapFacts, DefaultHeight, hget']
        refine ⟨hq, ?_⟩
        intro k1 a b hk hg
        subst hk
        rw [hget'] at hg
        cases hg
        simp at hi
        simp [hi]
      | some img =>
        refine ⟨some k, [], img, ImageRef.object (L.createNormalmapFromHeightmap (L.deref img)
          (L.texelWorldSize k (L.deref img))), k, ?_⟩
        simp [hi, PlanetTileImagesLoader.finishHeightMap, PlanetTileImages.empty,
          TileImage.empty, callGetHighestAvailableLevel, Caches.set, Fetched,
          ElevationCacheFacts, NormalMapFacts, hget']
        refine ⟨hq, ?_⟩
        intro k1 a b hk hg
        subst hk
        rw [hget'] at hg
        cases hg
        simp at hi
        simp [hi]
    | none =>
      rw [getOrCreateImage_miss _ _ _ _ hget]
      have hget' : r.caches.elevationCache.get k = none := hget
      cases hc : (L.elevationLayer.createImage k c
          (callGetHighestAvailableLevel .elevationLayer L.elevationLayer key r).2.world).1 with
      | none =>
        refine ⟨some k, [Event.createImage .elevationLayer k none], .defaultHeightImage,
          .defaultNormalMap, k, ?_⟩
        simp [hc, PlanetTileImagesLoader.finishHeightMap, PlanetTileImages.empty,
          TileImage.empty, callGetHighestAvailableLevel, callCreateImage, Caches.set,
          PlanetTileImagesLoader.elevationImageCreator, DefaultHeight, Fetched,
          ElevationCacheFacts, NormalMapFacts, hget', Caches.at] at hq hc ⊢
        refine ⟨hq, ?_⟩
        intro k1 a b hk hg
        subst hk
        rw [hget'] at hg
        cases hg
      | some image =>
        refine ⟨some k, [Event.createImage .elevationLayer k (some image)],
          .object (image.setInternalTextureFormat GL_R16),
          ImageRef.object (L.createNormalmapFromHeightmap
            (L.deref (.object (image.setInternalTextureFormat GL_R16)))
            (L.texelWorldSize k (L.deref (.object (image.setInternalTextureFormat GL_R16))))),
          k, ?_⟩
        simp [hc, PlanetTileImagesLoader.finishHeightMap, PlanetTileImages.empty,
          TileImage.empty, callGetHighestAvailableLevel, callCreateImage, Caches.set,
          PlanetTileImagesLoader.elevationImageCreator, DefaultHeight, Fetched,
          ElevationCacheFacts, NormalMapFacts, hget', Caches.at] at hq hc ⊢
        refine ⟨hq, ?_⟩
        intro k1 a b hk hg
        subst hk
        rw [hget'] at hg
        cases hg

/-- A lookup in another cache than the elevation cache, with a factory that leaves the
caches alone, leaves the elevation cache as it is. -/
theorem getOrCreateImage_elevationCache (key : QuadTreeTileKey) (i : CacheIndex)
    (f : QuadTreeTileKey → Run W → Option ImageRef × Run W) (r : Run W)
    (hi : i ≠ CacheIndex.Elevation) (hf : (f key r).2.caches = r.caches) :
    (getOrCreateImage key i f r).2.caches.elevationCache = r.caches.elevationCache := by
  unfold getOrCreateImage
  cases hget : (r.caches.at i).get key with
  | some hit => cases i <;> simp_all [Caches.set]
  | none => cases i <;> simp_all [Caches.set]

/-- The land mask block leaves the elevation cache as it is. -/
theorem loadLandMask_elevationCache (L : PlanetTileImagesLoader W F) (c : W → Bool × W)
    (st m : Loading W) (h : L.loadLandMask c st = some m) :
    m.run.caches.elevationCache = st.run.caches.elevationCache := by
  unfold PlanetTileImagesLoader.loadLandMask at h
  cases hh : st.images.heightMapImage.image with
  | none => simp [hh] at h
  | some heightImage =>
    simp only [hh, Option.some.injEq] at h
    rw [← h]
    apply getOrCreateImage_elevationCache _ _ _ _ (by decide)
    unfold PlanetTileImagesLoader.landMaskImageCreator
    cases L.landMaskLayer with
    | none => by_cases hd : heightImage = ImageRef.defaultHeightImage <;> simp [hd]
    | some src => rfl

/-- The albedo block leaves the elevation cache as it is. -/
theorem loadAlbedoMap_elevationCache (L : PlanetTileImagesLoader W F)
    (key : QuadTreeTileKey) (c : W → Bool × W) (st : Loading W) :
    (L.loadAlbedoMap key c st).run.caches.elevationCache = st.run.caches.elevationCache := by
  have hrun : ∀ s : Loading W,
      (PlanetTileImagesLoader.finishAlbedoMap s).run = s.run := by
    intro s
    unfold PlanetTileImagesLoader.finishAlbedoMap
    cases s.images.albedoMapImage.image <;> rfl
  unfold PlanetTileImagesLoader.loadAlbedoMap
  rw [hrun]
  unfold PlanetTileImagesLoader.fetchAlbedoMap
  cases hq : (callGetHighestAvailableLevel .albedoLayer L.albedoLayer key st.run).1 with
  | none => rfl
  | some k =>
    simp only []
    rw [getOrCreateImage_elevationCache _ _ _ _ (by decide) rfl]
    rfl

/-- The attribute block leaves the elevation cache as it is. -/
theorem loadAttributeMap_elevationCache (L : PlanetTileImagesLoader W F)
    (key : QuadTreeTileKey) (c : W → Bool × W) (st : Loading W) :
    (∀ st', L.loadAttributeMap key c st = .completed st' →
      st'.run.caches.elevationCache = st.run.caches.elevationCache) ∧
    (∀ run, L.loadAttributeMap key c st = .emptyOptionalDereferenced run →
      run.caches.elevationCache = st.run.caches.elevationCache) := by
  unfold PlanetTileImagesLoader.loadAttributeMap
  cases hl : L.attributeLayer with
  | none =>
    constructor
    · intro st' h
      cases h
      rfl
    · intro run h
      cases h
  | some src =>
    simp only []
    cases hq : (callGetHighestAvailableLevel .attributeLayer src key st.run).1 with
    | none =>
      constructor
      · intro st' h
        cases h
      · intro run h
        cases h
        rfl
    | some k =>
      constructor
      · intro st' h
        simp only [AttributeStep.completed.injEq] at h
        rw [← h]
        simp only []
        rw [getOrCreateImage_elevationCache _ _ _ _ (by decide) rfl]
        rfl
      · intro run h
        cases h

/-- The last statements of `load` leave the caches as they are. -/
theorem finishLoad_caches (c : W → Bool × W) (st : Loading W) :
    (finishLoad c st).2.caches = st.run.caches := by
  unfold finishLoad
  split <;> rfl

/-- The four blocks in sequence, with the elevation cache, the normal map, the shape of
the trace and the members of a returned bundle. -/
theorem loadLayers_spec_full (L : PlanetTileImagesLoader W F) (key : QuadTreeTileKey)
    (c : W → Bool × W) (r : Run W) :
    ∃ (qe : Option QuadTreeTileKey) (reste : List Event) (img nm : ImageRef)
      (ke : QuadTreeTileKey) (evm : List Event) (lm : ImageRef)
      (qa : Option QuadTreeTileKey) (resta : List Event) (aimg : ImageRef)
      (ka : QuadTreeTileKey) (tail : List Event),
      Fetched .elevationLayer qe reste ke (DefaultHeight img nm) ∧
      LandMaskFacts L r.caches.landMaskCache img ke evm lm ∧
      Fetched .albedoLayer qa resta ka (aimg = ImageRef.defaultAlbedoImage) ∧
      ElevationCacheFacts r.caches.elevationCache
        (L.loadLayers key c r).2.caches.elevationCache qe reste img ∧
      NormalMapFacts L img nm ke ∧
      (L.loadLayers key c r).2.trace =
        r.trace ++ layerCalls key qe reste evm qa resta ++ tail ∧
      (∀ e ∈ tail, e.layer? = none ∨ e.layer? = some Layer.attributeLayer) ∧
      (∀ images, (L.loadLayers key c r).1 = Outcome.returned (some images) →
        images.heightMapImage = ⟨some img, ke⟩ ∧ images.normalMapImage = some nm ∧
        images.landMaskImage = some lm ∧ images.albedoMapImage = ⟨some aimg, ka⟩) := by
  obtain ⟨qe, reste, img, nm, ke, hHi, hHt, hHf, hHc, hHe, hHn⟩ :=
    loadHeightMap_spec_full L key c r
  obtain ⟨m, evm, lm, hM, hMi, hMt, hMf⟩ := loadLandMask_spec L c
    (L.loadHeightMap key c ⟨PlanetTileImages.empty, r⟩) img (by rw [hHi])
  obtain ⟨qa, resta, aimg, ka, hAi, hAt, hAf⟩ := loadAlbedoMap_spec L key c m
    (by rw [hMi, hHi]; rfl)
  have hMe := loadLandMask_elevationCache L c _ m hM
  have hAe := loadAlbedoMap_elevationCache L key c m
  have hTe := loadAttributeMap_elevationCache L key c (L.loadAlbedoMap key c m)
  rw [hHc, hHi] at hMf
  rcases loadAttributeMap_spec L key c (L.loadAlbedoMap key c m)
      (by rw [hAi, hMi, hHi]; rfl) with
    ⟨src, run, hl, hT, hTt⟩ | ⟨st', evt, att, hT, hTi, hTt, hTf⟩
  · refine ⟨qe, reste, img, nm, ke, evm, lm, qa, resta, aimg, ka,
      [Event.getHighestAvailableLevel .attributeLayer key none],
      hHf, hMf, hAf, ?_, hHn, ?_, ?_, ?_⟩
    · have : (L.loadLayers key c r).2.caches.elevationCache =
          (L.loadHeightMap key c ⟨PlanetTileImages.empty, r⟩).run.caches.elevationCache := by
        unfold PlanetTileImagesLoader.loadLayers
        simp only [hM, hT]
        rw [hTe.2 run hT, hAe, hMe]
      rw [this]
      exact hHe
    · unfold PlanetTileImagesLoader.loadLayers
      simp only [hM, hT, hTt, hAt, hMt, hHt, layerCalls, List.append_assoc]
    · intro e he
      simp only [List.mem_singleton] at he
      simp [he, Event.layer?]
    · intro images h
      unfold PlanetTileImagesLoader.loadLayers at h
      simp [hM, hT] at h
  · refine ⟨qe, reste, img, nm, ke, evm, lm, qa, resta, aimg, ka,
      evt ++ [Event.cancelSupplier (callCancelSupplier c st'.run).1],
      hHf, hMf, hAf, ?_, hHn, ?_, ?_, ?_⟩
    · have : (L.loadLayers key c r).2.caches.elevationCache =
          (L.loadHeightMap key c ⟨PlanetTileImages.empty, r⟩).run.caches.elevationCache := by
        unfold PlanetTileImagesLoader.loadLayers
        simp only [hM, hT]
        rw [finishLoad_caches, hTe.1 st' hT, hAe, hMe]
      rw [this]
      exact hHe
    · unfold PlanetTileImagesLoader.loadLayers
      simp only [hM, hT, finishLoad]
      split <;>
        simp [callCancelSupplier, hTt, hAt, hMt, hHt, layerCalls, List.append_assoc]
    · intro e he
      simp only [List.mem_append, List.mem_singleton] at he
      rcases he with he | he
      · exact Or.inr (attributeFacts_layer_of_mem hTf e he)
      · simp [he, Event.layer?]
    · intro images h
      unfold PlanetTileImagesLoader.loadLayers at h
      simp only [hM, hT, finishLoad] at h
      split at h
      · simp at h
      · simp only [Outcome.returned.injEq, Option.some.injEq] at h
        rw [← h, hTi, hAi, hMi, hHi]
        simp

/-- A call to the elevation source in a run that passed the entry check is a call of the
height map block. -/
theorem mem_elevation_of_mem_trace {L : PlanetTileImagesLoader W F} {cache : LruCache}
    {key ke ka : QuadTreeTileKey} {qe qa : Option QuadTreeTileKey}
    {reste evm resta tail : List Event} {img lm : ImageRef} {Q : Prop} {c0 : Bool}
    (hM : LandMaskFacts L cache img ke evm lm)
    (hA : Fetched .albedoLayer qa resta ka Q)
    (htail : ∀ e ∈ tail, e.layer? = none ∨ e.layer? = some Layer.attributeLayer)
    (e : Event)
    (he : e ∈ [Event.cancelSupplier c0] ++ layerCalls key qe reste evm qa resta ++ tail)
    (hl : e.layer? = some Layer.elevationLayer) :
    e ∈ Event.getHighestAvailableLevel .elevationLayer key qe :: reste := by
  simp only [layerCalls, List.mem_append, List.mem_cons, List.mem_singleton,
    List.not_mem_nil, or_false] at he
  rcases he with (he | ((he | he) | he) | he | he) | he
  · simp [he, Event.layer?] at hl
  · simp [he]
  · simp [he]
  · have := landMaskFacts_layer_of_mem hM e he
    simp [this] at hl
  · simp [he, Event.layer?] at hl
  · have := fetched_layer_of_mem hA e he
    simp [this] at hl
  · rcases htail e he with h1 | h1 <;> simp [h1] at hl

/-- Storing a result in a cache of positive capacity makes the next lookup of the key a
hit that returns the stored result. -/
theorem LruCache.get_put_self (c : LruCache) (k : QuadTreeTileKey) (v : Option ImageRef)
    (h : 0 < c.capacity) : ∃ c', (c.put k v).get k = some (v, c') := by
  obtain ⟨n, hn⟩ : ∃ n, c.capacity = n + 1 := ⟨c.capacity - 1, by omega⟩
  simp [LruCache.get, LruCache.put, hn, List.take_succ_cons]

/-- After a hit, the next lookup of the key is a hit that returns the same result. -/
theorem LruCache.get_get (c : LruCache) (k : QuadTreeTileKey)
    (hit : Option ImageRef × LruCache) (h : c.get k = some hit) :
    ∃ c', hit.2.get k = some (hit.1, c') := by
  unfold LruCache.get at h
  cases hf : c.entries.find? (fun e => e.1 = k) with
  | none => simp [hf] at h
  | some e =>
    simp only [hf, Option.some.injEq] at h
    have hk : e.1 = k := by simpa using List.find?_some hf
    rw [← h]
    simp [LruCache.get, hk]

/-- Storing a result keeps the capacity. -/
theorem LruCache.capacity_put (c : LruCache) (k : QuadTreeTileKey) (v : Option ImageRef) :
    (c.put k v).capacity = c.capacity := rfl

/-- The entries after a store are the stored one or entries from before. -/
theorem LruCache.mem_put (c : LruCache) (k : QuadTreeTileKey) (v : Option ImageRef)
    (e : QuadTreeTileKey × Option ImageRef) (h : e ∈ (c.put k v).entries) :
    e = (k, v) ∨ e ∈ c.entries := by
  unfold LruCache.put at h
  have h1 := List.mem_of_mem_take h
  simp only [List.mem_cons, List.mem_filter] at h1
  rcases h1 with h1 | h1
  · exact Or.inl h1
  · exact Or.inr h1.1

/-- The entries after a hit are entries from before. -/
theorem LruCache.mem_get (c : LruCache) (k : QuadTreeTileKey)
    (hit : Option ImageRef × LruCache) (h : c.get k = some hit)
    (e : QuadTreeTileKey × Option ImageRef) (he : e ∈ hit.2.entries) :
    e ∈ c.entries ∧ ((k, hit.1) ∈ c.entries) := by
  unfold LruCache.get at h
  cases hf : c.entries.find? (fun e => e.1 = k) with
  | none => simp [hf] at h
  | some e0 =>
    simp only [hf, Option.some.injEq] at h
    have hk : e0.1 = k := by simpa using List.find?_some hf
    have hm : e0 ∈ c.entries := List.mem_of_find?_eq_some hf
    rw [← h] at he ⊢
    simp only [List.mem_cons, List.mem_filter] at he
    refine ⟨?_, ?_⟩
    · rcases he with he | he
      · rw [he]; exact hm
      · exact he.1
    · have : (k, e0.2) = e0 := by rw [← hk]
      rw [this]
      exact hm

/-! ## The texel size of the normal map -/

/-- C13: in a bundle returned by `load`, a height image that is not the default height
image has as normal map the normal map derived from it with the texel world size
`(B.size().x * planetRadius * cos(B.center().y) / w, B.size().y * planetRadius / h)`,
where `w` and `h` are the width and height of the height image and `B` is the bounds of
the key recorded for the height image, which is the key the elevation source resolved and
not the requested key; and when the elevation source yielded no image the height image is
the default one and the normal map is the default normal map. -/
theorem load_normalMap_texelWorldSize (L : PlanetTileImagesLoader W F)
    (key : QuadTreeTileKey) (c : W → Bool × W) (world : W) (caches : Caches)
    (images : PlanetTileImages)
    (h : (L.load key c (Run.start world caches)).1 = Outcome.returned (some images)) :
    ∃ heightImage, images.heightMapImage.image = some heightImage ∧
      (heightImage ≠ ImageRef.defaultHeightImage →
        images.normalMapImage = some (ImageRef.object
          (L.createNormalmapFromHeightmap (L.deref heightImage)
            (specTexelWorldSize L (L.getKeyLonLatBounds images.heightMapImage.key)
              (L.deref heightImage).s (L.deref heightImage).t)))) ∧
      (∀ k, Event.getHighestAvailableLevel .elevationLayer key (some k) ∈
          (L.load key c (Run.start world caches)).2.trace →
        images.heightMapImage.key = k) ∧
      ((Event.getHighestAvailableLevel .elevationLayer key none ∈
          (L.load key c (Run.start world caches)).2.trace ∨
        ∃ k, Event.createImage .elevationLayer k none ∈
          (L.load key c (Run.start world caches)).2.trace) →
        heightImage = ImageRef.defaultHeightImage ∧
        images.normalMapImage = some ImageRef.defaultNormalMap) := by
  cases h0 : (c world).1 with
  | true =>
    rw [load_of_entry_cancelled L key c world caches h0] at h
    simp at h
  | false =>
    rw [load_of_entry_passed L key c world caches h0] at h ⊢
    obtain ⟨qe, reste, img, nm, ke, evm, lm, qa, resta, aimg, ka, tail, hE, hM, hA, -, hN,
      htr, htail, himg⟩ :=
      loadLayers_spec_full L key c ⟨(c world).2, caches, [Event.cancelSupplier false]⟩
    obtain ⟨h1, h2, -, -⟩ := himg images h
    rw [htr]
    refine ⟨img, by rw [h1], ?_, ?_, ?_⟩
    · intro hne
      rcases hN with hd | hn
      · exact absurd hd.1 hne
      · rw [h2, hn, h1]
        rfl
    · intro k hk
      rw [h1]
      exact resolved_key_of_fetched hE
        (mem_elevation_of_mem_trace hM hA htail _ hk rfl)
    · intro hno
      have hd : DefaultHeight img nm := by
        apply defaultHeight_of_no_elevation hE
        rcases hno with hk | ⟨k, hk⟩
        · exact Or.inl (mem_elevation_of_mem_trace hM hA htail _ hk rfl)
        · exact Or.inr ⟨k, mem_elevation_of_mem_trace hM hA htail _ hk rfl⟩
      exact ⟨hd.1, by rw [h2, hd.2]⟩

theorem load_normalMap_texelWorldSize_witness :
    ∃ heightImage, levelTwoBundle.heightMapImage.image = some heightImage ∧
      (heightImage ≠ ImageRef.defaultHeightImage →
        levelTwoBundle.normalMapImage = some (ImageRef.object
          ((sampleLoader levelTwoSource levelTwoSource none none).createNormalmapFromHeightmap
            ((sampleLoader levelTwoSource levelTwoSource none none).deref heightImage)
            (specTexelWorldSize (sampleLoader levelTwoSource levelTwoSource none none)
              ((sampleLoader levelTwoSource levelTwoSource none none).getKeyLonLatBounds
                levelTwoBundle.heightMapImage.key)
              ((sampleLoader levelTwoSource levelTwoSource none none).deref heightImage).s
              ((sampleLoader levelTwoSource levelTwoSource none none).deref
                heightImage).t)))) :=
  let ⟨heightImage, h1, h2, _⟩ :=
    load_normalMap_texelWorldSize (sampleLoader levelTwoSource levelTwoSource none none)
      ⟨5, 9, 17⟩ neverCancel 0 (Caches.empty 4) levelTwoBundle (by decide)
  ⟨heightImage, h1, h2⟩

/-! ## Repeated lookups -/

/-- The cache at an index after that cache was replaced. -/
theorem Caches.at_set (cs : Caches) (i : CacheIndex) (c : LruCache) :
    (cs.set i c).at i = c := by
  cases i <;> rfl

/-- Two lookups of one key in a row: the second returns what the first returned, and
calls nothing. -/
theorem getOrCreateImage_twice (key : QuadTreeTileKey) (i : CacheIndex)
    (f g : QuadTreeTileKey → Run W → Option ImageRef × Run W) (r : Run W)
    (hcap : 0 < (r.caches.at i).capacity)
    (hf : (f key r).2.caches = r.caches) :
    (getOrCreateImage key i g (getOrCreateImage key i f r).2).1 =
      (getOrCreateImage key i f r).1 ∧
    (getOrCreateImage key i g (getOrCreateImage key i f r).2).2.world =
      (getOrCreateImage key i f r).2.world ∧
    (getOrCreateImage key i g (getOrCreateImage key i f r).2).2.trace =
      (getOrCreateImage key i f r).2.trace := by
  cases hget : (r.caches.at i).get key with
  | some hit =>
    rw [getOrCreateImage_hit _ _ _ _ hit hget]
    obtain ⟨c', hc'⟩ := LruCache.get_get _ _ hit hget
    have h2 : ((({ r with caches := r.caches.set i hit.2 } : Run W)).caches.at i).get key =
        some (hit.1, c') := by
      simp only [Caches.at_set]
      exact hc'
    rw [getOrCreateImage_hit _ _ _ _ _ h2]
    exact ⟨rfl, rfl, rfl⟩
  | none =>
    rw [getOrCreateImage_miss _ _ _ _ hget]
    have hcap' : 0 < ((f key r).2.caches.at i).capacity := by rw [hf]; exact hcap
    obtain ⟨c', hc'⟩ := LruCache.get_put_self ((f key r).2.caches.at i) key (f key r).1 hcap'
    have h2 : ((({ (f key r).2 with
        caches := (f key r).2.caches.set i
          (((f key r).2.caches.at i).put key (f key r).1) } : Run W)).caches.at i).get key =
        some ((f key r).1, c') := by
      simp only [Caches.at_set]
      exact hc'
    rw [getOrCreateImage_hit _ _ _ _ _ h2]
    exact ⟨rfl, rfl, rfl⟩

/-- After a run in which the elevation source resolved the key `k`, a lookup of `k` in
the elevation cache is a hit, if the cache has room for an entry. -/
theorem elevationCache_hit_after {cache cache' : LruCache} {rest : List Event}
    {img : ImageRef} {k : QuadTreeTileKey}
    (hC : ElevationCacheFacts cache cache' (some k) rest img) (hcap : 0 < cache.capacity) :
    ∃ hit, cache'.get k = some hit := by
  cases hget : cache.get k with
  | some hit =>
    obtain ⟨h1, -, -⟩ := hC.2.1 k hit rfl hget
    obtain ⟨c', hc'⟩ := LruCache.get_get _ _ hit hget
    exact ⟨_, by rw [h1]; exact hc'⟩
  | none =>
    obtain ⟨res, -, h1, -⟩ := hC.2.2 k rfl hget
    obtain ⟨c', hc'⟩ := LruCache.get_put_self cache k
      (res.map fun image => ImageRef.object (image.setInternalTextureFormat GL_R16)) hcap
    exact ⟨_, by rw [h1]; exact hc'⟩

/-- The number of `createImage` calls on the elevation source for `k` in a run that passed
the entry check is the number among the calls after the elevation query. -/
theorem countP_elevationCreate {L : PlanetTileImagesLoader W F} {cache : LruCache}
    {key ke ka k : QuadTreeTileKey} {qe qa : Option QuadTreeTileKey}
    {reste evm resta tail : List Event} {img lm : ImageRef} {Q : Prop} {c0 : Bool}
    (hM : LandMaskFacts L cache img ke evm lm)
    (hA : Fetched .albedoLayer qa resta ka Q)
    (htail : ∀ e ∈ tail, e.layer? = none ∨ e.layer? = some Layer.attributeLayer) :
    ([Event.cancelSupplier c0] ++ layerCalls key qe reste evm qa resta ++ tail).countP
      (Event.isElevationCreate k) = reste.countP (Event.isElevationCreate k) := by
  have hz : ∀ l : List Event, (∀ e ∈ l, e.layer? ≠ some Layer.elevationLayer) →
      l.countP (Event.isElevationCreate k) = 0 := by
    intro l hl
    rw [List.countP_eq_zero]
    intro e he hp
    have := hl e he
    cases e with
    | cancelSupplier b => simp [Event.isElevationCreate] at hp
    | getHighestAvailableLevel layer k' q => simp [Event.isElevationCreate] at hp
    | createImage layer k' res =>
      cases layer <;> simp [Event.isElevationCreate, Event.layer?] at hp this
  have h1 := hz evm (fun e he => by simp [landMaskFacts_layer_of_mem hM e he])
  have h2 := hz resta (fun e he => by simp [fetched_layer_of_mem hA e he])
  have h3 := hz tail (fun e he => by rcases htail e he with h | h <;> simp [h])
  simp [layerCalls, List.countP_append, List.countP_cons, h1, h2, h3,
    Event.isElevationCreate]

/-- The key that the query of a block returned, read off the calls of the block. -/
theorem query_result_of_mem {layer : Layer} {key k ke : QuadTreeTileKey}
    {q : Option QuadTreeTileKey} {rest : List Event} {P : Prop}
    (hE : Fetched layer q rest ke P)
    (h : Event.getHighestAvailableLevel layer key (some k) ∈
      Event.getHighestAvailableLevel layer key q :: rest) : q = some k := by
  rcases hE with ⟨h1, -, -⟩
  rcases h1 with h0 | ⟨k', res, -, h0, -⟩
  · simp [h0] at h
    exact h.symm
  · simp [h0] at h
    exact h.symm

/-- C16: two lookups of one key in a row in a cache that has room for an entry, the first
with a factory that leaves the caches alone: the second returns the image the first
returned and invokes no factory (it changes neither the world nor the trace). And for two
successive calls of `load`, the first of which returned, whose elevation keys resolve to
the same key `k`, with an elevation cache that has room for an entry: the second call
does not call `createImage` on the elevation source for `k`, and the two calls together
call it at most once. -/
theorem cache_repeats_and_load_creates_once (L : PlanetTileImagesLoader W F)
    (key1 key2 k : QuadTreeTileKey) (c1 c2 : W → Bool × W) (world : W) (caches : Caches)
    (i : CacheIndex) (f g : QuadTreeTileKey → Run W → Option ImageRef × Run W)
    (r : Run W) :
    (0 < (r.caches.at i).capacity → (f k r).2.caches = r.caches →
      (getOrCreateImage k i g (getOrCreateImage k i f r).2).1 =
        (getOrCreateImage k i f r).1 ∧
      (getOrCreateImage k i g (getOrCreateImage k i f r).2).2.world =
        (getOrCreateImage k i f r).2.world ∧
      (getOrCreateImage k i g (getOrCreateImage k i f r).2).2.trace =
        (getOrCreateImage k i f r).2.trace) ∧
    (0 < caches.elevationCache.capacity →
      (L.load key1 c1 (Run.start world caches)).1 ≠ Outcome.undefinedBehaviour →
      Event.getHighestAvailableLevel .elevationLayer key1 (some k) ∈
        (L.load key1 c1 (Run.start world caches)).2.trace →
      Event.getHighestAvailableLevel .elevationLayer key2 (some k) ∈
        (L.load key2 c2 (Run.start (L.load key1 c1 (Run.start world caches)).2.world
          (L.load key1 c1 (Run.start world caches)).2.caches)).2.trace →
      (∀ res, Event.createImage .elevationLayer k res ∉
        (L.load key2 c2 (Run.start (L.load key1 c1 (Run.start world caches)).2.world
          (L.load key1 c1 (Run.start world caches)).2.caches)).2.trace) ∧
      ((L.load key1 c1 (Run.start world caches)).2.trace ++
        (L.load key2 c2 (Run.start (L.load key1 c1 (Run.start world caches)).2.world
          (L.load key1 c1 (Run.start world caches)).2.caches)).2.trace).countP
        (Event.isElevationCreate k) ≤ 1) := by
  refine ⟨fun hcap hf => getOrCreateImage_twice k i f g r hcap hf, ?_⟩
  intro hcap _ hq1 hq2
  -- the first call
  cases h1 : (c1 world).1 with
  | true =>
    rw [load_of_entry_cancelled L key1 c1 world caches h1] at hq1
    simp at hq1
  | false =>
    rw [load_of_entry_passed L key1 c1 world caches h1] at hq1 hq2 ⊢
    obtain ⟨qe, reste, img, nm, ke, evm, lm, qa, resta, aimg, ka, tail, hE, hM, hA, hC, -,
      htr, htail, -⟩ :=
      loadLayers_spec_full L key1 c1 ⟨(c1 world).2, caches, [Event.cancelSupplier false]⟩
    rw [htr] at hq1 ⊢
    have hqe : qe = some k :=
      query_result_of_mem hE (mem_elevation_of_mem_trace hM hA htail _ hq1 rfl)
    subst hqe
    obtain ⟨hit, hhit⟩ := elevationCache_hit_after hC hcap
    have hcount1 : ([Event.cancelSupplier false] ++ layerCalls key1 (some k) reste evm qa resta ++
        tail).countP (Event.isElevationCreate k) ≤ 1 := by
      rw [countP_elevationCreate hM hA htail]
      rcases hE.1 with h0 | ⟨k', res, -, h0, -⟩
      · simp [h0]
      · rw [h0]
        exact le_trans (List.countP_le_length _) (by simp)
    -- the second call
    generalize hw : (L.loadLayers key1 c1
      ⟨(c1 world).2, caches, [Event.cancelSupplier false]⟩).2.world = world2 at hq2 ⊢
    generalize hcs : (L.loadLayers key1 c1
      ⟨(c1 world).2, caches, [Event.cancelSupplier false]⟩).2.caches = caches2
      at hq2 hhit hC ⊢
    cases h2 : (c2 world2).1 with
    | true =>
      rw [load_of_entry_cancelled L key2 c2 world2 caches2 h2] at hq2
      simp at hq2
    | false =>
      rw [load_of_entry_passed L key2 c2 world2 caches2 h2] at hq2 ⊢
      obtain ⟨qe2, reste2, img2, nm2, ke2, evm2, lm2, qa2, resta2, aimg2, ka2, tail2, hE2,
        hM2, hA2, hC2, -, htr2, htail2, -⟩ :=
        loadLayers_spec_full L key2 c2 ⟨(c2 world2).2, caches2, [Event.cancelSupplier false]⟩
      rw [htr2] at hq2 ⊢
      have hqe2 : qe2 = some k :=
        query_result_of_mem hE2 (mem_elevation_of_mem_trace hM2 hA2 htail2 _ hq2 rfl)
      subst hqe2
      obtain ⟨-, hrest2, -⟩ := hC2.2.1 k hit rfl hhit
      subst hrest2
      constructor
      · intro res hm
        have := mem_elevation_of_mem_trace hM2 hA2 htail2 _ hm rfl
        simp at this
      · rw [List.countP_append, countP_elevationCreate hM2 hA2 htail2]
        simpa using hcount1

theorem cache_repeats_and_load_creates_once_witness :
    (((sampleLoader westernSource westernSource none none).load ⟨5, 0, 0⟩ neverCancel
        (Run.start 0 (Caches.empty 4))).2.trace ++
      ((sampleLoader westernSource westernSource none none).load ⟨5, 0, 1⟩ neverCancel
        (Run.start
          ((sampleLoader westernSource westernSource none none).load ⟨5, 0, 0⟩ neverCancel
            (Run.start 0 (Caches.empty 4))).2.world
          ((sampleLoader westernSource westernSource none none).load ⟨5, 0, 0⟩ neverCancel
            (Run.start 0 (Caches.empty 4))).2.caches)).2.trace).countP
      (Event.isElevationCreate ⟨0, 0, 0⟩) ≤ 1 :=
  ((cache_repeats_and_load_creates_once
      (sampleLoader westernSource westernSource none none) ⟨5, 0, 0⟩ ⟨5, 0, 1⟩ ⟨0, 0, 0⟩
      neverCancel neverCancel 0 (Caches.empty 4) CacheIndex.Elevation
      (fun _ r => (none, r)) (fun _ r => (none, r)) (Run.start 0 (Caches.empty 4))).2
    (by decide) (by decide) (by decide) (by decide)).2

/-! ## Images are passed through unchanged -/

/-- After a hit, the cache holds the entry that was hit. -/
theorem LruCache.mem_after_get (c : LruCache) (k : QuadTreeTileKey)
    (hit : Option ImageRef × LruCache) (h : c.get k = some hit) :
    (k, hit.1) ∈ hit.2.entries := by
  unfold LruCache.get at h
  cases hf : c.entries.find? (fun e => e.1 = k) with
  | none => simp [hf] at h
  | some e0 =>
    simp only [hf, Option.some.injEq] at h
    have hk : e0.1 = k := by simpa using List.find?_some hf
    rw [← h]
    have : (k, e0.2) = e0 := by rw [← hk]
    simp [this]

/-- C19: `load` passes images through as they are. Every entry of the elevation cache
after a run is an entry from before the run, with the image it had, or the image that
`createImage` returned in this run for the key of the entry (with its internal format
set); a height image found in the cache is handed to the bundle as it is and stays in the
cache as it is; and the four default images are the images built once by
`createDefaultHeightImage`, `createNormalmapFromHeightmap`, `convertHeightmapToLandMask`
and `createDefaultAlbedoImage`, whatever runs have taken place. -/
theorem load_passes_images_through (L : PlanetTileImagesLoader W F)
    (key : QuadTreeTileKey) (c : W → Bool × W) (world : W) (caches : Caches) :
    (∀ e ∈ (L.load key c (Run.start world caches)).2.caches.elevationCache.entries,
      e ∈ caches.elevationCache.entries ∨
      ∃ res, Event.createImage .elevationLayer e.1 res ∈
          (L.load key c (Run.start world caches)).2.trace ∧
        e.2 = res.map fun image =>
          ImageRef.object (image.setInternalTextureFormat GL_R16)) ∧
    (∀ images,
      (L.load key c (Run.start world caches)).1 = Outcome.returned (some images) →
      ∀ k hit i,
        Event.getHighestAvailableLevel .elevationLayer key (some k) ∈
          (L.load key c (Run.start world caches)).2.trace →
        caches.elevationCache.get k = some hit → hit.1 = some i →
        images.heightMapImage.image = some i ∧
        (k, some i) ∈ caches.elevationCache.entries ∧
        (k, some i) ∈
          (L.load key c (Run.start world caches)).2.caches.elevationCache.entries) ∧
    (L.deref ImageRef.defaultHeightImage = createDefaultHeightImage ∧
     L.deref ImageRef.defaultNormalMap =
       L.createNormalmapFromHeightmap createDefaultHeightImage ⟨L.ofInt 1, L.ofInt 1⟩ ∧
     L.deref ImageRef.defaultLandMask = convertHeightmapToLandMask createDefaultHeightImage ∧
     L.deref ImageRef.defaultAlbedoImage = createDefaultAlbedoImage) := by
  refine ⟨?_, ?_, ⟨rfl, rfl, rfl, rfl⟩⟩
  · cases h0 : (c world).1 with
    | true =>
      rw [load_of_entry_cancelled L key c world caches h0]
      intro e he
      exact Or.inl he
    | false =>
      rw [load_of_entry_passed L key c world caches h0]
      obtain ⟨qe, reste, img, nm, ke, evm, lm, qa, resta, aimg, ka, tail, hE, hM, hA, hC, -,
        htr, htail, -⟩ :=
        loadLayers_spec_full L key c ⟨(c world).2, caches, [Event.cancelSupplier false]⟩
      rw [htr]
      intro e he
      cases hq : qe with
      | none =>
        rw [hC.1 hq] at he
        exact Or.inl he
      | some k =>
        cases hget : caches.elevationCache.get k with
        | some hit =>
          obtain ⟨h1, -, -⟩ := hC.2.1 k hit hq hget
          rw [h1] at he
          exact Or.inl (LruCache.mem_get _ _ hit hget e he).1
        | none =>
          obtain ⟨res, h1, h2, -⟩ := hC.2.2 k hq hget
          rw [h2] at he
          rcases LruCache.mem_put _ _ _ e he with h3 | h3
          · right
            refine ⟨res, ?_, ?_⟩
            · rw [h3]
              simp [layerCalls, h1]
            · rw [h3]
          · exact Or.inl h3
  · intro images h k hit i hk hget hi
    cases h0 : (c world).1 with
    | true =>
      rw [load_of_entry_cancelled L key c world caches h0] at h
      simp at h
    | false =>
      rw [load_of_entry_passed L key c world caches h0] at h hk ⊢
      obtain ⟨qe, reste, img, nm, ke, evm, lm, qa, resta, aimg, ka, tail, hE, hM, hA, hC, -,
        htr, htail, himg⟩ :=
        loadLayers_spec_full L key c ⟨(c world).2, caches, [Event.cancelSupplier false]⟩
      rw [htr] at hk
      have hqe : qe = some k :=
        query_result_of_mem hE (mem_elevation_of_mem_trace hM hA htail _ hk rfl)
      obtain ⟨h1, -, h3⟩ := hC.2.1 k hit hqe hget
      obtain ⟨h4, -, -, -⟩ := himg images h
      refine ⟨?_, ?_, ?_⟩
      · rw [h4, h3 i hi]
      · have := (LruCache.mem_get _ _ hit hget _ (LruCache.mem_after_get _ _ hit hget)).2
        rw [hi] at this
        exact this
      · rw [h1, ← hi]
        exact LruCache.mem_after_get _ _ hit hget

theorem load_passes_images_through_witness :
    staleBundle.heightMapImage.image = some (ImageRef.object sampleHeightImage) ∧
    (⟨0, 0, 0⟩, some (ImageRef.object sampleHeightImage)) ∈
      afterFirstLoad.caches.elevationCache.entries :=
  let h := (load_passes_images_through (sampleLoader westernSource westernSource none none)
      ⟨0, 0, 0⟩ neverCancel afterFirstLoad.world afterFirstLoad.caches).2.1
        { staleBundle with
          landMaskImage := some (ImageRef.object
            (convertHeightmapToLandMask sampleHeightImage)) }
        (by decide) ⟨0, 0, 0⟩
        (some (ImageRef.object sampleHeightImage),
          ⟨4, [(⟨0, 0, 0⟩, some (ImageRef.object sampleHeightImage))]⟩)
        (ImageRef.object sampleHeightImage) (by decide) (by decide) rfl
  ⟨h.1, h.2.1⟩

/-- The own counter after a well matched sequence, started with `p` pending requests. -/
theorem run_own (M : Nat) : ∀ (ns : List Notification) (p q : Nat),
    wellMatched p ns = true → p + ns.length < sizeModulus →
    (PlanetStatsUpdater.run M ⟨q, p⟩ ns).mOwnTilesLoading + loadedCount ns + canceledCount ns =
      p + requestedCount ns := by
  intro ns
  induction ns with
  | nil => intro p q _ _; simp [PlanetStatsUpdater.run, loadedCount, canceledCount, requestedCount]
  | cons n rest ih =>
    intro p q hm hlen
    simp only [List.length_cons] at hlen
    cases n with
    | tileLoadRequested =>
      have h1 : (p + 1) % sizeModulus = p + 1 := Nat.mod_eq_of_lt (by omega)
      have := ih (p + 1) ((q + 1) % M) (by simpa [wellMatched] using hm) (by omega)
      simp only [PlanetStatsUpdater.run, PlanetStatsUpdater.notify, h1, loadedCount,
        canceledCount, requestedCount] at this ⊢
      simp only [List.count_cons, beq_self_eq_true, if_true] at this ⊢
      simp at this ⊢
      omega
    | tileLoaded =>
      cases p with
      | zero => simp [wellMatched] at hm
      | succ p =>
        have h1 : (p + 1 + (sizeModulus - 1)) % sizeModulus = p := by
          have : p + 1 + (sizeModulus - 1) = p + sizeModulus := by
            unfold sizeModulus; omega
          rw [this, Nat.add_mod_right]
          exact Nat.mod_eq_of_lt (by omega)
        have := ih p ((q + (M - 1)) % M) (by simpa [wellMatched] using hm) (by omega)
        simp only [PlanetStatsUpdater.run, PlanetStatsUpdater.notify, h1, loadedCount,
          canceledCount, requestedCount] at this ⊢
        simp at this ⊢
        omega
    | tileLoadCanceled =>
      cases p with
      | zero => simp [wellMatched] at hm
      | succ p =>
        have h1 : (p + 1 + (sizeModulus - 1)) % sizeModulus = p := by
          have : p + 1 + (sizeModulus - 1) = p + sizeModulus := by
            unfold sizeModulus; omega
          rw [this, Nat.add_mod_right]
          exact Nat.mod_eq_of_lt (by omega)
        have := ih p ((q + (M - 1)) % M) (by simpa [wellMatched] using hm) (by omega)
        simp only [PlanetStatsUpdater.run, PlanetStatsUpdater.notify, h1, loadedCount,
          canceledCount, requestedCount] at this ⊢
        simp at this ⊢
        omega

/-- The shared counter after a sequence of notifications, modulo its number of values. -/
theorem run_queue (M : Nat) (hM : 0 < M) : ∀ (ns : List Notification) (p q : Nat),
    (PlanetStatsUpdater.run M ⟨q, p⟩ ns).tileLoadQueueSize + loadedCount ns +
      canceledCount ns ≡ q + requestedCount ns [MOD M] := by
  intro ns
  induction ns with
  | nil =>
    intro p q
    simp [PlanetStatsUpdater.run, loadedCount, canceledCount, requestedCount, Nat.ModEq]
  | cons n rest ih =>
    intro p q
    have hdec : (q + (M - 1)) % M + 1 ≡ q [MOD M] := by
      have h1 : (q + (M - 1)) % M + 1 ≡ q + (M - 1) + 1 [MOD M] :=
        Nat.ModEq.add_right 1 (Nat.mod_modEq _ _)
      have h2 : q + (M - 1) + 1 = q + M := by omega
      rw [h2] at h1
      exact h1.trans (by simp [Nat.ModEq])
    cases n with
    | tileLoadRequested =>
      have := ih ((p + 1) % sizeModulus) ((q + 1) % M)
      simp only [PlanetStatsUpdater.run, PlanetStatsUpdater.notify, loadedCount,
        canceledCount, requestedCount] at this ⊢
      simp at this ⊢
      refine this.trans ?_
      have h1 : (q + 1) % M ≡ q + 1 [MOD M] := Nat.mod_modEq _ _
      have h2 := Nat.ModEq.add_right (List.count Notification.tileLoadRequested rest) h1
      exact h2.trans (by rw [Nat.add_right_comm, Nat.add_assoc])
    | tileLoaded =>
      have := ih ((p + (sizeModulus - 1)) % sizeModulus) ((q + (M - 1)) % M)
      simp only [PlanetStatsUpdater.run, PlanetStatsUpdater.notify, loadedCount,
        canceledCount, requestedCount] at this ⊢
      simp at this ⊢
      have h3 := Nat.ModEq.add_right 1 this
      have h4 := Nat.ModEq.add_right (List.count Notification.tileLoadRequested rest) hdec
      refine Nat.ModEq.trans ?_ (h3.trans ?_)
      · rw [show ∀ a b c : Nat, a + (b + 1) + c = a + b + c + 1 by intros; omega]
      · rw [show ∀ a b : Nat, a + b + 1 = a + 1 + b by intros; omega]
        exact h4
    | tileLoadCanceled =>
      have := ih ((p + (sizeModulus - 1)) % sizeModulus) ((q + (M - 1)) % M)
      simp only [PlanetStatsUpdater.run, PlanetStatsUpdater.notify, loadedCount,
        canceledCount, requestedCount] at this ⊢
      simp at this ⊢
      have h3 := Nat.ModEq.add_right 1 this
      have h4 := Nat.ModEq.add_right (List.count Notification.tileLoadRequested rest) hdec
      refine Nat.ModEq.trans ?_ (h3.trans ?_)
      · rw [show ∀ a b c : Nat, a + b + (c + 1) = a + b + c + 1 by intros; omega]
      · rw [show ∀ a b : Nat, a + b + 1 = a + 1 + b by intros; omega]
        exact h4

/-- The shared counter stays below its number of values. -/
theorem run_queue_lt (M : Nat) (hM : 0 < M) : ∀ (ns : List Notification) (p q : Nat),
    q < M → (PlanetStatsUpdater.run M ⟨q, p⟩ ns).tileLoadQueueSize < M := by
  intro ns
  induction ns with
  | nil => intro p q hq; exact hq
  | cons n rest ih =>
    intro p q _
    cases n <;>
      exact ih _ _ (Nat.mod_lt _ hM)

/-- In a well matched sequence the own counter is positive whenever a `tileLoaded` or a
`tileLoadCanceled` arrives. -/
theorem run_own_pos (M : Nat) : ∀ (pre : List Notification) (n : Notification)
    (post : List Notification) (p q : Nat),
    wellMatched p (pre ++ n :: post) = true → p + (pre ++ n :: post).length < sizeModulus →
    n ≠ Notification.tileLoadRequested →
    0 < (PlanetStatsUpdater.run M ⟨q, p⟩ pre).mOwnTilesLoading := by
  intro pre
  induction pre with
  | nil =>
    intro n post p q hm _ hn
    cases p with
    | zero => cases n <;> simp [wellMatched] at hm hn
    | succ p => simp [PlanetStatsUpdater.run]
  | cons a pre ih =>
    intro n post p q hm hlen hn
    simp only [List.cons_append, List.length_cons] at hm hlen
    cases a with
    | tileLoadRequested =>
      have h1 : (p + 1) % sizeModulus = p + 1 := Nat.mod_eq_of_lt (by omega)
      have := ih n post (p + 1) ((q + 1) % M) (by simpa [wellMatched] using hm)
        (by omega) hn
      simpa [PlanetStatsUpdater.run, PlanetStatsUpdater.notify, h1] using this
    | tileLoaded =>
      cases p with
      | zero => simp [wellMatched] at hm
      | succ p =>
        have h1 : (p + 1 + (sizeModulus - 1)) % sizeModulus = p := by
          have : p + 1 + (sizeModulus - 1) = p + sizeModulus := by
            unfold sizeModulus; omega
          rw [this, Nat.add_mod_right]
          exact Nat.mod_eq_of_lt (by omega)
        have := ih n post p ((q + (M - 1)) % M) (by simpa [wellMatched] using hm)
          (by omega) hn
        simpa [PlanetStatsUpdater.run, PlanetStatsUpdater.notify, h1] using this
    | tileLoadCanceled =>
      cases p with
      | zero => simp [wellMatched] at hm
      | succ p =>
        have h1 : (p + 1 + (sizeModulus - 1)) % sizeModulus = p := by
          have : p + 1 + (sizeModulus - 1) = p + sizeModulus := by
            unfold sizeModulus; omega
          rw [this, Nat.add_mod_right]
          exact Nat.mod_eq_of_lt (by omega)
        have := ih n post p ((q + (M - 1)) % M) (by simpa [wellMatched] using hm)
          (by omega) hn
        simpa [PlanetStatsUpdater.run, PlanetStatsUpdater.notify, h1] using this

/-- C15: for a well matched sequence of notifications (shorter than the range of
`size_t`) delivered to a fresh updater, with the shared counter at `q0`: the own counter
equals requested minus loaded minus canceled; it is positive whenever it is decremented,
so it never underflows; the shared counter has grown by the own counter, modulo its
number of values; and the destructor takes the shared counter back to `q0`. -/
theorem planetStatsUpdater_counts (M q0 : Nat) (ns : List Notification)
    (hM : 0 < M) (hq : q0 < M) (hlen : ns.length < sizeModulus)
    (hmatched : wellMatched 0 ns = true) :
    (PlanetStatsUpdater.run M ⟨q0, 0⟩ ns).mOwnTilesLoading + loadedCount ns +
      canceledCount ns = requestedCount ns ∧
    (∀ pre n post, ns = pre ++ n :: post → n ≠ Notification.tileLoadRequested →
      0 < (PlanetStatsUpdater.run M ⟨q0, 0⟩ pre).mOwnTilesLoading) ∧
    (PlanetStatsUpdater.run M ⟨q0, 0⟩ ns).tileLoadQueueSize =
      (q0 + (PlanetStatsUpdater.run M ⟨q0, 0⟩ ns).mOwnTilesLoading) % M ∧
    (PlanetStatsUpdater.run M ⟨q0, 0⟩ ns).destroy M = q0 := by
  have hown := run_own M ns 0 q0 hmatched (by omega)
  have hqueue := run_queue M hM ns 0 q0
  have hlt := run_queue_lt M hM ns 0 q0 hq
  have hmod : (PlanetStatsUpdater.run M ⟨q0, 0⟩ ns).tileLoadQueueSize ≡
      q0 + (PlanetStatsUpdater.run M ⟨q0, 0⟩ ns).mOwnTilesLoading [MOD M] := by
    apply Nat.ModEq.add_right_cancel' (loadedCount ns + canceledCount ns)
    have h1 : q0 + (PlanetStatsUpdater.run M ⟨q0, 0⟩ ns).mOwnTilesLoading +
        (loadedCount ns + canceledCount ns) = q0 + requestedCount ns := by omega
    rw [h1, ← Nat.add_assoc]
    exact hqueue
  have heq : (PlanetStatsUpdater.run M ⟨q0, 0⟩ ns).tileLoadQueueSize =
      (q0 + (PlanetStatsUpdater.run M ⟨q0, 0⟩ ns).mOwnTilesLoading) % M := by
    have := hmod
    unfold Nat.ModEq at this
    rw [Nat.mod_eq_of_lt hlt] at this
    exact this
  refine ⟨by omega, ?_, heq, ?_⟩
  · intro pre n post hns hn
    subst hns
    exact run_own_pos M pre n post 0 q0 hmatched (by omega) hn
  · unfold PlanetStatsUpdater.destroy
    rw [heq]
    generalize (PlanetStatsUpdater.run M ⟨q0, 0⟩ ns).mOwnTilesLoading = own
    have h1 : (q0 + own) % M + (M - own % M) ≡ q0 + own % M + (M - own % M) [MOD M] := by
      apply Nat.ModEq.add_right
      have : (q0 + own) % M ≡ q0 + own [MOD M] := Nat.mod_modEq _ _
      exact this.trans (Nat.ModEq.add_left q0 (Nat.mod_modEq _ _).symm)
    have h2 : q0 + own % M + (M - own % M) = q0 + M := by
      have := Nat.mod_lt own hM
      omega
    rw [h2] at h1
    have h3 : ((q0 + own) % M + (M - own % M)) % M = (q0 + M) % M := h1
    rw [h3, Nat.add_mod_right]
    exact Nat.mod_eq_of_lt hq

theorem planetStatsUpdater_counts_witness :
    (PlanetStatsUpdater.run 256 ⟨7, 0⟩
      [.tileLoadRequested, .tileLoadRequested, .tileLoaded, .tileLoadRequested,
       .tileLoadCanceled]).destroy 256 = 7 :=
  (planetStatsUpdater_counts 256 7
    [.tileLoadRequested, .tileLoadRequested, .tileLoaded, .tileLoadRequested,
     .tileLoadCanceled] (by decide) (by decide) (by decide) (by decide)).2.2.2

/-- What the loop of `createUniqueObjectName` returns. -/
theorem createUniqueObjectNameLoop_spec {O : Type} (getObjectByName : String → Option O)
    (baseName : String) : ∀ (fuel i : Nat),
    (∃ k, i ≤ k ∧ k < i + fuel ∧
      createUniqueObjectNameLoop getObjectByName baseName fuel i =
        .ok (baseName ++ toString k) ∧
      getObjectByName (baseName ++ toString k) = none ∧
      ∀ j, i ≤ j → j < k → getObjectByName (baseName ++ toString j) ≠ none) ∨
    (createUniqueObjectNameLoop getObjectByName baseName fuel i =
        .error ⟨.skyboltException,
          "Could not create unique object name from base name: " ++ baseName⟩ ∧
      ∀ j, i ≤ j → j < i + fuel → getObjectByName (baseName ++ toString j) ≠ none) := by
  intro fuel
  induction fuel with
  | zero =>
    intro i
    right
    refine ⟨rfl, ?_⟩
    intro j h1 h2
    omega
  | succ fuel ih =>
    intro i
    unfold createUniqueObjectNameLoop
    by_cases h : (getObjectByName (baseName ++ toString i)).isNone = true
    · left
      refine ⟨i, le_refl _, by omega, by rw [if_pos h], by simpa using h, ?_⟩
      intro j h1 h2
      omega
    · rw [if_neg h]
      have hi : getObjectByName (baseName ++ toString i) ≠ none := by
        intro hn
        exact h (by rw [hn]; rfl)
      rcases ih (i + 1) with ⟨k, h1, h2, h3, h4, h5⟩ | ⟨h1, h2⟩
      · left
        refine ⟨k, by omega, by omega, h3, h4, ?_⟩
        intro j hj1 hj2
        by_cases hji : j = i
        · rw [hji]; exact hi
        · exact h5 j (by omega) hj2
      · right
        refine ⟨h1, ?_⟩
        intro j hj1 hj2
        by_cases hji : j = i
        · rw [hji]; exact hi
        · exact h2 j (by omega) (by omega)

/-- C27: `createUniqueObjectName` either returns `baseName` followed by the decimal form
of some `i` with `1 ≤ i < INT_MAX` such that no object has that name while every
`baseName` followed by a `j` with `1 ≤ j < i` names an object, or it throws the
`skybolt::Exception`, and then every `baseName` followed by a `j` with `1 ≤ j < INT_MAX`
names an object. -/
theorem createUniqueObjectName_smallest_free {O : Type}
    (getObjectByName : String → Option O) (baseName : String) :
    (∃ i, 1 ≤ i ∧ i < INT_MAX ∧
      createUniqueObjectName getObjectByName baseName = .ok (baseName ++ toString i) ∧
      getObjectByName (baseName ++ toString i) = none ∧
      ∀ j, 1 ≤ j → j < i → getObjectByName (baseName ++ toString j) ≠ none) ∨
    (createUniqueObjectName getObjectByName baseName =
        .error ⟨.skyboltException,
          "Could not create unique object name from base name: " ++ baseName⟩ ∧
      ∀ j, 1 ≤ j → j < INT_MAX → getObjectByName (baseName ++ toString j) ≠ none) := by
  unfold createUniqueObjectName
  rcases createUniqueObjectNameLoop_spec getObjectByName baseName (INT_MAX - 1) 1 with
    ⟨k, h1, h2, h3, h4, h5⟩ | ⟨h1, h2⟩
  · left
    exact ⟨k, h1, by unfold INT_MAX at h2 ⊢; omega, h3, h4, h5⟩
  · right
    refine ⟨h1, ?_⟩
    intro j hj1 hj2
    exact h2 j hj1 (by unfold INT_MAX at hj2 ⊢; omega)

/-- C27 at a sample registry: with `ship1` and `ship2` taken, the name is `ship3`. -/
theorem createUniqueObjectName_smallest_free_witness :
    createUniqueObjectName twoShips "ship" = .ok "ship3" ∧
    ((∃ i, 1 ≤ i ∧ i < INT_MAX ∧
      createUniqueObjectName twoShips "ship" = .ok ("ship" ++ toString i) ∧
      twoShips ("ship" ++ toString i) = none ∧
      ∀ j, 1 ≤ j → j < i → twoShips ("ship" ++ toString j) ≠ none) ∨
    (createUniqueObjectName twoShips "ship" =
        .error ⟨.skyboltException,
          "Could not create unique object name from base name: " ++ "ship"⟩ ∧
      ∀ j, 1 ≤ j → j < INT_MAX → twoShips ("ship" ++ toString j) ≠ none)) :=
  ⟨by rfl, createUniqueObjectName_smallest_free twoShips "ship"⟩

/-- C28, the code at two failing inputs: a directory that is not in the list is not
added, so that it is not contained in the list afterwards; and a directory that is in
the list is appended once more. -/
theorem registerAssetSearchDirectory_adds_only_duplicates :
    registerAssetSearchDirectory "Assets/Models" [] = [] ∧
    "Assets/Models" ∉ registerAssetSearchDirectory "Assets/Models" ["Assets/Core"] ∧
    registerAssetSearchDirectory "Assets/Models" ["Assets/Models"] =
      ["Assets/Models", "Assets/Models"] := by
  decide

/-- The condition of `registerAssetSearchDirectory` is the wrong way round: the list
changes exactly when the directory is in it already. -/
theorem registerAssetSearchDirectory_cases (filename : String) (list : List String) :
    (filename ∉ list → registerAssetSearchDirectory filename list = list) ∧
    (filename ∈ list → registerAssetSearchDirectory filename list = list ++ [filename]) := by
  unfold registerAssetSearchDirectory
  constructor
  · intro h; rw [if_neg h]
  · intro h; rw [if_pos h]

/-- The dash and the gap computed by the constructor: four dashes and three gaps make a
quarter of the line width. -/
theorem dashedLineParams_fit (param : PitchLadderModel.Parameters) :
    4 * (PitchLadderModel.create param).mDashedLineParams.dashLength +
      3 * (PitchLadderModel.create param).mDashedLineParams.gapLength =
      25 / 100 * param.lineWidth := by
  simp only [PitchLadderModel.create]
  push_cast
  ring

/-- A half rung drawn with dash parameters has one dashed line: it has these parameters,
and the square of its length is the square of a quarter of the width. -/
theorem drawHalfRung_dashed (h : HudMath) (m : PitchLadderModel)
    (relY rungPitch roll signedWidth : ℚ) (ps : DashedLineParams)
    (hrot : ∀ a b, (h.vec2Rotate a roll).distanceSquared (h.vec2Rotate b roll) =
      a.distanceSquared b)
    (p1 p2 : Vector2) (params : DashedLineParams)
    (hmem : DrawCall.drawLineDashed p1 p2 params ∈
      m.drawHalfRung h relY rungPitch roll signedWidth (some ps)) :
    params = ps ∧ p1.distanceSquared p2 = (25 / 100 * signedWidth) ^ 2 := by
  simp only [PitchLadderModel.drawHalfRung, List.mem_cons, List.mem_singleton,
    List.not_mem_nil, or_false, reduceCtorEq, false_or, DrawCall.drawLineDashed.injEq] at hmem
  obtain ⟨h1, h2, h3⟩ := hmem
  refine ⟨h3, ?_⟩
  rw [h1, h2, hrot]
  simp only [Vector2.distanceSquared]
  ring

/-- A half rung drawn without dash parameters has no dashed line. -/
theorem drawHalfRung_solid (h : HudMath) (m : PitchLadderModel)
    (relY rungPitch roll signedWidth : ℚ) (p1 p2 : Vector2) (params : DashedLineParams) :
    DrawCall.drawLineDashed p1 p2 params ∉
      m.drawHalfRung h relY rungPitch roll signedWidth none := by
  simp [PitchLadderModel.drawHalfRung]

/-- The dashed lines of a rung drawn with dash parameters. -/
theorem drawRung_dashed (h : HudMath) (m : PitchLadderModel)
    (rungPitch pitch roll width : ℚ) (ps : DashedLineParams)
    (hrot : ∀ a b, (h.vec2Rotate a roll).distanceSquared (h.vec2Rotate b roll) =
      a.distanceSquared b)
    (p1 p2 : Vector2) (params : DashedLineParams)
    (hmem : DrawCall.drawLineDashed p1 p2 params ∈
      m.drawRung h rungPitch pitch roll width (some ps)) :
    params = ps ∧ p1.distanceSquared p2 = (25 / 100 * width) ^ 2 := by
  unfold PitchLadderModel.drawRung at hmem
  rcases List.mem_append.1 hmem with hm | hm
  · have := drawHalfRung_dashed h m _ _ _ _ ps hrot p1 p2 params hm
    refine ⟨this.1, ?_⟩
    rw [this.2]
    ring
  · exact drawHalfRung_dashed h m _ _ _ _ ps hrot p1 p2 params hm

/-- A rung drawn without dash parameters has no dashed line. -/
theorem drawRung_solid (h : HudMath) (m : PitchLadderModel)
    (rungPitch pitch roll width : ℚ) (p1 p2 : Vector2) (params : DashedLineParams) :
    DrawCall.drawLineDashed p1 p2 params ∉ m.drawRung h rungPitch pitch roll width none := by
  unfold PitchLadderModel.drawRung
  intro hmem
  rcases List.mem_append.1 hmem with hm | hm
  · exact drawHalfRung_solid h m _ _ _ _ p1 p2 params hm
  · exact drawHalfRung_solid h m _ _ _ _ p1 p2 params hm

/-- The first loop of `draw` draws no dashed line. -/
theorem drawRungsAbove_solid (h : HudMath) (m : PitchLadderModel) (pitch roll : ℚ)
    (p1 p2 : Vector2) (params : DashedLineParams) :
    ∀ (fuel : Nat) (p : ℚ) (calls : List DrawCall),
      m.drawRungsAbove h pitch roll fuel p = some calls →
      DrawCall.drawLineDashed p1 p2 params ∉ calls := by
  intro fuel
  induction fuel with
  | zero =>
    intro p calls hc
    unfold PitchLadderModel.drawRungsAbove at hc
    split at hc
    · cases hc
    · cases hc; simp
  | succ fuel ih =>
    intro p calls hc
    unfold PitchLadderModel.drawRungsAbove at hc
    split at hc
    · rcases Option.map_eq_some'.1 hc with ⟨rest, hrest, hcalls⟩
      rw [← hcalls]
      intro hmem
      rcases List.mem_append.1 hmem with hm | hm
      · exact drawRung_solid h m _ _ _ _ p1 p2 params hm
      · exact ih _ rest hrest hm
    · cases hc; simp

/-- The dashed lines of the second loop of `draw`. -/
theorem drawRungsBelow_dashed (h : HudMath) (m : PitchLadderModel) (pitch roll : ℚ)
    (hrot : ∀ a b, (h.vec2Rotate a roll).distanceSquared (h.vec2Rotate b roll) =
      a.distanceSquared b)
    (p1 p2 : Vector2) (params : DashedLineParams) :
    ∀ (fuel : Nat) (p : ℚ) (calls : List DrawCall),
      m.drawRungsBelow h pitch roll fuel p = some calls →
      DrawCall.drawLineDashed p1 p2 params ∈ calls →
      params = m.mDashedLineParams ∧
        p1.distanceSquared p2 = (25 / 100 * m.mParam.lineWidth) ^ 2 := by
  intro fuel
  induction fuel with
  | zero =>
    intro p calls hc hmem
    unfold PitchLadderModel.drawRungsBelow at hc
    split at hc
    · cases hc
    · cases hc; simp at hmem
  | succ fuel ih =>
    intro p calls hc hmem
    unfold PitchLadderModel.drawRungsBelow at hc
    split at hc
    · rcases Option.map_eq_some'.1 hc with ⟨rest, hrest, hcalls⟩
      rw [← hcalls] at hmem
      rcases List.mem_append.1 hmem with hm | hm
      · exact drawRung_dashed h m _ _ _ _ _ hrot p1 p2 params hm
      · exact ih _ rest hrest hm
    · cases hc; simp at hmem

/-- C21: the dash and gap lengths of the constructor satisfy
`4 * dashLength + 3 * gapLength = 0.25 * lineWidth` over the rationals; and when
`vec2Rotate` by the roll angle keeps distances and the line width is not negative, every
dashed line that `draw` draws has the dash parameters of the constructor and the length
`0.25 * lineWidth` (the square of its length is the square of that number, which is not
negative). -/
theorem pitchLadder_dashes_end_on_complete_dash (h : HudMath)
    (param : PitchLadderModel.Parameters) (fuel : Nat) (pitch roll : ℚ)
    (calls : List DrawCall)
    (hwidth : 0 ≤ param.lineWidth)
    (hrot : ∀ a b, (h.vec2Rotate a roll).distanceSquared (h.vec2Rotate b roll) =
      a.distanceSquared b)
    (hdraw : (PitchLadderModel.create param).draw h fuel pitch roll = some calls) :
    4 * (PitchLadderModel.create param).mDashedLineParams.dashLength +
      3 * (PitchLadderModel.create param).mDashedLineParams.gapLength =
      25 / 100 * param.lineWidth ∧
    0 ≤ 25 / 100 * param.lineWidth ∧
    ∀ p1 p2 params, DrawCall.drawLineDashed p1 p2 params ∈ calls →
      params = (PitchLadderModel.create param).mDashedLineParams ∧
      p1.distanceSquared p2 = (25 / 100 * param.lineWidth) ^ 2 := by
  refine ⟨dashedLineParams_fit param, by linarith, ?_⟩
  intro p1 p2 params hmem
  unfold PitchLadderModel.draw at hdraw
  split at hdraw
  · rename_i above below habove hbelow
    cases hdraw
    rcases List.mem_append.1 hmem with hm | hm
    · rcases List.mem_append.1 hm with hm | hm
      · exact absurd hm (drawRung_solid h _ _ _ _ _ p1 p2 params)
      · exact absurd hm (drawRungsAbove_solid h _ pitch roll p1 p2 params _ _ _ habove)
    · exact drawRungsBelow_dashed h _ pitch roll hrot p1 p2 params _ _ _ hbelow hm
  · cases hdraw

/-- C21 at the sample parameters: `draw` returns, and the rung at the pitch angle -1 has
two dashed lines, each with four dashes of length 3/184 and three gaps of length 3/920,
from a point at the distance 3/40 = 0.25 * 0.3 to the next. -/
theorem pitchLadder_dashes_end_on_complete_dash_witness :
    sampleDashedLines =
      [ .drawLineDashed ⟨-1 / 20, -3 / 20⟩ ⟨-1 / 200, -9 / 100⟩ ⟨3 / 184, 3 / 920⟩,
        .drawLineDashed ⟨13 / 100, 9 / 100⟩ ⟨17 / 200, 3 / 100⟩ ⟨3 / 184, 3 / 920⟩ ] ∧
    (4 * (PitchLadderModel.create sampleLadderParameters).mDashedLineParams.dashLength +
      3 * (PitchLadderModel.create sampleLadderParameters).mDashedLineParams.gapLength =
      25 / 100 * sampleLadderParameters.lineWidth ∧
    0 ≤ 25 / 100 * sampleLadderParameters.lineWidth ∧
    ∀ p1 p2 params, DrawCall.drawLineDashed p1 p2 params ∈
        ((PitchLadderModel.create sampleLadderParameters).draw sampleHudMath 5 0 0).getD [] →
      params = (PitchLadderModel.create sampleLadderParameters).mDashedLineParams ∧
      p1.distanceSquared p2 = (25 / 100 * sampleLadderParameters.lineWidth) ^ 2) :=
  ⟨by set_option maxRecDepth 8000 in with_unfolding_all decide,
   pitchLadder_dashes_end_on_complete_dash sampleHudMath sampleLadderParameters 5 0 0 _
    (by with_unfolding_all decide)
    (by intro a b; simp only [sampleHudMath, Vector2.distanceSquared]; ring)
    (by
      have hs : ((PitchLadderModel.create sampleLadderParameters).draw sampleHudMath 5 0
          0).isSome = true := by with_unfolding_all decide
      rcases Option.isSome_iff_exists.1 hs with ⟨calls, hcalls⟩
      rw [hcalls]
      rfl)⟩

theorem stdMin_eq_min (a b : ℚ) : stdMin a b = min a b := by
  unfold stdMin
  split
  · rw [min_eq_right (le_of_lt ‹_›)]
  · rw [min_eq_left (le_of_not_lt ‹_›)]

/-- The calls of one `update` with a positive wall step, and the members it leaves
unchanged. -/
theorem update_calls {B T : Type} (env : SimEnvironment B T) (wallDt : ℚ) (r : SimRun B T)
    (hwall : 0 < wallDt) :
    (SimUpdater.update env wallDt r).calls = r.calls ++
      ([SimCall.setDynamicsEnabled env.isLive, SimCall.setTime (env.getTime r.timeSource),
        SimCall.advanceTime (SimUpdater.calculateSimDt env wallDt r.updater r.timeSource).1,
        SimCall.stepperUpdate (stdMax 0 (env.getTime (env.advanceTime r.timeSource
          (SimUpdater.calculateSimDt env wallDt r.updater r.timeSource).1) -
            env.getTime r.timeSource))] ++
        (List.range env.systemCount).map
          (fun i => SimCall.advanceWallTime i r.updater.mWallTime wallDt)) ∧
      (SimUpdater.update env wallDt r).updater.mActualTimeRate =
        (SimUpdater.calculateSimDt env wallDt r.updater r.timeSource).2.mActualTimeRate ∧
      (SimUpdater.update env wallDt r).updater.mRequestedTimeRate =
        r.updater.mRequestedTimeRate ∧
      (SimUpdater.update env wallDt r).updater.mMaxSimDt = r.updater.mMaxSimDt := by
  have hw : (SimUpdater.calculateSimDt env wallDt r.updater r.timeSource).2.mWallTime =
      r.updater.mWallTime := by
    unfold SimUpdater.calculateSimDt
    split <;> rfl
  have hr : (SimUpdater.calculateSimDt env wallDt r.updater r.timeSource).2.mRequestedTimeRate =
      r.updater.mRequestedTimeRate := by
    unfold SimUpdater.calculateSimDt
    split <;> rfl
  have hm : (SimUpdater.calculateSimDt env wallDt r.updater r.timeSource).2.mMaxSimDt =
      r.updater.mMaxSimDt := by
    unfold SimUpdater.calculateSimDt
    split <;> rfl
  unfold SimUpdater.update
  rw [if_neg (not_le.2 hwall)]
  refine ⟨?_, rfl, hr, hm⟩
  simp only [SimUpdater.simulate, List.append_assoc, List.cons_append, List.nil_append,
    List.singleton_append, hw]

/-- The step and the new actual time rate that `update` calculates while the time source
is playing, with the averaged wall step positive. -/
theorem calculateSimDt_playing {B T : Type} (env : SimEnvironment B T) (wallDt : ℚ)
    (u : SimUpdater B) (t : T) (hplaying : env.isPlaying t = true)
    (haverage : 0 < env.getResult (env.addValue u.mAverageWallDt wallDt)) :
    (SimUpdater.calculateSimDt env wallDt u t).1 =
      min (env.getResult (env.addValue u.mAverageWallDt wallDt) * u.mRequestedTimeRate)
        (min (2 / 10 * u.mActualTimeRate) u.mMaxSimDt) ∧
    (SimUpdater.calculateSimDt env wallDt u t).2.mActualTimeRate =
      (SimUpdater.calculateSimDt env wallDt u t).1 /
        env.getResult (env.addValue u.mAverageWallDt wallDt) := by
  unfold SimUpdater.calculateSimDt
  rw [if_pos hplaying]
  refine ⟨?_, rfl⟩
  dsimp only
  rw [stdMin_eq_min, stdMin_eq_min, mul_min_of_nonneg _ _ (le_of_lt haverage), min_assoc]
  congr 2
  unfold maxWallDt
  field_simp
  ring

/-- The steps among the calls of one `update`. -/
theorem simulatedSteps_update (pre : List SimCall) (enabled : Bool) (time s dtSim : ℚ)
    (wallTime wallDt : ℚ) (n : Nat) :
    simulatedSteps (pre ++ ([SimCall.setDynamicsEnabled enabled, SimCall.setTime time,
      SimCall.advanceTime s, SimCall.stepperUpdate dtSim] ++
        (List.range n).map (fun i => SimCall.advanceWallTime i wallTime wallDt))) =
      simulatedSteps pre ++ [s] := by
  unfold simulatedSteps
  rw [List.filterMap_append, List.filterMap_append]
  congr 1
  have h1 : List.filterMap (fun c => match c with
      | SimCall.advanceTime dt => some dt
      | _ => none) ((List.range n).map (fun i => SimCall.advanceWallTime i wallTime wallDt)) =
      [] := by
    rw [List.filterMap_eq_nil_iff]
    intro x hx
    rcases List.mem_map.1 hx with ⟨i, -, rfl⟩
    rfl
  rw [h1]
  rfl

/-- The three cases of `update`. -/
theorem simUpdater_step_cases {B T : Type} (env : SimEnvironment B T) (r : SimRun B T) :
    (∀ wallDt, 0 < wallDt → env.isPlaying r.timeSource = true →
      0 < env.getResult (env.addValue r.updater.mAverageWallDt wallDt) →
      simulatedSteps (SimUpdater.update env wallDt r).calls = simulatedSteps r.calls ++
        [min (env.getResult (env.addValue r.updater.mAverageWallDt wallDt) *
            r.updater.mRequestedTimeRate)
          (min (2 / 10 * r.updater.mActualTimeRate) r.updater.mMaxSimDt)] ∧
      (SimUpdater.update env wallDt r).updater.mActualTimeRate =
        min (env.getResult (env.addValue r.updater.mAverageWallDt wallDt) *
            r.updater.mRequestedTimeRate)
          (min (2 / 10 * r.updater.mActualTimeRate) r.updater.mMaxSimDt) /
          env.getResult (env.addValue r.updater.mAverageWallDt wallDt) ∧
      (SimUpdater.update env wallDt r).updater.mActualTimeRate ≤
        r.updater.mRequestedTimeRate) ∧
    (∀ wallDt, 0 < wallDt → env.isPlaying r.timeSource = false →
      simulatedSteps (SimUpdater.update env wallDt r).calls = simulatedSteps r.calls ++ [0]) ∧
    (∀ wallDt, wallDt ≤ 0 → SimUpdater.update env wallDt r = r) := by
  refine ⟨?_, ?_, ?_⟩
  · intro wallDt hwall hplaying haverage
    have hc := update_calls env wallDt r hwall
    have hp := calculateSimDt_playing env wallDt r.updater r.timeSource hplaying haverage
    refine ⟨?_, ?_, ?_⟩
    · rw [hc.1, simulatedSteps_update, hp.1]
    · rw [hc.2.1, hp.2, hp.1]
    · rw [hc.2.1, hp.2, hp.1, div_le_iff₀ haverage, mul_comm]
      exact min_le_left _ _
  · intro wallDt hwall hplaying
    have hc := update_calls env wallDt r hwall
    have h0 : (SimUpdater.calculateSimDt env wallDt r.updater r.timeSource).1 = 0 := by
      unfold SimUpdater.calculateSimDt
      rw [hplaying]
      rfl
    rw [hc.1, simulatedSteps_update, h0]
  · intro wallDt hwall
    unfold SimUpdater.update
    rw [if_pos hwall]

/-- C25: for `update` with `wallDt > 0` while the time source is playing, with the
averaged wall step `a > 0`: the step handed to `simulate` is
`min (a * requestedTimeRate) (min (0.2 * r) maxSimDt)`, where `r` is the actual time rate
before the call; afterwards the actual time rate is that step divided by `a`, and not
greater than the requested time rate. While the time source is not playing the step is
0; and with `wallDt ≤ 0` the call changes nothing. -/
theorem simUpdater_update_step {B T : Type} (env : SimEnvironment B T) (r : SimRun B T) :
    (∀ wallDt, 0 < wallDt → env.isPlaying r.timeSource = true →
      0 < env.getResult (env.addValue r.updater.mAverageWallDt wallDt) →
      simulatedSteps (SimUpdater.update env wallDt r).calls = simulatedSteps r.calls ++
        [min (env.getResult (env.addValue r.updater.mAverageWallDt wallDt) *
            r.updater.mRequestedTimeRate)
          (min (2 / 10 * r.updater.mActualTimeRate) r.updater.mMaxSimDt)] ∧
      (SimUpdater.update env wallDt r).updater.mActualTimeRate =
        min (env.getResult (env.addValue r.updater.mAverageWallDt wallDt) *
            r.updater.mRequestedTimeRate)
          (min (2 / 10 * r.updater.mActualTimeRate) r.updater.mMaxSimDt) /
          env.getResult (env.addValue r.updater.mAverageWallDt wallDt) ∧
      (SimUpdater.update env wallDt r).updater.mActualTimeRate ≤
        r.updater.mRequestedTimeRate) ∧
    (∀ wallDt, 0 < wallDt → env.isPlaying r.timeSource = false →
      simulatedSteps (SimUpdater.update env wallDt r).calls = simulatedSteps r.calls ++ [0]) ∧
    (∀ wallDt, wallDt ≤ 0 → SimUpdater.update env wallDt r = r) :=
  simUpdater_step_cases env r

/-- C25 at a sample: the averaged wall step is 1/10, the requested time rate 4, the
actual time rate 1 and the maximum sim step 1/2, so that the step is 0.2 * 1 = 1/5 and
the new actual time rate 2. -/
theorem simUpdater_update_step_witness :
    simulatedSteps (SimUpdater.update sampleSimEnvironment (1 / 10) sampleSimRun).calls =
      [1 / 5] ∧
    (SimUpdater.update sampleSimEnvironment (1 / 10) sampleSimRun).updater.mActualTimeRate =
      2 ∧
    (SimUpdater.update sampleSimEnvironment (1 / 10) sampleSimRun).updater.mActualTimeRate ≤
      sampleSimRun.updater.mRequestedTimeRate :=
  ⟨by with_unfolding_all decide, by with_unfolding_all decide,
   ((simUpdater_update_step sampleSimEnvironment sampleSimRun).1 (1 / 10)
      (by norm_num) rfl (by norm_num [sampleSimEnvironment])).2.2⟩

/-- One `update` of an updater of which the actual time rate is 0. -/
theorem update_zero_rate {B T : Type} (env : SimEnvironment B T) (r : SimRun B T)
    (wallDt : ℚ)
    (hzero : r.updater.mActualTimeRate = 0) (hreq : 0 ≤ r.updater.mRequestedTimeRate)
    (hmax : 0 ≤ r.updater.mMaxSimDt)
    (haverage : ∀ b v, 0 < v → 0 < env.getResult (env.addValue b v)) :
    (SimUpdater.update env wallDt r).updater.mActualTimeRate = 0 ∧
    (SimUpdater.update env wallDt r).updater.mRequestedTimeRate =
      r.updater.mRequestedTimeRate ∧
    (SimUpdater.update env wallDt r).updater.mMaxSimDt = r.updater.mMaxSimDt ∧
    ∃ k, simulatedSteps (SimUpdater.update env wallDt r).calls =
      simulatedSteps r.calls ++ List.replicate k 0 := by
  by_cases hwall : wallDt ≤ 0
  · rw [(simUpdater_step_cases env r).2.2 wallDt hwall]
    exact ⟨hzero, rfl, rfl, 0, by simp⟩
  · have hw : 0 < wallDt := not_le.1 hwall
    have hc := update_calls env wallDt r hw
    refine ⟨?_, hc.2.2.1, hc.2.2.2, 1, ?_⟩
    · cases hp : env.isPlaying r.timeSource with
      | true =>
        have h := (simUpdater_step_cases env r).1 wallDt hw hp (haverage _ _ hw)
        rw [h.2.1, hzero, mul_zero, min_eq_left hmax,
          min_eq_right (mul_nonneg (le_of_lt (haverage _ _ hw)) hreq), zero_div]
      | false =>
        rw [hc.2.1]
        unfold SimUpdater.calculateSimDt
        rw [hp]
        exact hzero
    · cases hp : env.isPlaying r.timeSource with
      | true =>
        have h := (simUpdater_step_cases env r).1 wallDt hw hp (haverage _ _ hw)
        rw [h.1, hzero, mul_zero, min_eq_left hmax,
          min_eq_right (mul_nonneg (le_of_lt (haverage _ _ hw)) hreq)]
        rfl
      | false =>
        rw [(simUpdater_step_cases env r).2.1 wallDt hw hp]
        rfl

/-- C26: when the actual time rate is 0, the requested time rate and the maximum sim
step are not negative and the averaged wall step is positive after every added positive
value, then after every sequence of later actions (setting a requested time rate or a
maximum sim step that is not negative, a change of the time source, a call of `update`)
the actual time rate is 0 and every step handed to `simulate` in between was 0. One
playing update with the requested time rate 0 leads to such a state. -/
theorem simUpdater_zero_rate_absorbing {B T : Type} (env : SimEnvironment B T)
    (haverage : ∀ b v, 0 < v → 0 < env.getResult (env.addValue b v)) :
    (∀ (actions : List (SimAction T)) (r : SimRun B T),
      r.updater.mActualTimeRate = 0 → 0 ≤ r.updater.mRequestedTimeRate →
      0 ≤ r.updater.mMaxSimDt → (∀ a ∈ actions, a.nonNegative) →
      (SimUpdater.performAll env r actions).updater.mActualTimeRate = 0 ∧
      ∃ k, simulatedSteps (SimUpdater.performAll env r actions).calls =
        simulatedSteps r.calls ++ List.replicate k 0) ∧
    (∀ (r : SimRun B T) (wallDt : ℚ), 0 < wallDt → env.isPlaying r.timeSource = true →
      r.updater.mRequestedTimeRate = 0 → 0 ≤ r.updater.mActualTimeRate →
      0 ≤ r.updater.mMaxSimDt →
      (SimUpdater.update env wallDt r).updater.mActualTimeRate = 0) := by
  constructor
  · intro actions
    induction actions with
    | nil =>
      intro r hzero _ _ _
      exact ⟨hzero, 0, by simp [SimUpdater.performAll]⟩
    | cons a rest ih =>
      intro r hzero hreq hmax hset
      have hrest : ∀ a ∈ rest, a.nonNegative := fun a ha => hset a (List.mem_cons_of_mem _ ha)
      have ha : a.nonNegative := hset a (List.mem_cons_self _ _)
      have hfold : SimUpdater.performAll env r (a :: rest) =
          SimUpdater.performAll env (SimUpdater.perform env r a) rest := rfl
      rw [hfold]
      cases a with
      | setRequestedTimeRate rate => exact ih _ hzero ha hmax hrest
      | setMaxSimDt dt => exact ih _ hzero hreq ha hrest
      | setTimeSource t => exact ih _ hzero hreq hmax hrest
      | update wallDt =>
        obtain ⟨h1, h2, h3, k, h4⟩ := update_zero_rate env r wallDt hzero hreq hmax haverage
        obtain ⟨h5, k2, h6⟩ := ih (SimUpdater.update env wallDt r) h1 (by rw [h2]; exact hreq)
          (by rw [h3]; exact hmax) hrest
        refine ⟨h5, k + k2, ?_⟩
        show simulatedSteps (SimUpdater.performAll env (SimUpdater.update env wallDt r)
          rest).calls = _
        rw [h6, h4, List.append_assoc, ← List.replicate_add]
  · intro r wallDt hw hp hreq hactual hmax
    have h := (simUpdater_step_cases env r).1 wallDt hw hp (haverage _ _ hw)
    rw [h.2.1, hreq, mul_zero,
      min_eq_left (le_min (mul_nonneg (by norm_num) hactual) hmax), zero_div]

/-- C26 at a sample: the actual time rate is 0; the requested time rate is set to 1000
and `update` is called twice; both steps are 0 and the actual time rate is 0. -/
theorem simUpdater_zero_rate_absorbing_witness :
    (SimUpdater.performAll sampleSimEnvironment stalledSimRun
      [.setRequestedTimeRate 1000, .update (1 / 10), .update (1 / 10)]).updater.mActualTimeRate
        = 0 ∧
    simulatedSteps (SimUpdater.performAll sampleSimEnvironment stalledSimRun
      [.setRequestedTimeRate 1000, .update (1 / 10), .update (1 / 10)]).calls = [0, 0] :=
  ⟨((simUpdater_zero_rate_absorbing sampleSimEnvironment
      (by intro b v hv; exact hv)).1
      [.setRequestedTimeRate 1000, .update (1 / 10), .update (1 / 10)] stalledSimRun rfl
      (by norm_num [stalledSimRun]) (by norm_num [stalledSimRun])
      (by intro a ha; simp at ha; rcases ha with rfl | rfl | rfl <;>
        simp [SimAction.nonNegative])).1,
   by with_unfolding_all decide⟩

/-- One iteration of the loop at a particle that dies: the last particle takes its
place. -/
theorem swap_dropLast {F : Type} (processed rest : List (Particle F)) (x aged : Particle F) :
    (swapParticles ((processed ++ x :: rest).set processed.length aged) processed.length
      (((processed ++ x :: rest).set processed.length aged).length - 1)).dropLast =
      processed ++ (match rest.getLast? with
        | none => []
        | some last => last :: rest.dropLast) := by
  have hset : (processed ++ x :: rest).set processed.length aged = processed ++ aged :: rest := by
    rw [List.set_append_right _ _ (le_refl _)]
    simp
  rw [List.length_set, hset]
  rcases List.eq_nil_or_concat rest with hr | ⟨mid, last, hr⟩
  · subst hr
    have hl : (processed ++ [x]).length - 1 = processed.length := by simp
    rw [hl]
    unfold swapParticles
    simp
  · rw [List.concat_eq_append] at hr
    subst hr
    have hl : (processed ++ x :: (mid ++ [last])).length - 1 =
        processed.length + 1 + mid.length := by
      simp; omega
    rw [hl]
    unfold swapParticles
    have h1 : (processed ++ aged :: (mid ++ [last]))[processed.length]? = some aged := by
      rw [List.getElem?_append_right (le_refl _)]
      simp
    have h2 : (processed ++ aged :: (mid ++ [last]))[processed.length + 1 + mid.length]? =
        some last := by
      rw [List.getElem?_append_right (by omega)]
      have : processed.length + 1 + mid.length - processed.length = mid.length + 1 := by omega
      rw [this]
      simp
    rw [h1, h2]
    have h3 : (processed ++ aged :: (mid ++ [last])).set processed.length last =
        processed ++ last :: (mid ++ [last]) := by
      rw [List.set_append_right _ _ (le_refl _)]
      simp
    have h4 : (processed ++ last :: (mid ++ [last])) = (processed ++ last :: mid) ++ [last] := by
      simp
    have h5 : ((processed ++ last :: mid) ++ [last]).set (processed.length + 1 + mid.length)
        aged = (processed ++ last :: mid) ++ [aged] := by
      rw [List.set_append_right _ _ (by simp; omega)]
      have : processed.length + 1 + mid.length - (processed ++ last :: mid).length = 0 := by
        simp; omega
      rw [this]
      rfl
    simp only [h3]
    rw [h4, h5, List.dropLast_concat]
    simp

/-- The loop of `ParticleKiller::update` at the index `i`, when the first `i` particles
have been aged and kept and the others are as they came in: with one iteration for each
of these others the loop ends, and it leaves the first `i` particles and, in some order,
those of the others of which the age after `age += dt` is not greater than the
lifetime. -/
theorem updateLoop_spec {F : Type} (ops : FloatArithmetic F) (mLifetime dt : F) :
    ∀ (fuel : Nat) (processed pending : List (Particle F)), pending.length ≤ fuel →
      ∃ result, ParticleKiller.updateLoop ops mLifetime dt fuel processed.length
          (processed ++ pending) = some result ∧
        result.Perm (processed ++ (pending.map (Particle.aged ops dt)).filter
          (fun p => !ops.gt p.age mLifetime)) := by
  intro fuel
  induction fuel with
  | zero =>
    intro processed pending hlen
    have hp : pending = [] := List.length_eq_zero.1 (Nat.le_zero.1 hlen)
    subst hp
    refine ⟨processed, ?_, by simp⟩
    unfold ParticleKiller.updateLoop
    simp
  | succ fuel ih =>
    intro processed pending hlen
    cases pending with
    | nil =>
      refine ⟨processed, ?_, by simp⟩
      unfold ParticleKiller.updateLoop
      simp
    | cons x rest =>
      have hget : (processed ++ x :: rest)[processed.length]? = some x := by
        rw [List.getElem?_append_right (le_refl _)]
        simp
      unfold ParticleKiller.updateLoop
      rw [hget]
      dsimp only
      by_cases hdead : ops.gt (ops.add x.age dt) mLifetime = true
      · rw [if_pos hdead, swap_dropLast]
        have hperm : (match rest.getLast? with
            | none => []
            | some last => last :: rest.dropLast).Perm rest := by
          rcases List.eq_nil_or_concat rest with hr | ⟨mid, last, hr⟩
          · subst hr; simp
          · rw [List.concat_eq_append] at hr
            subst hr
            simp only [List.getLast?_append, List.getLast?_singleton, List.dropLast_concat]
            simpa using (List.perm_append_singleton last mid).symm
        obtain ⟨result, h1, h2⟩ := ih processed _ (by
          rw [hperm.length_eq]
          simpa using hlen)
        refine ⟨result, h1, h2.trans ?_⟩
        apply List.Perm.append_left
        have hx : (!ops.gt (Particle.aged ops dt x).age mLifetime) = false := by
          simp [Particle.aged, hdead]
        rw [List.map_cons, List.filter_cons_of_neg (by simp [hx])]
        exact (hperm.map _).filter _
      · rw [if_neg hdead]
        have hset : (processed ++ x :: rest).set processed.length
            { x with age := ops.add x.age dt } =
              (processed ++ [Particle.aged ops dt x]) ++ rest := by
          rw [List.set_append_right _ _ (le_refl _)]
          simp [Particle.aged]
        rw [hset]
        obtain ⟨result, h1, h2⟩ := ih (processed ++ [Particle.aged ops dt x]) rest (by
          simpa using hlen)
        rw [List.length_append, List.length_singleton] at h1
        refine ⟨result, h1, ?_⟩
        have hx : (!ops.gt (Particle.aged ops dt x).age mLifetime) = true := by
          simpa [Particle.aged] using hdead
        rw [List.map_cons, List.filter_cons_of_pos (by simpa using hx)]
        simpa using h2

/-- C22: for every type of `float` values with its addition and its comparison, every
vector of particles, every lifetime and every `dt`: `ParticleKiller::update` ends, after
as many iterations as the vector has particles at most; it leaves, in some order, the
particles of the vector, each after `age += dt` once, for which `age > mLifetime` is
false; so for no particle that it leaves `age > mLifetime` is true. -/
theorem particleKiller_update_keeps_young {F : Type} (ops : FloatArithmetic F)
    (mLifetime dt : F) (particles : List (Particle F)) :
    ∃ result, ParticleKiller.update ops mLifetime dt particles = some result ∧
      result.Perm ((particles.map (Particle.aged ops dt)).filter
        (fun p => !ops.gt p.age mLifetime)) ∧
      ∀ p ∈ result, ops.gt p.age mLifetime = false := by
  obtain ⟨result, h1, h2⟩ := updateLoop_spec ops mLifetime dt particles.length [] particles
    (le_refl _)
  refine ⟨result, h1, by simpa using h2, ?_⟩
  intro p hp
  have := (h2.mem_iff).1 hp
  simp only [List.nil_append, List.mem_filter, Bool.not_eq_true'] at this
  exact this.2

/-- The particles 1 and 3 die and the last one is swapped into their places: the order
of the others changes. And with an addition that rounds, a particle at the age of the
lifetime stays when `dt` is lost in the rounding. -/
theorem particleKiller_update_sample :
    ParticleKiller.update exactArithmetic 5 1
      [sampleParticle 1 5, sampleParticle 2 0, sampleParticle 3 9, sampleParticle 4 2] =
      some [sampleParticle 4 3, sampleParticle 2 1] ∧
    ParticleKiller.update coarseArithmetic 1 (1 / 8) [sampleParticle 1 1] =
      some [sampleParticle 1 1] ∧
    ParticleKiller.update exactArithmetic 1 (1 / 8) [sampleParticle 1 1] = some [] := by
  refine ⟨by with_unfolding_all decide, by with_unfolding_all decide,
    by with_unfolding_all decide⟩

/-- A call of `createParticle` while `mNextParticleId` is less than `INT_MAX`: the new
particle has this guid, and `mNextParticleId` is one more afterwards. -/
theorem createParticle_spec {F R Q : Type} (ops : FloatArithmetic F)
    (env : EmitterEnvironment F R Q) (e : ParticleEmitter F Q)
    (emitterVelocity : Vector3) (timeOffset : F) (r : EmitterRun F R)
    (hid : r.mNextParticleId < (INT_MAX : Int)) :
    ∃ particle r1, e.createParticle ops env emitterVelocity timeOffset r =
        some (particle, r1) ∧
      particle.guid = r.mNextParticleId ∧ r1.mNextParticleId = r.mNextParticleId + 1 ∧
      r1.particles = r.particles := by
  unfold ParticleEmitter.createParticle
  simp only [if_pos hid]
  exact ⟨_, _, rfl, rfl, rfl, rfl⟩

/-- The loop of `ParticleEmitter::update` appends one particle for each iteration, with
consecutive guids from `mNextParticleId` on, when these do not pass `INT_MAX`. -/
theorem emitLoop_spec {F R Q : Type} (ops : FloatArithmetic F)
    (env : EmitterEnvironment F R Q) (e : ParticleEmitter F Q)
    (emitterVelocity : Vector3) (dtSubstep : F) :
    ∀ (count : Nat) (timeOffset : F) (r : EmitterRun F R),
      r.mNextParticleId + count ≤ (INT_MAX : Int) →
      ∃ r1 new, ParticleEmitter.emitLoop ops env e emitterVelocity dtSubstep count timeOffset
          r = some r1 ∧
        r1.particles = r.particles ++ new ∧
        new.map Particle.guid =
          (List.range count).map (fun (k : Nat) => r.mNextParticleId + (k : Int)) ∧
        r1.mNextParticleId = r.mNextParticleId + count := by
  intro count
  induction count with
  | zero =>
    intro timeOffset r _
    exact ⟨r, [], rfl, by simp, by simp, by simp⟩
  | succ count ih =>
    intro timeOffset r hid
    have hlt : r.mNextParticleId < (INT_MAX : Int) := by push_cast at hid; omega
    obtain ⟨particle, r0, hc, hguid, hnext, hparticles⟩ :=
      createParticle_spec ops env e emitterVelocity timeOffset r hlt
    unfold ParticleEmitter.emitLoop
    rw [hc]
    obtain ⟨r1, new, h1, h2, h3, h4⟩ := ih (ops.add timeOffset dtSubstep)
      { r0 with particles := r0.particles ++ [particle] }
      (by show r0.mNextParticleId + _ ≤ _; rw [hnext]; push_cast at hid ⊢; omega)
    refine ⟨r1, particle :: new, h1, ?_, ?_, ?_⟩
    · rw [h2]
      show (r0.particles ++ [particle]) ++ new = _
      rw [hparticles]
      simp
    · have h3' : new.map Particle.guid =
          (List.range count).map (fun (k : Nat) => r0.mNextParticleId + (k : Int)) := h3
      rw [List.map_cons, h3', hguid, hnext, List.range_succ_eq_map]
      simp only [List.map_cons, List.map_map, Nat.cast_zero, add_zero, List.cons.injEq,
        true_and]
      apply List.map_congr_left
      intro k _
      simp only [Function.comp_apply, Nat.cast_succ]
      ring
    · rw [h4]
      show r0.mNextParticleId + _ = _
      rw [hnext]; push_cast; ring

/-- The conversion of a rational number to `int` truncates. -/
theorem floatToInt_truncates (x : ℚ) (m : Int) (h : floatToInt x = some m) :
    m = if 0 ≤ x then ⌊x⌋ else ⌈x⌉ := by
  unfold floatToInt at h
  dsimp only at h
  by_cases hr : (-(INT_MAX : Int) - 1 ≤ (if 0 ≤ x then ⌊x⌋ else ⌈x⌉) ∧
      (if 0 ≤ x then ⌊x⌋ else ⌈x⌉) ≤ (INT_MAX : Int))
  · rw [if_pos hr] at h
    exact (Option.some.inj h).symm
  · rw [if_neg hr] at h
    cases h

/-- C23, the claim fails at two inputs, with values on which the operations of `float`
are exact. With `dt = 1`, the rate 4294967296, the multiplier 1 and the accumulator 0
the claim has 4294967296 particles appended, but the conversion of that number to `int`
is undefined. And with `dt = 1/10`, the rate 25, the multiplier 1 and the accumulator
1/2 the claim has three particles appended, but with `INT_MAX` as the next guid the
increment of `mNextParticleId` overflows at the first one. -/
theorem particleEmitter_update_undefined_beyond_int :
    ⌊floodEmitter.mParticlesToEmit +
      floodEmitter.mParams.emissionRate * floodEmitter.mEmissionRateMultiplier * (1 : ℚ)⌋ =
      4294967296 ∧
    floodEmitter.update exactArithmetic sampleEmitterEnvironment 1 sampleEmitterRun = none ∧
    ⌊sampleEmitter.mParticlesToEmit +
      sampleEmitter.mParams.emissionRate * sampleEmitter.mEmissionRateMultiplier * (1 / 10 : ℚ)⌋ =
      3 ∧
    sampleEmitter.update exactArithmetic sampleEmitterEnvironment (1 / 10) lastGuidRun =
      none := by
  refine ⟨by with_unfolding_all decide, by with_unfolding_all rfl,
    by with_unfolding_all decide, by with_unfolding_all rfl⟩

/-- C23, amended. Let `value` give the number of each finite `float` value, and let the
arithmetic have these properties of the operations of `float`: the conversion to `int`
is defined for finite values only and truncates; a sum and a product of values that are
not negative numbers are not negative numbers; and for a finite value that is not
negative and is converted to `int`, the difference of the value and the converted result
is exact. For `dt > 0`, an emission rate and a multiplier that are not negative and an
accumulator in `[0, 1)`, let `x` be the value of `mParticlesToEmit` after the `+=`, as the
rounding operations give it. When the conversion of `x` to `int` is defined, with the
result `n`, and the `n` guids from `mNextParticleId` on do not pass `INT_MAX`, then `n` is
the floor of `x`; `update` appends `n` particles after the particles of the vector, which
it leaves as they are; the accumulator becomes `x - n`, which is in `[0, 1)`; and the
guids of the new particles are the `n` numbers from `mNextParticleId` on, which are
pairwise distinct. -/
theorem particleEmitter_update_emits {F R Q : Type} (ops : FloatArithmetic F)
    (value : F → Option ℚ) (env : EmitterEnvironment F R Q) (dt : F)
    (e : ParticleEmitter F Q) (r : EmitterRun F R) (n : Int)
    (hconv : ∀ x m, ops.toInt x = some m →
      ∃ v, value x = some v ∧ m = if 0 ≤ v then ⌊v⌋ else ⌈v⌉)
    (hadd : ∀ a b, NotNegative value a → NotNegative value b → NotNegative value (ops.add a b))
    (hmul : ∀ a b, NotNegative value a → NotNegative value b → NotNegative value (ops.mul a b))
    (hsub : ∀ x v, value x = some v → 0 ≤ v → ops.toInt x = some ⌊v⌋ →
      value (ops.sub x (ops.ofInt ⌊v⌋)) = some (v - ⌊v⌋))
    (hdt : ∃ v, value dt = some v ∧ 0 < v)
    (hrate : ∃ v, value e.mParams.emissionRate = some v ∧ 0 ≤ v)
    (hmult : ∃ v, value e.mEmissionRateMultiplier = some v ∧ 0 ≤ v)
    (ha : ∃ v, value e.mParticlesToEmit = some v ∧ 0 ≤ v ∧ v < 1)
    (hdefined : ops.toInt (e.toEmit ops dt) = some n)
    (hid : r.mNextParticleId + n ≤ (INT_MAX : Int)) :
    ∃ v e1 r1 new, value (e.toEmit ops dt) = some v ∧ n = ⌊v⌋ ∧
      e.update ops env dt r = some (e1, r1) ∧
      r1.particles = r.particles ++ new ∧
      (new.length : Int) = n ∧
      value e1.mParticlesToEmit = some (v - n) ∧
      0 ≤ v - n ∧ v - n < 1 ∧
      new.map Particle.guid =
        (List.range new.length).map (fun (k : Nat) => r.mNextParticleId + (k : Int)) ∧
      (new.map Particle.guid).Nodup := by
  have hnn : ∀ (y : F), (∃ v, value y = some v ∧ 0 ≤ v) → NotNegative value y := by
    intro y hy v hv
    obtain ⟨w, hw, hw0⟩ := hy
    rw [hw] at hv
    cases hv
    exact hw0
  have hx : NotNegative value (e.toEmit ops dt) := by
    unfold ParticleEmitter.toEmit
    obtain ⟨va, hva, hva0, -⟩ := ha
    obtain ⟨vd, hvd, hvd0⟩ := hdt
    exact hadd _ _ (hnn _ ⟨va, hva, hva0⟩)
      (hmul _ _ (hmul _ _ (hnn _ hrate) (hnn _ hmult)) (hnn _ ⟨vd, hvd, le_of_lt hvd0⟩))
  obtain ⟨v, hv, hn⟩ := hconv _ _ hdefined
  have hv0 : 0 ≤ v := hx v hv
  rw [if_pos hv0] at hn
  have hfloor : 0 ≤ ⌊v⌋ := Int.floor_nonneg.2 hv0
  have hfrac0 : 0 ≤ v - ⌊v⌋ := by linarith [Int.floor_le v]
  have hfrac1 : v - ⌊v⌋ < 1 := by linarith [Int.lt_floor_add_one v]
  subst hn
  unfold ParticleEmitter.update
  simp only [hdefined]
  by_cases hpos : ⌊v⌋ > 0
  · rw [if_pos hpos]
    obtain ⟨r1, new, h1, h2, h3, h4⟩ := emitLoop_spec ops env e
      (match e.mPrevPosition with
        | some prev => env.vectorDivide (env.vectorSub env.getPosition prev) dt
        | none => Vector3.zero) (ops.div dt (ops.ofInt ⌊v⌋)) ⌊v⌋.toNat ops.zero r (by
        rw [Int.toNat_of_nonneg hfloor]; exact hid)
    have hlen : new.length = ⌊v⌋.toNat := by
      have := congrArg List.length h3
      simpa using this
    refine ⟨v, _, r1, new, hv, rfl, by rw [h1]; rfl, h2, ?_, ?_, hfrac0, hfrac1, ?_, ?_⟩
    · rw [hlen, Int.toNat_of_nonneg hfloor]
    · exact hsub _ v hv hv0 hdefined
    · rw [hlen]; exact h3
    · rw [h3]
      apply List.Nodup.map _ (List.nodup_range _)
      intro a b hab
      simpa using hab
  · rw [if_neg hpos]
    have hzero : ⌊v⌋ = 0 := by omega
    refine ⟨v, _, r, [], hv, rfl, rfl, by simp, by simp [hzero], ?_, hfrac0, hfrac1,
      by simp, by simp⟩
    show value (e.toEmit ops dt) = _
    rw [hv, hzero]
    simp

/-- C23, amended, at a sample with the arithmetic that does not round: the accumulator is
1/2, the rate 25 and `dt` 1/10, so that three particles with the guids 7, 8 and 9 are
appended and the accumulator is 0 afterwards. -/
theorem particleEmitter_update_emits_witness :
    ∃ v e1 r1 new, some (sampleEmitter.toEmit exactArithmetic (1 / 10)) = some v ∧
      (3 : Int) = ⌊v⌋ ∧
      sampleEmitter.update exactArithmetic sampleEmitterEnvironment (1 / 10) sampleEmitterRun =
        some (e1, r1) ∧
      r1.particles = sampleEmitterRun.particles ++ new ∧
      (new.length : Int) = 3 ∧
      some e1.mParticlesToEmit = some (v - (3 : Int)) ∧
      0 ≤ v - (3 : Int) ∧ v - (3 : Int) < 1 ∧
      new.map Particle.guid =
        (List.range new.length).map
          (fun (k : Nat) => sampleEmitterRun.mNextParticleId + (k : Int)) ∧
      (new.map Particle.guid).Nodup :=
  particleEmitter_update_emits exactArithmetic some sampleEmitterEnvironment (1 / 10)
    sampleEmitter sampleEmitterRun 3
    (fun x m hm => ⟨x, rfl, floatToInt_truncates x m hm⟩)
    (by
      intro a b ha hb v hv
      cases hv
      exact add_nonneg (ha a rfl) (hb b rfl))
    (by
      intro a b ha hb v hv
      cases hv
      exact mul_nonneg (ha a rfl) (hb b rfl))
    (by
      intro x v hx _ _
      cases hx
      rfl)
    ⟨1 / 10, rfl, by norm_num⟩ ⟨25, rfl, by norm_num⟩ ⟨1, rfl, by norm_num⟩
    ⟨1 / 2, rfl, by norm_num, by norm_num⟩
    (by with_unfolding_all rfl) (by with_unfolding_all decide)

/-- The guids and the accumulator of the sample. -/
theorem particleEmitter_update_sample :
    (sampleEmitter.update exactArithmetic sampleEmitterEnvironment (1 / 10)
      sampleEmitterRun).map
      (fun s => (s.1.mParticlesToEmit, s.2.particles.map Particle.guid,
        s.2.mNextParticleId)) = some (0, [6, 7, 8, 9], 10) := by
  with_unfolding_all decide

/-- After the block that calculates them, the wind velocity has a value exactly when a
planet was found and a previous planet transform exists, and the damping factor has been
assigned whenever the wind velocity has a value. -/
theorem calculateWindAndDamping_spec {P M : Type} (env : IntegratorEnvironment P M)
    (params : ParticleIntegrator.Params) (dt : ℚ) (front : Particle ℚ) (prev : Option M) :
    ((ParticleIntegrator.calculateWindAndDamping env params dt front prev).windVelocity.isSome =
        true ↔
      (env.nearestPlanetProvider front.position).isSome = true ∧ prev.isSome = true) ∧
    ((ParticleIntegrator.calculateWindAndDamping env params dt front prev).windVelocity.isSome =
        true →
      (ParticleIntegrator.calculateWindAndDamping env params dt front
        prev).velocityDamping.isSome = true) := by
  unfold ParticleIntegrator.calculateWindAndDamping
  cases env.nearestPlanetProvider front.position <;> cases prev <;> simp

/-- The loop of `ParticleIntegrator::update` when the damping factor has been assigned
or the wind velocity has no value. -/
theorem mapM_integrate_isSome {P M : Type} (env : IntegratorEnvironment P M)
    (params : ParticleIntegrator.Params) (dt : ℚ) (locals : WindAndDamping M)
    (h : locals.windVelocity.isSome = true → locals.velocityDamping.isSome = true) :
    ∀ particles : List (Particle ℚ),
      ∃ result, particles.mapM (ParticleIntegrator.integrate env params dt locals) =
        some result := by
  intro particles
  induction particles with
  | nil => exact ⟨[], rfl⟩
  | cons p rest ih =>
    obtain ⟨result, hr⟩ := ih
    have hp : ∃ q, ParticleIntegrator.integrate env params dt locals p = some q := by
      unfold ParticleIntegrator.integrate
      cases hw : locals.windVelocity with
      | none => exact ⟨_, rfl⟩
      | some w =>
        cases hd : locals.velocityDamping with
        | none => rw [hw, hd] at h; simp at h
        | some d => exact ⟨_, rfl⟩
    obtain ⟨q, hq⟩ := hp
    exact ⟨q :: result, by rw [List.mapM_cons, hq, hr]; rfl⟩

/-- The loop of `ParticleIntegrator::update` when the wind velocity has no value: the
velocities stay, and each position advances by the velocity times `dt`. -/
theorem mapM_integrate_no_wind {P M : Type} (env : IntegratorEnvironment P M)
    (params : ParticleIntegrator.Params) (dt : ℚ) (locals : WindAndDamping M)
    (h : locals.windVelocity = none) :
    ∀ (particles result : List (Particle ℚ)),
      particles.mapM (ParticleIntegrator.integrate env params dt locals) = some result →
      result.map Particle.velocity = particles.map Particle.velocity ∧
      result.map Particle.position =
        particles.map (fun p => p.position.add (p.velocity.scale dt)) := by
  intro particles
  induction particles with
  | nil =>
    intro result hr
    cases hr
    exact ⟨rfl, rfl⟩
  | cons p rest ih =>
    intro result hr
    have hp : ParticleIntegrator.integrate env params dt locals p =
        some { p with
          position := p.position.add (p.velocity.scale dt)
          radius := p.radius + params.radiusLinearGrowthPerSecond * dt
          alpha := env.mix p.initialAlpha 0 (p.age / params.lifetime) } := by
      unfold ParticleIntegrator.integrate
      rw [h]
      rfl
    rw [List.mapM_cons, hp] at hr
    cases hrest : rest.mapM (ParticleIntegrator.integrate env params dt locals) with
    | none => rw [hrest] at hr; cases hr
    | some tail =>
      rw [hrest] at hr
      cases hr
      obtain ⟨h1, h2⟩ := ih tail hrest
      exact ⟨by rw [List.map_cons, h1]; rfl, by rw [List.map_cons, h2]; rfl⟩

/-- C24: `ParticleIntegrator::update` never reads `velocityDamping` before it is
assigned, that is, it returns for every input; the wind velocity has a value exactly when
a planet was found and a previous planet transform exists, and then `velocityDamping`
has been assigned; when no planet is found at the first particle, or there is no
previous planet transform, every velocity is left as it is and every position advances
by the velocity times `dt`; and with an empty vector of particles the state, with the
list of calls of the planet provider, is left as it is. -/
theorem particleIntegrator_update_defined {P M : Type} (env : IntegratorEnvironment P M)
    (params : ParticleIntegrator.Params) (dt : ℚ) (r : IntegratorRun M) :
    (∃ r1, ParticleIntegrator.update env params dt r = some r1) ∧
    (∀ front prev,
      ((ParticleIntegrator.calculateWindAndDamping env params dt front prev).windVelocity.isSome
          = true ↔
        (env.nearestPlanetProvider front.position).isSome = true ∧ prev.isSome = true) ∧
      ((ParticleIntegrator.calculateWindAndDamping env params dt front prev).windVelocity.isSome
          = true →
        (ParticleIntegrator.calculateWindAndDamping env params dt front
          prev).velocityDamping.isSome = true)) ∧
    (∀ front rest r1, r.particles = front :: rest →
      env.nearestPlanetProvider front.position = none ∨ r.mPrevPlanetTransform = none →
      ParticleIntegrator.update env params dt r = some r1 →
      r1.particles.map Particle.velocity = r.particles.map Particle.velocity ∧
      r1.particles.map Particle.position =
        r.particles.map (fun p => p.position.add (p.velocity.scale dt))) ∧
    (r.particles = [] → ParticleIntegrator.update env params dt r = some r) := by
  refine ⟨?_, fun front prev => calculateWindAndDamping_spec env params dt front prev, ?_, ?_⟩
  · unfold ParticleIntegrator.update
    cases hp : r.particles with
    | nil => exact ⟨r, rfl⟩
    | cons front rest =>
      obtain ⟨result, hr⟩ := mapM_integrate_isSome env params dt
        (ParticleIntegrator.calculateWindAndDamping env params dt front r.mPrevPlanetTransform)
        (calculateWindAndDamping_spec env params dt front r.mPrevPlanetTransform).2
        (front :: rest)
      dsimp only
      rw [hr]
      exact ⟨_, rfl⟩
  · intro front rest r1 hp hno hupdate
    have hwind : (ParticleIntegrator.calculateWindAndDamping env params dt front
        r.mPrevPlanetTransform).windVelocity = none := by
      have h := (calculateWindAndDamping_spec env params dt front r.mPrevPlanetTransform).1
      cases hw : (ParticleIntegrator.calculateWindAndDamping env params dt front
        r.mPrevPlanetTransform).windVelocity with
      | none => rfl
      | some w =>
        rw [hw] at h
        have h2 := h.1 rfl
        rcases hno with hno | hno
        · rw [hno] at h2; simp at h2
        · rw [hno] at h2; simp at h2
    unfold ParticleIntegrator.update at hupdate
    rw [hp] at hupdate
    dsimp only at hupdate
    rcases Option.map_eq_some'.1 hupdate with ⟨result, hresult, hr1⟩
    rw [← hr1, hp]
    exact mapM_integrate_no_wind env params dt _ hwind (front :: rest) result hresult
  · intro hp
    unfold ParticleIntegrator.update
    rw [hp]

/-- C24 at a sample, the first update of an integrator near a planet: there is no
previous planet transform, so that the velocities stay and the positions advance. -/
theorem particleIntegrator_update_defined_witness :
    ∃ r1, ParticleIntegrator.update sampleIntegratorEnvironment sampleIntegratorParams (1 / 2)
        sampleIntegratorRun = some r1 ∧
      r1.particles.map Particle.velocity = [⟨1, 2, 3⟩, ⟨0, 1, 0⟩] ∧
      r1.particles.map Particle.position = [⟨5 / 2, 1, 3 / 2⟩, ⟨3, 1 / 2, 0⟩] ∧
      r1.mPrevPlanetTransform = some 5 ∧ r1.providerCalls = [⟨2, 0, 0⟩] := by
  obtain ⟨r1, hr1⟩ := (particleIntegrator_update_defined sampleIntegratorEnvironment
    sampleIntegratorParams (1 / 2) sampleIntegratorRun).1
  have h := (particleIntegrator_update_defined sampleIntegratorEnvironment
    sampleIntegratorParams (1 / 2) sampleIntegratorRun).2.2.1 _ _ r1 rfl (Or.inr rfl) hr1
  refine ⟨r1, hr1, ?_, ?_, ?_, ?_⟩
  · rw [h.1]; rfl
  · rw [h.2]; with_unfolding_all decide
  · have : (ParticleIntegrator.update sampleIntegratorEnvironment sampleIntegratorParams
        (1 / 2) sampleIntegratorRun).map (fun s => s.mPrevPlanetTransform) = some (some 5) := by
      with_unfolding_all decide
    rw [hr1] at this
    simpa using this
  · have : (ParticleIntegrator.update sampleIntegratorEnvironment sampleIntegratorParams
        (1 / 2) sampleIntegratorRun).map (fun s => s.providerCalls) = some [⟨2, 0, 0⟩] := by
      with_unfolding_all decide
    rw [hr1] at this
    simpa using this

/-- The name that `createUniqueObjectName` returns begins with the base name, and the
exception that it throws is a `skybolt::Exception`. -/
theorem createUniqueObjectName_cases {O : Type} (getObjectByName : String → Option O)
    (baseName : String) :
    (∃ i : Nat, createUniqueObjectName getObjectByName baseName =
      .ok (baseName ++ toString i)) ∨
    createUniqueObjectName getObjectByName baseName =
      .error ⟨.skyboltException,
        "Could not create unique object name from base name: " ++ baseName⟩ := by
  unfold createUniqueObjectName
  generalize INT_MAX - 1 = fuel
  generalize 1 = i
  induction fuel generalizing i with
  | zero => right; rfl
  | succ fuel ih =>
    unfold createUniqueObjectNameLoop
    split
    · left; exact ⟨i, rfl⟩
    · exact ih (i + 1)

/-- The keys of the map of built-in templates. -/
theorem mBuiltinTemplates_lookup_eq_none (f : EntityFactory) (templateName : String) :
    f.mBuiltinTemplates.lookup templateName = none ↔
      templateName ∉ ["SunBillboard", "MoonBillboard", "Stars", "Polyline"] := by
  unfold EntityFactory.mBuiltinTemplates
  simp only [List.lookup, List.mem_cons, List.mem_singleton, List.not_mem_nil, or_false,
    not_or]
  by_cases h1 : templateName = "SunBillboard"
  · simp [h1]
  by_cases h2 : templateName = "MoonBillboard"
  · simp [h2]
  by_cases h3 : templateName = "Stars"
  · simp [h3]
  by_cases h4 : templateName = "Polyline"
  · simp [h4]
  have e1 : (templateName == "SunBillboard") = false := by simpa using h1
  have e2 : (templateName == "MoonBillboard") = false := by simpa using h2
  have e3 : (templateName == "Stars") = false := by simpa using h3
  have e4 : (templateName == "Polyline") = false := by simpa using h4
  simp [h1, h2, h3, h4, e1, e2, e3, e4]

/-- A call of `createEntity` for a JSON template does not throw a `std::runtime_error`
itself. -/
theorem createEntity_json_not_runtimeError (f : EntityFactory) (templateName nameIn : String)
    (position : Vector3) (orientation : Quat) (r : FactoryRun) (json : Json)
    (hjson : f.mTemplateJsonMap.lookup templateName = some json) (what : String) :
    (f.createEntity templateName nameIn position orientation r).1 ≠
      .error ⟨.runtimeError, what⟩ := by
  unfold EntityFactory.createEntity
  rw [hjson]
  dsimp only
  have hname : ∀ e, (if nameIn.isEmpty = true then
      createUniqueObjectName f.mContext.getObjectByName templateName
      else Except.ok nameIn) = .error e → e.type = .skyboltException := by
    intro e he
    split at he
    · rcases createUniqueObjectName_cases f.mContext.getObjectByName templateName with
        ⟨i, h⟩ | h
      · rw [h] at he; cases he
      · rw [h] at he; cases he; rfl
    · cases he
  cases hn : (if nameIn.isEmpty = true then
      createUniqueObjectName f.mContext.getObjectByName templateName
      else Except.ok nameIn) with
  | error e =>
    have := hname e hn
    intro h
    simp only [Except.error.injEq] at h
    rw [h] at this
    cases this
  | ok name =>
    dsimp only
    cases hc : f.createEntityFromJson json templateName name position orientation r with
    | mk res r1 =>
      cases res with
      | ok u => simp
      | error e =>
        dsimp only
        split
        · rename_i ht
          intro h
          simp only [Except.error.injEq] at h
          rw [h] at ht
          cases ht
        · simp

/-- C29: `createEntity` throws `std::runtime_error("Invalid templateName: " +
templateName)` when the name is neither in the map of JSON templates nor one of the four
built-in names; for a name in the map of JSON templates it never throws a
`std::runtime_error` itself, whether or not the name is built-in too, and what it returns
is the entity of `createEntityFromJson` for the JSON template, with the instance name
given or, when that is empty, the name that `createUniqueObjectName` returns; for a
built-in name that is not in the map of JSON templates it returns what the built-in
creator returns, whatever the instance name is. So, when no built-in creator throws
that very exception, `createEntity` throws it if and only if the name is neither a JSON
template nor built-in. -/
theorem createEntity_invalid_templateName (f : EntityFactory) (templateName nameIn : String)
    (position : Vector3) (orientation : Quat) (r : FactoryRun) :
    (f.mTemplateJsonMap.lookup templateName = none →
      templateName ∉ ["SunBillboard", "MoonBillboard", "Stars", "Polyline"] →
      f.createEntity templateName nameIn position orientation r =
        (.error ⟨.runtimeError, "Invalid templateName: " ++ templateName⟩, r)) ∧
    (∀ json, f.mTemplateJsonMap.lookup templateName = some json →
      (f.createEntity templateName nameIn position orientation r).1 ≠
        .error ⟨.runtimeError, "Invalid templateName: " ++ templateName⟩ ∧
      (∀ r1, nameIn.isEmpty = false →
        f.createEntityFromJson json templateName nameIn position orientation r = (.ok (), r1) →
        f.createEntity templateName nameIn position orientation r = (.ok r1.construction, r1)) ∧
      (∀ name r1, nameIn.isEmpty = true →
        createUniqueObjectName f.mContext.getObjectByName templateName = .ok name →
        f.createEntityFromJson json templateName name position orientation r = (.ok (), r1) →
        f.createEntity templateName nameIn position orientation r = (.ok r1.construction, r1))) ∧
    (f.mTemplateJsonMap.lookup templateName = none →
      ∀ creator, f.mBuiltinTemplates.lookup templateName = some creator →
      ∀ otherName, f.createEntity templateName otherName position orientation r = (creator, r)) ∧
    ((∀ creator, f.mBuiltinTemplates.lookup templateName = some creator →
        creator ≠ .error ⟨.runtimeError, "Invalid templateName: " ++ templateName⟩) →
      ((f.createEntity templateName nameIn position orientation r).1 =
          .error ⟨.runtimeError, "Invalid templateName: " ++ templateName⟩ ↔
        f.mTemplateJsonMap.lookup templateName = none ∧
          templateName ∉ ["SunBillboard", "MoonBillboard", "Stars", "Polyline"])) := by
  have hneither : f.mTemplateJsonMap.lookup templateName = none →
      templateName ∉ ["SunBillboard", "MoonBillboard", "Stars", "Polyline"] →
      f.createEntity templateName nameIn position orientation r =
        (.error ⟨.runtimeError, "Invalid templateName: " ++ templateName⟩, r) := by
    intro hjson hbuiltin
    unfold EntityFactory.createEntity
    rw [hjson, (mBuiltinTemplates_lookup_eq_none f templateName).2 hbuiltin]
  have hbuiltinPath : f.mTemplateJsonMap.lookup templateName = none →
      ∀ creator, f.mBuiltinTemplates.lookup templateName = some creator →
      ∀ otherName, f.createEntity templateName otherName position orientation r =
        (creator, r) := by
    intro hjson creator hcreator otherName
    unfold EntityFactory.createEntity
    rw [hjson, hcreator]
  refine ⟨hneither, ?_, hbuiltinPath, ?_⟩
  · intro json hjson
    refine ⟨createEntity_json_not_runtimeError f templateName nameIn position orientation r
      json hjson _, ?_, ?_⟩
    · intro r1 hname hcreate
      unfold EntityFactory.createEntity
      rw [hjson]
      simp only [hname, Bool.false_eq_true, if_false, hcreate]
    · intro name r1 hname hunique hcreate
      unfold EntityFactory.createEntity
      rw [hjson]
      simp only [hname, if_true, hunique, hcreate]
  · intro hcreators
    constructor
    · intro hthrow
      cases hjson : f.mTemplateJsonMap.lookup templateName with
      | some json =>
        exact absurd hthrow (createEntity_json_not_runtimeError f templateName nameIn position
          orientation r json hjson _)
      | none =>
        refine ⟨rfl, ?_⟩
        cases hb : f.mBuiltinTemplates.lookup templateName with
        | none => exact (mBuiltinTemplates_lookup_eq_none f templateName).1 hb
        | some creator =>
          rw [hbuiltinPath hjson creator hb nameIn] at hthrow
          exact absurd hthrow (hcreators creator hb)
    · intro h
      rw [hneither h.1 h.2]

/-- C29 at the sample factory: `Tank` is neither a JSON template nor built-in; `Stars` is
both, and the JSON template is used, of which the camera loader adds a binding; and for
the JSON template `Ship` an empty instance name is replaced by `Ship1`. -/
theorem createEntity_invalid_templateName_witness :
    sampleFactory.createEntity "Tank" "" ⟨0, 0, 0⟩ ⟨0, ⟨0, 0, 1⟩⟩ emptyFactoryRun =
      (.error ⟨.runtimeError, "Invalid templateName: " ++ "Tank"⟩, emptyFactoryRun) ∧
    (sampleFactory.createEntity "Stars" "" ⟨0, 0, 0⟩ ⟨0, ⟨0, 0, 1⟩⟩ emptyFactoryRun).1 ≠
      .error ⟨.runtimeError, "Invalid templateName: " ++ "Stars"⟩ ∧
    (sampleFactory.createEntity "Stars" "" ⟨0, 0, 0⟩ ⟨0, ⟨0, 0, 1⟩⟩
      emptyFactoryRun).1.toOption.map (fun c => c.bindings) =
        some [SimVisBinding.cameraSimVisBinding] ∧
    (sampleFactory.createEntity "Ship" "" ⟨0, 0, 0⟩ ⟨0, ⟨0, 0, 1⟩⟩
      emptyFactoryRun).1.toOption.map (fun c => c.components.take 1) =
        some [Component.nameComponent "Ship1"] :=
  ⟨(createEntity_invalid_templateName sampleFactory "Tank" "" ⟨0, 0, 0⟩ ⟨0, ⟨0, 0, 1⟩⟩
      emptyFactoryRun).1 rfl (by decide),
   ((createEntity_invalid_templateName sampleFactory "Stars" "" ⟨0, 0, 0⟩ ⟨0, ⟨0, 0, 1⟩⟩
      emptyFactoryRun).2.1 _ rfl).1,
   by with_unfolding_all decide, by with_unfolding_all decide⟩

/-- When `at` of the library returns, `at` returns. -/
theorem at_of_ok (ctx : EntityFactory.Context) (j value : Json) (key : String)
    (h : j.at key = .ok value) : ctx.at j key = .ok value := by
  unfold EntityFactory.Context.at
  rw [h]

/-- The planet of the template `Earth` has no attribute layer: `createEntity` returns,
and the one planet constructed has a null attribute tile source; and the message for the
template `Globe`. -/
theorem createEntity_planet_samples :
    ((sampleFactory.createEntity "Earth" "" ⟨0, 0, 0⟩ ⟨0, ⟨0, 0, 1⟩⟩
      emptyFactoryRun).2.construction.planets.map
        (fun config => config.planetTileSources)) =
      [{ elevation := some 4, albedo := some 4, attributeSource := none }] ∧
    (sampleFactory.createEntity "Globe" "" ⟨0, 0, 0⟩ ⟨0, ⟨0, 0, 1⟩⟩ emptyFactoryRun).1.toOption =
      none ∧
    "Error loading '" ++ "Globe" ++ "': " ++
        (sampleContext.jsonFailure (.outOfRange "elevation")).what =
      "Error loading 'Globe': key 'elevation' not found" := by
  refine ⟨by with_unfolding_all decide, by with_unfolding_all rfl, by decide⟩

/-- The keys under which a vis component loader is registered. -/
theorem visComponentLoaders_lookup_eq_none (key : String) :
    visComponentLoaders.lookup key = none ↔ key ∉ visComponentKeys := by
  unfold visComponentLoaders visComponentKeys
  simp only [List.lookup, List.mem_cons, List.mem_singleton, List.not_mem_nil, or_false,
    not_or]
  by_cases h1 : key = "camera"
  · simp [h1]
  by_cases h2 : key = "visualModel"
  · simp [h2]
  by_cases h3 : key = "visualMainRotor"
  · simp [h3]
  by_cases h4 : key = "visualTailRotor"
  · simp [h4]
  by_cases h5 : key = "planet"
  · simp [h5]
  have e1 : (key == "camera") = false := by simpa using h1
  have e2 : (key == "visualModel") = false := by simpa using h2
  have e3 : (key == "visualMainRotor") = false := by simpa using h3
  have e4 : (key == "visualTailRotor") = false := by simpa using h4
  have e5 : (key == "planet") = false := by simpa using h5
  simp [h1, h2, h3, h4, h5, e1, e2, e3, e4, e5]

/-- The entries that the inner loop of `createEntityFromJson` visits are the entries of
the element. -/
theorem keyedItems_eq_items (component : Json) (items : List (String × Json))
    (h : component.keyedItems = .ok items) : items = component.items := by
  cases component with
  | null => cases h; rfl
  | boolean b => cases h
  | number x => cases h
  | string t => cases h
  | array elements =>
    cases elements with
    | nil => cases h; rfl
    | cons a rest => cases h
  | object members => cases h; rfl

/-- The sim component block leaves the list of vis component loader calls as it is. -/
theorem dispatchSimComponent_calls (ctx : EntityFactory.Context) (key : String) (content : Json)
    (r : FactoryRun) :
    (dispatchSimComponent ctx key content r).2.visLoaderCalls = r.visLoaderCalls := by
  unfold dispatchSimComponent
  split
  · split <;> rfl
  · rfl

/-- The vis component loader calls of the vis component block: one call when a loader is
registered under the key, and none otherwise. -/
theorem dispatchVisComponent_calls (ctx : EntityFactory.Context) (key : String) (content : Json)
    (r : FactoryRun) :
    (dispatchVisComponent ctx key content r).2.visLoaderCalls = r.visLoaderCalls ++
      [(key, content)].filter (fun kv => decide (kv.1 ∈ visComponentKeys)) := by
  unfold dispatchVisComponent
  cases hl : visComponentLoaders.lookup key with
  | none =>
    have hk := (visComponentLoaders_lookup_eq_none key).1 hl
    rw [List.filter_cons_of_neg (by simpa using hk)]
    simp
  | some loader =>
    have hk : key ∈ visComponentKeys := by
      by_contra hk
      rw [(visComponentLoaders_lookup_eq_none key).2 hk] at hl
      cases hl
    rw [List.filter_cons_of_pos (by simpa using hk)]
    rfl

/-- The vis component loader calls of one key and content: one call when a loader is
registered under the key, and none otherwise, if the body of the loop ends without an
exception. -/
theorem dispatchComponent_calls (ctx : EntityFactory.Context) (key : String) (content : Json)
    (r r1 : FactoryRun) (h : dispatchComponent ctx key content r = (.ok (), r1)) :
    r1.visLoaderCalls = r.visLoaderCalls ++
      [(key, content)].filter (fun kv => decide (kv.1 ∈ visComponentKeys)) := by
  unfold dispatchComponent at h
  have hsim := dispatchSimComponent_calls ctx key content r
  cases hd : dispatchSimComponent ctx key content r with
  | mk res r0 =>
    rw [hd] at h hsim
    cases res with
    | error e => cases h
    | ok u =>
      dsimp only at h hsim
      have hvis := dispatchVisComponent_calls ctx key content r0
      rw [h] at hvis
      rw [← hsim]
      exact hvis

/-- The vis component loader calls of the inner loop of `createEntityFromJson`. -/
theorem dispatchItems_calls (ctx : EntityFactory.Context) :
    ∀ (items : List (String × Json)) (r r1 : FactoryRun),
      dispatchItems ctx items r = (.ok (), r1) →
      r1.visLoaderCalls = r.visLoaderCalls ++
        items.filter (fun kv => decide (kv.1 ∈ visComponentKeys)) := by
  intro items
  induction items with
  | nil =>
    intro r r1 h
    cases h
    simp
  | cons item rest ih =>
    intro r r1 h
    obtain ⟨key, content⟩ := item
    unfold dispatchItems at h
    cases hd : dispatchComponent ctx key content r with
    | mk res r0 =>
      rw [hd] at h
      cases res with
      | error e => cases h
      | ok u =>
        dsimp only at h
        rw [ih r0 r1 h, dispatchComponent_calls ctx key content r r0 hd, List.append_assoc,
          ← List.filter_append]
        rfl

/-- The vis component loader calls of the outer loop of `createEntityFromJson`. -/
theorem dispatchComponents_calls (ctx : EntityFactory.Context) :
    ∀ (elements : List Json) (r r1 : FactoryRun),
      dispatchComponents ctx elements r = (.ok (), r1) →
      r1.visLoaderCalls = r.visLoaderCalls ++
        ((elements.map Json.items).flatten).filter (fun kv => decide (kv.1 ∈ visComponentKeys)) := by
  intro elements
  induction elements with
  | nil =>
    intro r r1 h
    cases h
    simp
  | cons component rest ih =>
    intro r r1 h
    unfold dispatchComponents at h
    cases hk : component.keyedItems with
    | error e => rw [hk] at h; cases h
    | ok items =>
      rw [hk] at h
      dsimp only at h
      cases hd : dispatchItems ctx items r with
      | mk res r0 =>
        rw [hd] at h
        cases res with
        | error e => cases h
        | ok u =>
          dsimp only at h
          rw [ih r0 r1 h, dispatchItems_calls ctx items r r0 hd,
            keyedItems_eq_items component items hk, List.append_assoc, ← List.filter_append]
          simp

/-- C20, the claim fails at the template `Ship`: the one element of its components has
the keys `visualModel`, `camera` and `engine` in this order in the document;
`createEntityFromJson` returns, having invoked the loader of `camera` first and the
loader of `visualModel` second, since the iterator of a JSON object visits the keys in
ascending order. -/
theorem createEntityFromJson_visits_keys_in_ascending_order :
    shipComponentMembers.map Prod.fst = ["visualModel", "camera", "engine"] ∧
    shipTemplate.at "components" = .ok (.array [.object shipComponentMembers]) ∧
    (sampleFactory.createEntityFromJson shipTemplate "Ship" "ship" ⟨0, 0, 0⟩ ⟨0, ⟨0, 0, 1⟩⟩
      emptyFactoryRun).1 = .ok () ∧
    (sampleFactory.createEntityFromJson shipTemplate "Ship" "ship" ⟨0, 0, 0⟩ ⟨0, ⟨0, 0, 1⟩⟩
      emptyFactoryRun).2.visLoaderCalls.map Prod.fst = ["camera", "visualModel"] := by
  refine ⟨by decide, by with_unfolding_all rfl, by with_unfolding_all rfl,
    by with_unfolding_all decide⟩

/-- C20, amended: the static map of vis component loaders has the five keys `camera`,
`visualModel`, `visualMainRotor`, `visualTailRotor` and `planet`. When
`createEntityFromJson` returns, it has invoked a vis component loader once for each
entry of each element of the components of which the key is one of the five, with the
key and the content of the entry, the elements in the order of the array and the entries
of one element in the order in which the iterator of the JSON object visits them, which
is the ascending order of the keys. For a key under which no sim component factory is
registered, the body of the loop invokes the loader registered under it with the content
and nothing else, and it does nothing when no loader is registered under it either. -/
theorem createEntityFromJson_dispatches_vis_loaders (f : EntityFactory)
    (json components : Json) (templateName instanceName : String) (position : Vector3)
    (orientation : Quat) (r r1 : FactoryRun)
    (hcomponents : json.at "components" = .ok components)
    (hcreate : f.createEntityFromJson json templateName instanceName position orientation r =
      (.ok (), r1)) :
    visComponentLoaders.map Prod.fst =
      ["camera", "visualModel", "visualMainRotor", "visualTailRotor", "planet"] ∧
    r1.visLoaderCalls = r.visLoaderCalls ++
      ((components.elements.map Json.items).flatten).filter
        (fun kv => decide (kv.1 ∈ visComponentKeys)) ∧
    (∀ key content r0, f.mContext.componentFactoryRegistry.lookup key = none →
      key ∉ visComponentKeys → dispatchComponent f.mContext key content r0 = (.ok (), r0)) ∧
    (∀ key content loader r0, f.mContext.componentFactoryRegistry.lookup key = none →
      visComponentLoaders.lookup key = some loader →
      dispatchComponent f.mContext key content r0 =
        ((loader f.mContext content r0.construction).1,
         { construction := (loader f.mContext content r0.construction).2
           visLoaderCalls := r0.visLoaderCalls ++ [(key, content)] })) := by
  refine ⟨rfl, ?_, ?_, ?_⟩
  · unfold EntityFactory.createEntityFromJson at hcreate
    rw [at_of_ok f.mContext json components "components" hcomponents] at hcreate
    dsimp only at hcreate
    generalize hstart : ({ r with construction :=
        { r.construction with
          components :=
            [Component.nameComponent instanceName, Component.templateNameComponent templateName,
             Component.simVisBindingsComponent, Component.visObjectsComponent]
          bindings := []
          visObjects := []
          nodePlacement := none } } : FactoryRun) = start at hcreate
    have hs : start.visLoaderCalls = r.visLoaderCalls := by rw [← hstart]
    cases hd : dispatchComponents f.mContext components.elements start with
    | mk res r0 =>
      rw [hd] at hcreate
      cases res with
      | error e => cases hcreate
      | ok u =>
        dsimp only at hcreate
        have h0 := dispatchComponents_calls f.mContext components.elements start r0 hd
        rw [hs] at h0
        split at hcreate
        · cases hcreate
          exact h0
        · cases hcreate
          exact h0
  · intro key content r0 hsim hkey
    unfold dispatchComponent dispatchSimComponent dispatchVisComponent
    rw [hsim, (visComponentLoaders_lookup_eq_none key).2 hkey]
  · intro key content loader r0 hsim hloader
    unfold dispatchComponent dispatchSimComponent dispatchVisComponent
    rw [hsim, hloader]

/-- C20, amended, at the template `Ship`: the loaders of `camera` and of `visualModel` are
invoked, in this order, each with its content. -/
theorem createEntityFromJson_dispatches_vis_loaders_witness :
    (sampleFactory.createEntityFromJson shipTemplate "Ship" "ship" ⟨0, 0, 0⟩ ⟨0, ⟨0, 0, 1⟩⟩
      emptyFactoryRun).2.visLoaderCalls = emptyFactoryRun.visLoaderCalls ++
      (((Json.array [.object shipComponentMembers]).elements.map Json.items).flatten).filter
        (fun kv => decide (kv.1 ∈ visComponentKeys)) :=
  (createEntityFromJson_dispatches_vis_loaders sampleFactory shipTemplate
    (.array [.object shipComponentMembers]) "Ship" "ship" ⟨0, 0, 0⟩ ⟨0, ⟨0, 0, 1⟩⟩
    emptyFactoryRun _ (by with_unfolding_all rfl)
    (Prod.ext (by with_unfolding_all rfl) rfl)).2.1

end Skybolt
